import Mathlib

/-!
SCMI voltage domain protocol: message handlers.

A shallow embedding of `core/drivers/scmi-msg/voltage_domain.c` and theorems
about it.

Conventions of the embedding.

* `size_t`, `unsigned int` and `uint32_t` values are natural numbers; every
  `unsigned int` operation that can wrap is reduced modulo `2^32` explicitly.
  `int32_t` and `long` values are integers; a conversion to `int32_t` is
  `to_int32`.
* The input buffer `msg->in` is a list of bytes, fields are decoded
  little-endian.  The output buffer `msg->out` is a map from 32-bit cell index
  (byte offset divided by four) to the value held by that cell; every field
  the handlers write is 32-bit aligned, so the alignment assertion of
  `scmi_voltd_describe_levels` holds by construction.
* The platform hooks (`plat_scmi_voltd_*`) are the fields of `Plat`: queries
  read a platform state, the two setters also return the next state.  A run
  of a handler records every platform call and every store to `msg->out`.
* `assert` aborts the run (`Fault.assert_failed`) unless `NDEBUG` is set.
-/

namespace VoltageDomain

/-! ## Machine integers and buffers -/

/-- Conversion of an integer value to `int32_t` (two's complement wrap). -/
def to_int32 (v : Int) : Int := (v + 2147483648) % 4294967296 - 2147483648

/-- Byte `i` of an input buffer (zero when the buffer is shorter). -/
def byte_at (buf : List Nat) (i : Nat) : Nat := buf.getD i 0 % 256

/-- Little-endian `uint32_t` field at byte offset `off` of an input buffer. -/
def rd_u32 (buf : List Nat) (off : Nat) : Nat :=
  byte_at buf off + 256 * byte_at buf (off + 1) + 65536 * byte_at buf (off + 2)
    + 16777216 * byte_at buf (off + 3)

/-- Little-endian `int32_t` field at byte offset `off` of an input buffer. -/
def rd_s32 (buf : List Nat) (off : Nat) : Int := to_int32 (rd_u32 buf off)

/-- Little-endian bytes of a `uint32_t` field (used to build requests). -/
def le32 (v : Nat) : List Nat :=
  [v % 256, v / 256 % 256, v / 65536 % 256, v / 16777216 % 256]

/-! ## Constants of the headers -/

/-- Modelled from the spec: status code "success" of `drivers/scmi.h` (the
header is not among the sources); the handlers test it as zero. -/
def SCMI_SUCCESS : Int := 0
/-- Modelled from the spec: status code "not supported" of `drivers/scmi.h`. -/
def SCMI_NOT_SUPPORTED : Int := -1
/-- Modelled from the spec: status code "invalid parameters" of `drivers/scmi.h`. -/
def SCMI_INVALID_PARAMETERS : Int := -2
/-- Modelled from the spec: status code "not found" of `drivers/scmi.h`. -/
def SCMI_NOT_FOUND : Int := -4
/-- Modelled from the spec: status code "generic error" of `drivers/scmi.h`. -/
def SCMI_GENERIC_ERROR : Int := -8
/-- Modelled from the spec: status code "protocol error" of `drivers/scmi.h`. -/
def SCMI_PROTOCOL_ERROR : Int := -10

/-- Modelled from the spec: message identifiers of `common.h` and
`voltage_domain.h` (not among the sources), the indices of `handler_array`. -/
def SCMI_PROTOCOL_VERSION : Nat := 0
/-- Modelled from the spec: message identifier of `common.h`. -/
def SCMI_PROTOCOL_ATTRIBUTES : Nat := 1
/-- Modelled from the spec: message identifier of `common.h`. -/
def SCMI_PROTOCOL_MESSAGE_ATTRIBUTES : Nat := 2
/-- Modelled from the spec: message identifier of `voltage_domain.h`. -/
def SCMI_VOLTAGE_DOMAIN_ATTRIBUTES : Nat := 3
/-- Modelled from the spec: message identifier of `voltage_domain.h`. -/
def SCMI_VOLTAGE_DESCRIBE_LEVELS : Nat := 4
/-- Modelled from the spec: message identifier of `voltage_domain.h`. -/
def SCMI_VOLTAGE_CONFIG_SET : Nat := 5
/-- Modelled from the spec: message identifier of `voltage_domain.h`. -/
def SCMI_VOLTAGE_CONFIG_GET : Nat := 6
/-- Modelled from the spec: message identifier of `voltage_domain.h`. -/
def SCMI_VOLTAGE_LEVEL_SET : Nat := 7
/-- Modelled from the spec: message identifier of `voltage_domain.h`. -/
def SCMI_VOLTAGE_LEVEL_GET : Nat := 8

/-- Modelled from the spec: `GENMASK_32(15, 0)` of `voltage_domain.h`, the
bit field of the protocol attributes that holds the domain count. -/
def SCMI_VOLTAGE_DOMAIN_COUNT_MASK : Nat := 0xFFFF
/-- Modelled from the spec: `GENMASK_32(3, 0)` of `voltage_domain.h`, the
transport-valid bits of a configuration value. -/
def SCMI_VOLTAGE_DOMAIN_CONFIG_MASK : Nat := 0xF
/-- Modelled from the spec: format tag "list" of the describe-levels flags. -/
def SCMI_VOLTD_LEVELS_FORMAT_LIST : Nat := 0
/-- Modelled from the spec: format tag "range" of the describe-levels flags. -/
def SCMI_VOLTD_LEVELS_FORMAT_RANGE : Nat := 1
/-- Modelled from the spec: bits 11..0 of the describe-levels flags, the
number of levels of the response. -/
def SCMI_VOLTAGE_LEVEL_COUNT_MASK : Nat := 0xFFF
/-- Modelled from the spec: position of the format tag in the flags. -/
def SCMI_VOLTAGE_LEVEL_FORMAT_POS : Nat := 12
/-- Modelled from the spec: bit 12 of the flags, the format tag. -/
def SCMI_VOLTAGE_LEVEL_FORMAT_MASK : Nat := 0x1000
/-- Modelled from the spec: position of the remaining count in the flags. -/
def SCMI_VOLTAGE_LEVEL_REMAINING_POS : Nat := 16
/-- Modelled from the spec: bits 31..16 of the flags, the remaining count. -/
def SCMI_VOLTAGE_LEVEL_REMAINING_MASK : Nat := 0xFFFF0000

/-- Modelled from the spec: the macro `SCMI_VOLTAGE_DOMAIN_LEVELS_FLAGS` of
`voltage_domain.h`, which packs count, format tag and remaining count into
the 32-bit flags word.  The shifts are not reduced modulo `2^32` because the
masks keep bits below 32 only. -/
def SCMI_VOLTAGE_DOMAIN_LEVELS_FLAGS (count fmt rem_rates : Nat) : Nat :=
  (count &&& SCMI_VOLTAGE_LEVEL_COUNT_MASK)
    ||| ((rem_rates <<< SCMI_VOLTAGE_LEVEL_REMAINING_POS) &&& SCMI_VOLTAGE_LEVEL_REMAINING_MASK)
    ||| ((fmt <<< SCMI_VOLTAGE_LEVEL_FORMAT_POS) &&& SCMI_VOLTAGE_LEVEL_FORMAT_MASK)

/-- The macro `LEVELS_BY_ARRAY`. -/
def LEVELS_BY_ARRAY (nb_rates rem_rates : Nat) : Nat :=
  SCMI_VOLTAGE_DOMAIN_LEVELS_FLAGS nb_rates SCMI_VOLTD_LEVELS_FORMAT_LIST rem_rates

/-- The macro `LEVELS_BY_STEP`. -/
def LEVELS_BY_STEP : Nat :=
  SCMI_VOLTAGE_DOMAIN_LEVELS_FLAGS 3 SCMI_VOLTD_LEVELS_FORMAT_RANGE 0

/-- The macro `LEVEL_DESC_SIZE`, `sizeof(int32_t)`. -/
def LEVEL_DESC_SIZE : Nat := 4

/-- Modelled from the spec: `sizeof(struct scmi_protocol_message_attributes_a2p)`,
one `uint32_t` message id. -/
def sizeof_message_attributes_a2p : Nat := 4
/-- Modelled from the spec: `sizeof(struct scmi_voltd_attributes_a2p)`, one
`uint32_t` domain id. -/
def sizeof_attributes_a2p : Nat := 4
/-- Modelled from the spec: `sizeof(struct scmi_voltd_describe_levels_a2p)`,
domain id and level index. -/
def sizeof_describe_levels_a2p : Nat := 8
/-- Modelled from the spec: `sizeof(struct scmi_voltd_describe_levels_p2a)`,
status and flags (the level array is a flexible member). -/
def sizeof_describe_levels_p2a : Nat := 8
/-- Modelled from the spec: `sizeof(struct scmi_voltd_config_set_a2p)`, domain
id and configuration. -/
def sizeof_config_set_a2p : Nat := 8
/-- Modelled from the spec: `sizeof(struct scmi_voltd_config_get_a2p)`, one
`uint32_t` domain id. -/
def sizeof_config_get_a2p : Nat := 4
/-- Modelled from the spec: `sizeof(struct scmi_voltd_level_set_a2p)`, domain
id, flags and signed level. -/
def sizeof_level_set_a2p : Nat := 12
/-- Modelled from the spec: `sizeof(struct scmi_voltd_level_get_a2p)`, one
`uint32_t` domain id. -/
def sizeof_level_get_a2p : Nat := 4

/-- Build configuration and header constants the handlers depend on. -/
structure Config where
  /-- Strict-ABI mode: `IS_ENABLED(CFG_SCMI_MSG_STRICT_ABI)`. -/
  CFG_SCMI_MSG_STRICT_ABI : Bool
  /-- Assertions compiled out. -/
  NDEBUG : Bool
  /-- The protocol version constant of `voltage_domain.h`. -/
  SCMI_PROTOCOL_VERSION_VOLTAGE_DOMAIN : Nat

/-! ## Messages, platform interface, runs -/

/-- The message record `struct scmi_msg`.  `in_buf` is the byte content of
`msg->in`; `out` maps a 32-bit cell index of `msg->out` to its content. -/
structure scmi_msg where
  channel_id : Nat
  message_id : Nat
  in_buf : List Nat
  in_size : Nat
  out : Nat → Int
  out_size : Nat
  out_size_out : Nat

/-- Result of `plat_scmi_voltd_levels_array`: the status, the values the
platform stored at `levels[0..]` and the value of `*nb_elts` on return. -/
structure LevelsArrayRet where
  status : Int
  levels : List Int
  nb_elts : Nat

/-- A call of a platform hook with its arguments. -/
inductive PlatCall where
  | count (channel_id : Nat)
  | get_name (channel_id scmi_id : Nat)
  | levels_array (channel_id scmi_id start_index : Nat) (levels_null : Bool) (nb_elts : Nat)
  | levels_by_step (channel_id scmi_id : Nat)
  | get_level (channel_id scmi_id : Nat)
  | set_level (channel_id scmi_id : Nat) (microvolt : Int)
  | get_config (channel_id scmi_id : Nat)
  | set_config (channel_id scmi_id : Nat) (config : Nat)
  deriving DecidableEq, Repr

/-- The platform hooks over a platform state `σ`.  Output parameters are
returned: `levels_array` takes whether `levels` is `NULL` and the incoming
`*nb_elts`; `levels_by_step` returns the values stored in `steps[0..]`;
`get_config` returns the value stored in `*config`, if any. -/
structure Plat (σ : Type) where
  plat_scmi_voltd_count : σ → Nat → Nat
  plat_scmi_voltd_get_name : σ → Nat → Nat → Option (List Nat)
  plat_scmi_voltd_levels_array : σ → Nat → Nat → Nat → Bool → Nat → LevelsArrayRet
  plat_scmi_voltd_levels_by_step : σ → Nat → Nat → Int × List Int
  plat_scmi_voltd_get_level : σ → Nat → Nat → Int
  plat_scmi_voltd_set_level : σ → Nat → Nat → Int → Int × σ
  plat_scmi_voltd_get_config : σ → Nat → Nat → Int × Option Nat
  plat_scmi_voltd_set_config : σ → Nat → Nat → Nat → Int × σ

/-- The weak default hooks of the file: no domain, nothing supported. -/
def weak_plat : Plat Unit where
  plat_scmi_voltd_count := fun _ _ => 0
  plat_scmi_voltd_get_name := fun _ _ _ => none
  plat_scmi_voltd_levels_array := fun _ _ _ _ _ nb_elts => ⟨SCMI_NOT_SUPPORTED, [], nb_elts⟩
  plat_scmi_voltd_levels_by_step := fun _ _ _ => (SCMI_NOT_SUPPORTED, [])
  plat_scmi_voltd_get_level := fun _ _ _ => 0
  plat_scmi_voltd_set_level := fun s _ _ _ => (SCMI_NOT_SUPPORTED, s)
  plat_scmi_voltd_get_config := fun _ _ _ => (SCMI_NOT_SUPPORTED, none)
  plat_scmi_voltd_set_config := fun s _ _ _ => (SCMI_NOT_SUPPORTED, s)

/-- Ways a run ends without a response. -/
inductive Fault where
  | assert_failed
  | out_of_fuel
  deriving DecidableEq, Repr

/-- The state of a run of a handler: the message (with its output buffer),
the platform state, the platform calls made so far and the cell indices of
the stores made to `msg->out` so far, both in program order. -/
structure Run (σ : Type) where
  msg : scmi_msg
  plat : σ
  calls : List PlatCall
  stores : List Nat

/-- Start of a run. -/
def Run.init {σ : Type} (msg : scmi_msg) (s : σ) : Run σ := ⟨msg, s, [], []⟩

/-- Record a platform call. -/
def Run.call {σ : Type} (r : Run σ) (c : PlatCall) : Run σ :=
  { r with calls := r.calls ++ [c] }

/-- Store a 32-bit value in cell `idx` of `msg->out`. -/
def Run.store {σ : Type} (r : Run σ) (idx : Nat) (v : Int) : Run σ :=
  { r with
    msg := { r.msg with out := fun i => if i = idx then v else r.msg.out i }
    stores := r.stores ++ [idx] }

/-- Set `msg->out_size_out`. -/
def Run.set_out_size_out {σ : Type} (r : Run σ) (n : Nat) : Run σ :=
  { r with msg := { r.msg with out_size_out := n } }

/-- Copy of a sequence of 32-bit values to `msg->out` from cell `idx` on. -/
def memcpy_out {σ : Type} (r : Run σ) : Nat → List Int → Run σ
  | _, [] => r
  | idx, w :: ws => memcpy_out (r.store idx w) (idx + 1) ws

/-- Modelled from the spec: `scmi_status_response` of `common.h` (not among
the sources), the minimal status-only response: the status is written at
the start of the output buffer and the written length is one status word. -/
def scmi_status_response {σ : Type} (r : Run σ) (status : Int) : Run σ :=
  (r.store 0 status).set_out_size_out 4

/-- Modelled from the spec: `scmi_write_response` of `common.h` (not among
the sources), the status-plus-payload response of `4 * payload.length`
bytes; an output buffer too small for it gets Protocol Error. -/
def scmi_write_response {σ : Type} (r : Run σ) (payload : List Int) : Run σ :=
  if r.msg.out_size < 4 * payload.length then
    scmi_status_response r SCMI_PROTOCOL_ERROR
  else
    (memcpy_out r 0 payload).set_out_size_out (4 * payload.length)

/-- Modelled from the spec: `confine_array_index` of `confine_array_index.h`
(not among the sources): an index below `size` is returned unchanged, any
other index is clamped into the valid range. -/
def confine_array_index (index size : Nat) : Nat :=
  if index < size then index else 0

/-- Modelled from the spec: `COPY_NAME_IDENTIFIER` of `common.h` (not among
the sources): the name, truncated and null-padded to the 16 bytes of the
field, as four little-endian 32-bit cells. -/
def COPY_NAME_IDENTIFIER (name : List Nat) : List Int :=
  let field := (name.take 15 ++ List.replicate 16 0).take 16
  (List.range 4).map (fun k => (rd_u32 field (4 * k) : Int))

/-! ## Handlers -/

/-- The handler `report_version`. -/
def report_version {σ : Type} (cfg : Config) (_p : Plat σ) (s : σ) (msg : scmi_msg) :
    Except Fault (Run σ) :=
  let r := Run.init msg s
  if cfg.CFG_SCMI_MSG_STRICT_ABI && msg.in_size != 0 then
    .ok (scmi_status_response r SCMI_PROTOCOL_ERROR)
  else
    .ok (scmi_write_response r [SCMI_SUCCESS, (cfg.SCMI_PROTOCOL_VERSION_VOLTAGE_DOMAIN : Int)])

/-- The handler `report_attributes`. -/
def report_attributes {σ : Type} (cfg : Config) (p : Plat σ) (s : σ) (msg : scmi_msg) :
    Except Fault (Run σ) :=
  let domain_count := p.plat_scmi_voltd_count s msg.channel_id
  let r := (Run.init msg s).call (.count msg.channel_id)
  -- assert(!(domain_count & ~SCMI_VOLTAGE_DOMAIN_COUNT_MASK)), the mask is 32 bits wide
  if !cfg.NDEBUG && (domain_count &&& (0xFFFFFFFF - SCMI_VOLTAGE_DOMAIN_COUNT_MASK)) != 0 then
    .error .assert_failed
  else if cfg.CFG_SCMI_MSG_STRICT_ABI && msg.in_size != 0 then
    .ok (scmi_status_response r SCMI_PROTOCOL_ERROR)
  else
    .ok (scmi_write_response r [SCMI_SUCCESS, ((domain_count % 4294967296 : Nat) : Int)])

/-- Tags of the handlers, the entries of the dispatch table. -/
inductive HandlerTag where
  | report_version
  | report_attributes
  | report_message_attributes
  | scmi_voltd_domain_attributes
  | scmi_voltd_describe_levels
  | scmi_voltd_config_set
  | scmi_voltd_config_get
  | scmi_voltd_level_set
  | scmi_voltd_level_get
  deriving DecidableEq, Repr

/-- The dispatch table `handler_array`; the designated initialisers fill the
slots 0 to 8 in this order. -/
def handler_array : List (Option HandlerTag) :=
  [ some .report_version,
    some .report_attributes,
    some .report_message_attributes,
    some .scmi_voltd_domain_attributes,
    some .scmi_voltd_describe_levels,
    some .scmi_voltd_config_set,
    some .scmi_voltd_config_get,
    some .scmi_voltd_level_set,
    some .scmi_voltd_level_get ]

/-- The function `message_id_is_supported`. -/
def message_id_is_supported (id : Nat) : Bool :=
  decide (id < handler_array.length) && (handler_array.getD id none).isSome

/-- The handler `report_message_attributes`. -/
def report_message_attributes {σ : Type} (_cfg : Config) (_p : Plat σ) (s : σ)
    (msg : scmi_msg) : Except Fault (Run σ) :=
  let r := Run.init msg s
  if msg.in_size ≠ sizeof_message_attributes_a2p then
    .ok (scmi_status_response r SCMI_PROTOCOL_ERROR)
  else if !message_id_is_supported (rd_u32 msg.in_buf 0) then
    .ok (scmi_status_response r SCMI_NOT_FOUND)
  else
    .ok (scmi_write_response r [SCMI_SUCCESS, 0])

/-- The handler `scmi_voltd_domain_attributes`. -/
def scmi_voltd_domain_attributes {σ : Type} (_cfg : Config) (p : Plat σ) (s : σ)
    (msg : scmi_msg) : Except Fault (Run σ) :=
  let r := Run.init msg s
  if msg.in_size ≠ sizeof_attributes_a2p then
    .ok (scmi_status_response r SCMI_PROTOCOL_ERROR)
  else
    let r1 := r.call (.count msg.channel_id)
    if rd_u32 msg.in_buf 0 ≥ p.plat_scmi_voltd_count s msg.channel_id then
      .ok (scmi_status_response r1 SCMI_INVALID_PARAMETERS)
    else
      let r2 := r1.call (.count msg.channel_id)
      let domain_id :=
        confine_array_index (rd_u32 msg.in_buf 0) (p.plat_scmi_voltd_count s msg.channel_id)
          % 4294967296
      let r3 := r2.call (.get_name msg.channel_id domain_id)
      match p.plat_scmi_voltd_get_name s msg.channel_id domain_id with
      | none => .ok (scmi_status_response r3 SCMI_NOT_FOUND)
      | some name =>
        .ok (scmi_write_response r3 ([SCMI_SUCCESS, 0] ++ COPY_NAME_IDENTIFIER name))

/-- How the level loop of `scmi_voltd_describe_levels` ends: its condition
fails (`done`, with the final `level_index`), a fetch fails (`fail`, the
jump to `out` with that status), or the fuel of the model is used up. -/
inductive LoopExit (σ : Type) where
  | done (level_index : Nat) (r : Run σ)
  | fail (status : Int) (r : Run σ)
  | out_of_fuel

/-- The `while` loop of `scmi_voltd_describe_levels`; `out_idx` is the cell
index `out_levels` points to. -/
def levels_loop {σ : Type} (p : Plat σ) (channel_id domain_id nb_levels : Nat) :
    Nat → Nat → Nat → Nat → Run σ → LoopExit σ
  | 0, avail_sz, level_index, _, r =>
    if LEVEL_DESC_SIZE ≤ avail_sz ∧ level_index < nb_levels then .out_of_fuel
    else .done level_index r
  | fuel + 1, avail_sz, level_index, out_idx, r =>
    if LEVEL_DESC_SIZE ≤ avail_sz ∧ level_index < nb_levels then
      let ret := p.plat_scmi_voltd_levels_array r.plat channel_id domain_id level_index false 1
      let r1 := r.call (.levels_array channel_id domain_id level_index false 1)
      if ret.status ≠ 0 then .fail ret.status r1
      else
        let plat_level := ret.levels.headD 0
        let r2 := r1.store out_idx (to_int32 plat_level)
        levels_loop p channel_id domain_id nb_levels fuel (avail_sz - LEVEL_DESC_SIZE)
          ((level_index + 1) % 4294967296) (out_idx + 1) r2
    else .done level_index r

/-- The handler `scmi_voltd_describe_levels`. -/
def scmi_voltd_describe_levels {σ : Type} (_cfg : Config) (p : Plat σ) (s : σ)
    (msg : scmi_msg) : Except Fault (Run σ) :=
  let r := Run.init msg s
  if msg.in_size ≠ sizeof_describe_levels_a2p then
    .ok (scmi_status_response r SCMI_PROTOCOL_ERROR)
  else
    let r1 := r.call (.count msg.channel_id)
    if rd_u32 msg.in_buf 0 ≥ p.plat_scmi_voltd_count s msg.channel_id then
      .ok (scmi_status_response r1 SCMI_INVALID_PARAMETERS)
    else if msg.out_size < sizeof_describe_levels_p2a then
      .ok (scmi_status_response r1 SCMI_INVALID_PARAMETERS)
    else
      let r2 := r1.call (.count msg.channel_id)
      let domain_id :=
        confine_array_index (rd_u32 msg.in_buf 0) (p.plat_scmi_voltd_count s msg.channel_id)
          % 4294967296
      let probe := p.plat_scmi_voltd_levels_array s msg.channel_id domain_id 0 true 0
      let r3 := r2.call (.levels_array msg.channel_id domain_id 0 true 0)
      let nb_levels := probe.nb_elts
      if probe.status = SCMI_SUCCESS then
        let avail_sz := msg.out_size - sizeof_describe_levels_p2a
        let level_index := rd_u32 msg.in_buf 4
        if avail_sz < LEVEL_DESC_SIZE ∧ nb_levels ≠ 0 then
          .ok (scmi_status_response r3 SCMI_PROTOCOL_ERROR)
        else
          match levels_loop p msg.channel_id domain_id nb_levels (avail_sz / LEVEL_DESC_SIZE)
              avail_sz level_index (sizeof_describe_levels_p2a / 4) r3 with
          | .out_of_fuel => .error .out_of_fuel
          | .fail status r4 => .ok (scmi_status_response r4 status)
          | .done level_index_end r4 =>
            let remaining :=
              (((nb_levels : Int) - (rd_u32 msg.in_buf 4 : Int)) % 4294967296).toNat
            let out_count :=
              (((level_index_end : Int) - (rd_u32 msg.in_buf 4 : Int)) % 4294967296).toNat
            let flags := LEVELS_BY_ARRAY out_count remaining
            .ok ((memcpy_out r4 0 [SCMI_SUCCESS, (flags : Int)]).set_out_size_out
              (sizeof_describe_levels_p2a + out_count * LEVEL_DESC_SIZE))
      else if probe.status = SCMI_NOT_SUPPORTED then
        if msg.out_size < sizeof_describe_levels_p2a + 3 * LEVEL_DESC_SIZE then
          .ok (scmi_status_response r3 SCMI_PROTOCOL_ERROR)
        else
          let ret := p.plat_scmi_voltd_levels_by_step s msg.channel_id domain_id
          let r4 := r3.call (.levels_by_step msg.channel_id domain_id)
          if ret.1 ≠ 0 then .ok (scmi_status_response r4 ret.1)
          else
            let r5 := r4.store (sizeof_describe_levels_p2a / 4) (to_int32 (ret.2.getD 0 0))
            let r6 := r5.store (sizeof_describe_levels_p2a / 4 + 1) (to_int32 (ret.2.getD 1 0))
            let r7 := r6.store (sizeof_describe_levels_p2a / 4 + 2) (to_int32 (ret.2.getD 2 0))
            .ok ((memcpy_out r7 0 [SCMI_SUCCESS, (LEVELS_BY_STEP : Int)]).set_out_size_out
              (sizeof_describe_levels_p2a + 3 * LEVEL_DESC_SIZE))
      else
        .ok (scmi_status_response r3 probe.status)

/-- The handler `scmi_voltd_config_set`. -/
def scmi_voltd_config_set {σ : Type} (_cfg : Config) (p : Plat σ) (s : σ)
    (msg : scmi_msg) : Except Fault (Run σ) :=
  let r := Run.init msg s
  if msg.in_size ≠ sizeof_config_set_a2p then
    .ok (scmi_status_response r SCMI_PROTOCOL_ERROR)
  else
    let r1 := r.call (.count msg.channel_id)
    if rd_u32 msg.in_buf 0 ≥ p.plat_scmi_voltd_count s msg.channel_id then
      .ok (scmi_status_response r1 SCMI_INVALID_PARAMETERS)
    else
      let r2 := r1.call (.count msg.channel_id)
      let domain_id :=
        confine_array_index (rd_u32 msg.in_buf 0) (p.plat_scmi_voltd_count s msg.channel_id)
          % 4294967296
      let config := rd_u32 msg.in_buf 4 &&& SCMI_VOLTAGE_DOMAIN_CONFIG_MASK
      let ret := p.plat_scmi_voltd_set_config s msg.channel_id domain_id config
      let r3 := { r2.call (.set_config msg.channel_id domain_id config) with plat := ret.2 }
      .ok (scmi_status_response r3 ret.1)

/-- The handler `scmi_voltd_config_get`. -/
def scmi_voltd_config_get {σ : Type} (_cfg : Config) (p : Plat σ) (s : σ)
    (msg : scmi_msg) : Except Fault (Run σ) :=
  let r := Run.init msg s
  if msg.in_size ≠ sizeof_config_get_a2p then
    .ok (scmi_status_response r SCMI_PROTOCOL_ERROR)
  else
    let r1 := r.call (.count msg.channel_id)
    if rd_u32 msg.in_buf 0 ≥ p.plat_scmi_voltd_count s msg.channel_id then
      .ok (scmi_status_response r1 SCMI_INVALID_PARAMETERS)
    else
      let r2 := r1.call (.count msg.channel_id)
      let domain_id :=
        confine_array_index (rd_u32 msg.in_buf 0) (p.plat_scmi_voltd_count s msg.channel_id)
          % 4294967296
      let ret := p.plat_scmi_voltd_get_config s msg.channel_id domain_id
      let r3 := r2.call (.get_config msg.channel_id domain_id)
      if ret.1 ≠ 0 then .ok (scmi_status_response r3 SCMI_INVALID_PARAMETERS)
      else .ok (scmi_write_response r3 [0, ((ret.2.getD 0 % 4294967296 : Nat) : Int)])

/-- The handler `scmi_voltd_level_set`. -/
def scmi_voltd_level_set {σ : Type} (_cfg : Config) (p : Plat σ) (s : σ)
    (msg : scmi_msg) : Except Fault (Run σ) :=
  let r := Run.init msg s
  if msg.in_size ≠ sizeof_level_set_a2p then
    .ok (scmi_status_response r SCMI_PROTOCOL_ERROR)
  else
    let r1 := r.call (.count msg.channel_id)
    if rd_u32 msg.in_buf 0 ≥ p.plat_scmi_voltd_count s msg.channel_id then
      .ok (scmi_status_response r1 SCMI_INVALID_PARAMETERS)
    else
      let r2 := r1.call (.count msg.channel_id)
      let domain_id :=
        confine_array_index (rd_u32 msg.in_buf 0) (p.plat_scmi_voltd_count s msg.channel_id)
          % 4294967296
      let ret := p.plat_scmi_voltd_set_level s msg.channel_id domain_id (rd_s32 msg.in_buf 8)
      let r3 :=
        { r2.call (.set_level msg.channel_id domain_id (rd_s32 msg.in_buf 8)) with plat := ret.2 }
      .ok (scmi_status_response r3 ret.1)

/-- The handler `scmi_voltd_level_get`. -/
def scmi_voltd_level_get {σ : Type} (_cfg : Config) (p : Plat σ) (s : σ)
    (msg : scmi_msg) : Except Fault (Run σ) :=
  let r := Run.init msg s
  if msg.in_size ≠ sizeof_level_get_a2p then
    .ok (scmi_status_response r SCMI_PROTOCOL_ERROR)
  else
    let r1 := r.call (.count msg.channel_id)
    if rd_u32 msg.in_buf 0 ≥ p.plat_scmi_voltd_count s msg.channel_id then
      .ok (scmi_status_response r1 SCMI_INVALID_PARAMETERS)
    else
      let r2 := r1.call (.count msg.channel_id)
      let domain_id :=
        confine_array_index (rd_u32 msg.in_buf 0) (p.plat_scmi_voltd_count s msg.channel_id)
          % 4294967296
      let level := p.plat_scmi_voltd_get_level s msg.channel_id domain_id
      let r3 := r2.call (.get_level msg.channel_id domain_id)
      .ok (scmi_write_response r3 [SCMI_SUCCESS, to_int32 level])

/-- The handler behind a tag of the dispatch table. -/
def HandlerTag.run {σ : Type} : HandlerTag → Config → Plat σ → σ → scmi_msg → Except Fault (Run σ)
  | .report_version => VoltageDomain.report_version
  | .report_attributes => VoltageDomain.report_attributes
  | .report_message_attributes => VoltageDomain.report_message_attributes
  | .scmi_voltd_domain_attributes => VoltageDomain.scmi_voltd_domain_attributes
  | .scmi_voltd_describe_levels => VoltageDomain.scmi_voltd_describe_levels
  | .scmi_voltd_config_set => VoltageDomain.scmi_voltd_config_set
  | .scmi_voltd_config_get => VoltageDomain.scmi_voltd_config_get
  | .scmi_voltd_level_set => VoltageDomain.scmi_voltd_level_set
  | .scmi_voltd_level_get => VoltageDomain.scmi_voltd_level_get

/-- The function `scmi_msg_get_voltd_handler`; `none` is `NULL`.  The second
component is the index used for the table access, when there is one. -/
def scmi_msg_get_voltd_handler_idx (msg : scmi_msg) : Option HandlerTag × Option Nat :=
  let array_size := handler_array.length
  if msg.message_id ≥ array_size then (none, none)
  else
    let message_id := confine_array_index msg.message_id array_size % 4294967296
    (handler_array.getD message_id none, some message_id)

/-- The function `scmi_msg_get_voltd_handler`; `none` is `NULL`. -/
def scmi_msg_get_voltd_handler (msg : scmi_msg) : Option HandlerTag :=
  (scmi_msg_get_voltd_handler_idx msg).1

/-! ## Observations on a finished run -/

/-- The input length each handler compares `msg->in_size` with; the version
and protocol attributes requests carry no argument. -/
def expected_in_size : HandlerTag → Nat
  | .report_version => 0
  | .report_attributes => 0
  | .report_message_attributes => sizeof_message_attributes_a2p
  | .scmi_voltd_domain_attributes => sizeof_attributes_a2p
  | .scmi_voltd_describe_levels => sizeof_describe_levels_a2p
  | .scmi_voltd_config_set => sizeof_config_set_a2p
  | .scmi_voltd_config_get => sizeof_config_get_a2p
  | .scmi_voltd_level_set => sizeof_level_set_a2p
  | .scmi_voltd_level_get => sizeof_level_get_a2p

/-- The handlers whose request starts with a domain id. -/
def takes_domain_id : HandlerTag → Bool
  | .report_version => false
  | .report_attributes => false
  | .report_message_attributes => false
  | _ => true

/-- The status word of the response. -/
def Run.status {σ : Type} (r : Run σ) : Int := r.msg.out 0

/-- The response of the run is the status-only response carrying `status`:
the status word is the only cell written and the recorded length is one
status word. -/
def Run.status_only {σ : Type} (r : Run σ) (status : Int) : Prop :=
  r.status = status ∧ r.msg.out_size_out = 4 ∧ r.stores = [0]

/-- What the agent reads back from a run: status word and recorded length. -/
def response_of {σ : Type} (x : Except Fault (Run σ)) : Option (Int × Nat) :=
  match x with
  | .ok r => some (r.status, r.msg.out_size_out)
  | .error _ => none

/-- A request: channel, message id, input bytes and output capacity, over a
zeroed output buffer. -/
def request (channel_id message_id : Nat) (input : List Nat) (out_size : Nat) : scmi_msg :=
  { channel_id := channel_id, message_id := message_id, in_buf := input,
    in_size := input.length, out := fun _ => 0, out_size := out_size, out_size_out := 0 }

/-! ## Example platforms -/

/-- A platform that implements the domain count only (`n` domains on every
channel); every other hook is the weak default of the file. -/
def count_only_plat (n : Nat) : Plat Unit :=
  { weak_plat with plat_scmi_voltd_count := fun _ _ => n }

/-- State of the example platform: per domain, the catalog of levels, the
current level and the current configuration. -/
structure DemoState where
  catalogs : List (List Int)
  level : List Int
  config : List Nat
  deriving DecidableEq, Repr

/-- An example platform with list-form level catalogs.  Every channel shows
the same domains.  A level is accepted by `set_level` when it is in the
catalog of the domain. -/
def demo_plat : Plat DemoState where
  plat_scmi_voltd_count := fun s _ => s.catalogs.length
  plat_scmi_voltd_get_name := fun s _ d => if d < s.catalogs.length then some [118, 100] else none
  plat_scmi_voltd_levels_array := fun s _ d start_index levels_null nb_elts =>
    let catalog := s.catalogs.getD d []
    if levels_null then ⟨SCMI_SUCCESS, [], catalog.length⟩
    else if start_index < catalog.length then
      ⟨SCMI_SUCCESS, (catalog.drop start_index).take nb_elts,
        min nb_elts (catalog.length - start_index)⟩
    else ⟨SCMI_INVALID_PARAMETERS, [], nb_elts⟩
  plat_scmi_voltd_levels_by_step := fun _ _ _ => (SCMI_NOT_SUPPORTED, [])
  plat_scmi_voltd_get_level := fun s _ d => s.level.getD d 0
  plat_scmi_voltd_set_level := fun s _ d microvolt =>
    if microvolt ∈ s.catalogs.getD d [] then (SCMI_SUCCESS, { s with level := s.level.set d microvolt })
    else (SCMI_INVALID_PARAMETERS, s)
  plat_scmi_voltd_get_config := fun s _ d => (SCMI_SUCCESS, s.config.get? d)
  plat_scmi_voltd_set_config := fun s _ d config =>
    (SCMI_SUCCESS, { s with config := s.config.set d config })

/-- Two domains; domain 0 has the levels 800000, 850000, 900000. -/
def demo_state : DemoState :=
  { catalogs := [[800000, 850000, 900000], [1100000]], level := [800000, 1100000],
    config := [0, 0] }

/-- A build with strict-ABI mode disabled. -/
def cfg_loose : Config := ⟨false, false, 0x30000⟩

/-- A build with strict-ABI mode enabled. -/
def cfg_strict : Config := ⟨true, false, 0x30000⟩

/-- The message id each handler is registered for in `handler_array`. -/
def HandlerTag.message_id : HandlerTag → Nat
  | .report_version => SCMI_PROTOCOL_VERSION
  | .report_attributes => SCMI_PROTOCOL_ATTRIBUTES
  | .report_message_attributes => SCMI_PROTOCOL_MESSAGE_ATTRIBUTES
  | .scmi_voltd_domain_attributes => SCMI_VOLTAGE_DOMAIN_ATTRIBUTES
  | .scmi_voltd_describe_levels => SCMI_VOLTAGE_DESCRIBE_LEVELS
  | .scmi_voltd_config_set => SCMI_VOLTAGE_CONFIG_SET
  | .scmi_voltd_config_get => SCMI_VOLTAGE_CONFIG_GET
  | .scmi_voltd_level_set => SCMI_VOLTAGE_LEVEL_SET
  | .scmi_voltd_level_get => SCMI_VOLTAGE_LEVEL_GET

/-- The platform failure that a handler surfaces as Invalid Parameters for an
in-range domain id `d`: Config Get normalises every failure of the platform,
Config Set, Level Set and Describe Levels pass the status of the platform
on. -/
def invalid_from_backend {σ : Type} (t : HandlerTag) (p : Plat σ) (s : σ) (msg : scmi_msg)
    (d : Nat) : Prop :=
  match t with
  | .scmi_voltd_config_set =>
    (p.plat_scmi_voltd_set_config s msg.channel_id d
      (rd_u32 msg.in_buf 4 &&& SCMI_VOLTAGE_DOMAIN_CONFIG_MASK)).1 = SCMI_INVALID_PARAMETERS
  | .scmi_voltd_level_set =>
    (p.plat_scmi_voltd_set_level s msg.channel_id d (rd_s32 msg.in_buf 8)).1
      = SCMI_INVALID_PARAMETERS
  | .scmi_voltd_config_get => (p.plat_scmi_voltd_get_config s msg.channel_id d).1 ≠ 0
  | .scmi_voltd_describe_levels =>
    (∃ i b n, (p.plat_scmi_voltd_levels_array s msg.channel_id d i b n).status
        = SCMI_INVALID_PARAMETERS)
      ∨ (p.plat_scmi_voltd_levels_by_step s msg.channel_id d).1 = SCMI_INVALID_PARAMETERS
  | _ => False

/-- The flags word of a describe-levels response. -/
def Run.flags {σ : Type} (r : Run σ) : Nat := (r.msg.out 1).toNat

/-- Number of level descriptors of a describe-levels response, as recorded
in its length: `out_size_out = header + 4 * emitted_count`. -/
def emitted_count {σ : Type} (r : Run σ) : Nat :=
  (r.msg.out_size_out - sizeof_describe_levels_p2a) / LEVEL_DESC_SIZE

/-- The level descriptors of a describe-levels response, in buffer order. -/
def payload {σ : Type} (r : Run σ) : List Int :=
  (List.range (emitted_count r)).map (fun j => r.msg.out (sizeof_describe_levels_p2a / 4 + j))

/-- Bits 11..0 of the flags: the number of levels of the response. -/
def flags_count (flags : Nat) : Nat := flags % 4096

/-- Bit 12 of the flags: the format tag. -/
def flags_format (flags : Nat) : Nat := flags / 4096 % 2

/-- Bits 31..16 of the flags: the remaining count. -/
def flags_remaining (flags : Nat) : Nat := flags / 65536 % 65536

/-- The platform answers list form for domain `d` of channel `ch` with the
catalog `catalog` and never fails: the probe reports the catalog length, and
a fetch of one level at a catalog position stores that level. -/
structure ListForm {σ : Type} (p : Plat σ) (s : σ) (ch d : Nat) (catalog : List Int) : Prop where
  probe_status : (p.plat_scmi_voltd_levels_array s ch d 0 true 0).status = SCMI_SUCCESS
  probe_nb : (p.plat_scmi_voltd_levels_array s ch d 0 true 0).nb_elts = catalog.length
  fetch_status : ∀ i, i < catalog.length →
    (p.plat_scmi_voltd_levels_array s ch d i false 1).status = SCMI_SUCCESS
  fetch_level : ∀ i, i < catalog.length →
    (p.plat_scmi_voltd_levels_array s ch d i false 1).levels.head? = catalog.get? i

/-- One request of the describe-levels round trip, at `level_index`: the
next level index (advanced by the emitted count) and the payload of the
response, when the response is a success. -/
def walk_step {σ : Type} (cfg : Config) (p : Plat σ) (s : σ) (req : Nat → scmi_msg)
    (level_index : Nat) : Option (Nat × List Int) :=
  match scmi_voltd_describe_levels cfg p s (req level_index) with
  | .ok r => if r.status = SCMI_SUCCESS then some (level_index + emitted_count r, payload r)
    else none
  | .error _ => none

/-- The describe-levels round trip after `k` requests, where `req i` is the
request sent for level index `i`: the level index reached (starting at 0,
advancing by the emitted count of each response) and the concatenation of
the payloads received. -/
def walk {σ : Type} (cfg : Config) (p : Plat σ) (s : σ) (req : Nat → scmi_msg) :
    Nat → Option (Nat × List Int)
  | 0 => some (0, [])
  | k + 1 =>
    match walk cfg p s req k with
    | none => none
    | some (level_index, acc) =>
      match walk_step cfg p s req level_index with
      | none => none
      | some (next, pl) => some (next, acc ++ pl)

/-- A describe-levels request for domain `d` at `level_index` with an output
capacity of `out_size` bytes. -/
def describe_levels_request (ch d level_index out_size : Nat) : scmi_msg :=
  request ch SCMI_VOLTAGE_DESCRIBE_LEVELS (le32 d ++ le32 level_index) out_size

/-- What the agent reads back from a describe-levels run: status word, level
descriptors, and the count and remaining fields of the flags. -/
def describe_levels_view {σ : Type} (x : Except Fault (Run σ)) :
    Option (Int × List Int × Nat × Nat) :=
  match x with
  | .ok r => some (r.status, payload r, flags_count r.flags, flags_remaining r.flags)
  | .error _ => none

/-- The catalog of domain 0 of the example platform. -/
def demo_catalog : List Int := [800000, 850000, 900000]

/-- The channel argument of a platform call. -/
def PlatCall.channel : PlatCall → Nat
  | .count ch => ch
  | .get_name ch _ => ch
  | .levels_array ch _ _ _ _ => ch
  | .levels_by_step ch _ => ch
  | .get_level ch _ => ch
  | .set_level ch _ _ => ch
  | .get_config ch _ => ch
  | .set_config ch _ _ => ch

/-- The domain id argument of a platform call, for the hooks that take one
(every hook but the domain count). -/
def PlatCall.domain : PlatCall → Option Nat
  | .count _ => none
  | .get_name _ d => some d
  | .levels_array _ d _ _ _ => some d
  | .levels_by_step _ d => some d
  | .get_level _ d => some d
  | .set_level _ d _ => some d
  | .get_config _ d => some d
  | .set_config _ d _ => some d

/-- The per-level fetch of the level loop at catalog position `i`. -/
def fetch_call (ch d i : Nat) : PlatCall := .levels_array ch d i false 1

/-- The fetches of the level loop from `level_index` on, `k` of them; the
loop counter is an `unsigned int`. -/
def fetch_calls (ch d level_index k : Nat) : List PlatCall :=
  (List.range k).map (fun j => fetch_call ch d ((level_index + j) % 4294967296))

/-- A platform with one list-form domain of three levels whose fetches fail
with Generic Error from catalog position 1 on. -/
def flaky_plat : Plat Unit :=
  { count_only_plat 1 with
    plat_scmi_voltd_levels_array := fun _ _ _ start_index levels_null nb_elts =>
      if levels_null then ⟨SCMI_SUCCESS, [], 3⟩
      else if start_index = 0 then ⟨SCMI_SUCCESS, [800000], 1⟩
      else ⟨SCMI_GENERIC_ERROR, [], nb_elts⟩ }

/-- A platform with one range-form domain described by `(lo, hi, step)`. -/
def range_plat (lo hi step : Int) : Plat Unit :=
  { count_only_plat 1 with
    plat_scmi_voltd_levels_by_step := fun _ _ _ => (SCMI_SUCCESS, [lo, hi, step]) }

/-- A platform with one domain whose level is `v`. -/
def fixed_level_plat (v : Int) : Plat Unit :=
  { count_only_plat 1 with plat_scmi_voltd_get_level := fun _ _ _ => v }

/-- A platform with one list-form domain of `n` levels, level `i` being
`1000 * i` microvolts. -/
def ramp_plat (n : Nat) : Plat Unit :=
  { count_only_plat 1 with
    plat_scmi_voltd_levels_array := fun _ _ _ start_index levels_null nb_elts =>
      if levels_null then ⟨SCMI_SUCCESS, [], n⟩
      else if start_index < n then ⟨SCMI_SUCCESS, [1000 * (start_index : Int)], 1⟩
      else ⟨SCMI_INVALID_PARAMETERS, [], nb_elts⟩ }

/-- What the agent reads back from a run with a one-word payload: status
word, payload word and recorded length. -/
def word_response_of {σ : Type} (x : Except Fault (Run σ)) : Option (Int × Int × Nat) :=
  match x with
  | .ok r => some (r.status, r.msg.out 1, r.msg.out_size_out)
  | .error _ => none

/-- What a describe-levels run leaves behind: status word, recorded length,
the cells stored to, and the content of the first level cell. -/
def describe_levels_traces {σ : Type} (x : Except Fault (Run σ)) :
    Option (Int × Nat × List Nat × Int) :=
  match x with
  | .ok r => some (r.status, r.msg.out_size_out, r.stores, r.msg.out 2)
  | .error _ => none

/-- The list-form probe of Describe Levels. -/
def probe_call (ch d : Nat) : PlatCall := .levels_array ch d 0 true 0

/-- The run of Describe Levels on a request that passed the size and range
checks, up to and including the list-form probe: two domain count queries
and the probe, no store. -/
def describe_levels_prologue {σ : Type} (msg : scmi_msg) (s : σ) : Run σ :=
  (((Run.init msg s).call (.count msg.channel_id)).call (.count msg.channel_id)).call
    (probe_call msg.channel_id (rd_u32 msg.in_buf 0))

/-! ## Input length -/

/-- C1 (counterexample): with strict-ABI mode disabled, a version request
carrying four unexpected input bytes is answered with success and the
version, not with Protocol Error. -/
theorem version_ignores_length_when_not_strict :
    (request 0 SCMI_PROTOCOL_VERSION [0, 0, 0, 0] 8).in_size
        ≠ expected_in_size HandlerTag.report_version
      ∧ response_of (report_version cfg_loose weak_plat ()
          (request 0 SCMI_PROTOCOL_VERSION [0, 0, 0, 0] 8)) = some (SCMI_SUCCESS, 8)
      ∧ SCMI_SUCCESS ≠ SCMI_PROTOCOL_ERROR := by
  refine ⟨by decide, rfl, by decide⟩

/-- C1 (amended): a request whose input length differs from the length the
handler expects gets the status-only response Protocol Error, whatever the
fields, the domain id and the platform, and before any domain-id range
check (no platform call is made, the platform state is unchanged), for the
seven handlers with an argument in every build, and for the version and
protocol attributes handlers in strict-ABI builds (for protocol attributes,
after the domain count query and its assertion). -/
theorem wrong_length_protocol_error {σ : Type} (t : HandlerTag) (cfg : Config) (p : Plat σ)
    (s : σ) (msg : scmi_msg)
    (hlen : msg.in_size ≠ expected_in_size t)
    (hstrict : t = .report_version ∨ t = .report_attributes → cfg.CFG_SCMI_MSG_STRICT_ABI = true)
    (hassert : t = .report_attributes → cfg.NDEBUG = true ∨
      p.plat_scmi_voltd_count s msg.channel_id
        &&& (0xFFFFFFFF - SCMI_VOLTAGE_DOMAIN_COUNT_MASK) = 0) :
    ∃ r, t.run cfg p s msg = .ok r ∧ r.status_only SCMI_PROTOCOL_ERROR ∧ r.plat = s
      ∧ (t ≠ .report_attributes → r.calls = [])
      ∧ (t = .report_attributes → r.calls = [.count msg.channel_id]) := by
  cases t
  case report_version =>
    have h1 := hstrict (Or.inl rfl)
    have h2 : msg.in_size ≠ 0 := hlen
    simp [HandlerTag.run, report_version, h1, h2, Run.status_only, Run.status,
      scmi_status_response, Run.store, Run.set_out_size_out, Run.init]
  case report_attributes =>
    have h1 := hstrict (Or.inr rfl)
    have h2 : msg.in_size ≠ 0 := hlen
    rcases hassert rfl with h3 | h3 <;>
    simp [HandlerTag.run, report_attributes, h1, h2, h3, Run.status_only, Run.status,
      scmi_status_response, Run.store, Run.set_out_size_out, Run.init, Run.call]
  all_goals
    simp only [expected_in_size] at hlen
    simp [HandlerTag.run, report_message_attributes, scmi_voltd_domain_attributes,
      scmi_voltd_describe_levels, scmi_voltd_config_set, scmi_voltd_config_get,
      scmi_voltd_level_set, scmi_voltd_level_get, hlen, Run.status_only, Run.status,
      scmi_status_response, Run.store, Run.set_out_size_out, Run.init]

/-- C1 (witness): a level-set request of eight bytes instead of twelve, on
the example platform with an out-of-range domain id. -/
theorem wrong_length_protocol_error_witness :
    ∃ r, HandlerTag.scmi_voltd_level_set.run cfg_loose demo_plat demo_state
        (request 0 SCMI_VOLTAGE_LEVEL_SET (le32 7 ++ le32 0) 4) = .ok r
      ∧ r.status_only SCMI_PROTOCOL_ERROR ∧ r.plat = demo_state
      ∧ (HandlerTag.scmi_voltd_level_set ≠ .report_attributes → r.calls = [])
      ∧ (HandlerTag.scmi_voltd_level_set = .report_attributes → r.calls = [.count 0]) :=
  wrong_length_protocol_error HandlerTag.scmi_voltd_level_set cfg_loose demo_plat demo_state
    (request 0 SCMI_VOLTAGE_LEVEL_SET (le32 7 ++ le32 0) 4) (by decide) (by simp) (by simp)

/-! ## Dispatch table and message attributes -/

/-- C9: `scmi_msg_get_voltd_handler` returns NULL exactly for a message id at
or beyond the table size (or for an empty slot, of which the table has
none), and otherwise the handler registered for the id: version, protocol
attributes, message attributes, domain attributes, describe levels, config
set, config get, level set, level get for the ids 0 to 8; the index used for
the table access is the message id itself and is below the table size. -/
theorem get_voltd_handler_lookup (msg : scmi_msg) :
    (scmi_msg_get_voltd_handler msg =
        if msg.message_id < handler_array.length then handler_array.getD msg.message_id none
        else none)
      ∧ (∀ t : HandlerTag,
          scmi_msg_get_voltd_handler msg = some t ↔ msg.message_id = t.message_id)
      ∧ (scmi_msg_get_voltd_handler msg = none ↔ handler_array.length ≤ msg.message_id)
      ∧ (∀ i, (scmi_msg_get_voltd_handler_idx msg).2 = some i →
          i = msg.message_id ∧ i < handler_array.length)
      ∧ handler_array.length = 9 := by
  have hlen : handler_array.length = 9 := rfl
  by_cases h : msg.message_id < 9
  · have hc : confine_array_index msg.message_id 9 % 4294967296 = msg.message_id := by
      simp only [confine_array_index, if_pos h]; omega
    have hnot : ¬ (msg.message_id ≥ 9) := by omega
    have key : scmi_msg_get_voltd_handler msg = handler_array.getD msg.message_id none := by
      simp only [scmi_msg_get_voltd_handler, scmi_msg_get_voltd_handler_idx, hlen, if_neg hnot,
        hc]
    have hidx : (scmi_msg_get_voltd_handler_idx msg).2 = some msg.message_id := by
      simp only [scmi_msg_get_voltd_handler_idx, hlen, if_neg hnot, hc]
    rw [key, hidx, hlen]
    generalize msg.message_id = m at h
    interval_cases m <;>
      (refine ⟨by simp [handler_array], ?_, by simp [handler_array], by simp, rfl⟩
       intro t; cases t <;> simp [handler_array, HandlerTag.message_id, SCMI_PROTOCOL_VERSION,
          SCMI_PROTOCOL_ATTRIBUTES, SCMI_PROTOCOL_MESSAGE_ATTRIBUTES,
          SCMI_VOLTAGE_DOMAIN_ATTRIBUTES, SCMI_VOLTAGE_DESCRIBE_LEVELS, SCMI_VOLTAGE_CONFIG_SET,
          SCMI_VOLTAGE_CONFIG_GET, SCMI_VOLTAGE_LEVEL_SET, SCMI_VOLTAGE_LEVEL_GET])
  · have hge : msg.message_id ≥ 9 := by omega
    have key : scmi_msg_get_voltd_handler msg = none := by
      simp only [scmi_msg_get_voltd_handler, scmi_msg_get_voltd_handler_idx, hlen, if_pos hge]
    have hidx : (scmi_msg_get_voltd_handler_idx msg).2 = none := by
      simp only [scmi_msg_get_voltd_handler_idx, hlen, if_pos hge]
    rw [key, hidx, hlen]
    refine ⟨by simp [h], ?_, by simp; omega, by simp, rfl⟩
    intro t
    cases t <;> simp [HandlerTag.message_id, SCMI_PROTOCOL_VERSION,
          SCMI_PROTOCOL_ATTRIBUTES, SCMI_PROTOCOL_MESSAGE_ATTRIBUTES,
          SCMI_VOLTAGE_DOMAIN_ATTRIBUTES, SCMI_VOLTAGE_DESCRIBE_LEVELS, SCMI_VOLTAGE_CONFIG_SET,
          SCMI_VOLTAGE_CONFIG_GET, SCMI_VOLTAGE_LEVEL_SET, SCMI_VOLTAGE_LEVEL_GET] <;> omega

/-- A message id is supported exactly when it is below the table size. -/
theorem message_id_is_supported_iff (m : Nat) :
    message_id_is_supported m = true ↔ m < handler_array.length := by
  have hlen : handler_array.length = 9 := rfl
  constructor
  · intro h
    simp only [message_id_is_supported, Bool.and_eq_true, decide_eq_true_eq] at h
    exact h.1
  · intro h
    rw [hlen] at h
    interval_cases m <;> rfl

/-- C8: a correctly sized message-attributes request probing message id `m`
is answered without any platform call: with success and a zero attributes
word (eight bytes, given room for them) when `m` has a handler in the
dispatch table, and with the status-only response Not Found for every other
`m`, in particular every `m` at or beyond the table size; the status is
never Generic Error, and the outcome agrees with the lookup of
`scmi_msg_get_voltd_handler` for message id `m`. -/
theorem message_attributes_probe {σ : Type} (cfg : Config) (p : Plat σ) (s : σ) (msg : scmi_msg)
    (hlen : msg.in_size = sizeof_message_attributes_a2p) :
    ∃ r, report_message_attributes cfg p s msg = .ok r ∧ r.calls = [] ∧ r.plat = s
      ∧ (message_id_is_supported (rd_u32 msg.in_buf 0) = true → 8 ≤ msg.out_size →
          r.status = SCMI_SUCCESS ∧ r.msg.out 1 = 0 ∧ r.msg.out_size_out = 8)
      ∧ (message_id_is_supported (rd_u32 msg.in_buf 0) = false →
          r.status_only SCMI_NOT_FOUND)
      ∧ (handler_array.length ≤ rd_u32 msg.in_buf 0 → r.status_only SCMI_NOT_FOUND)
      ∧ r.status ≠ SCMI_GENERIC_ERROR
      ∧ (message_id_is_supported (rd_u32 msg.in_buf 0) = true ↔
          (scmi_msg_get_voltd_handler { msg with message_id := rd_u32 msg.in_buf 0 }).isSome
            = true)
      ∧ (8 ≤ msg.out_size →
          (r.status = SCMI_SUCCESS ↔
            (scmi_msg_get_voltd_handler { msg with message_id := rd_u32 msg.in_buf 0 }).isSome
              = true)) := by
  have hlook : message_id_is_supported (rd_u32 msg.in_buf 0) = true ↔
      (scmi_msg_get_voltd_handler { msg with message_id := rd_u32 msg.in_buf 0 }).isSome
        = true := by
    rw [message_id_is_supported_iff]
    have hlen9 : handler_array.length = 9 := rfl
    simp only [scmi_msg_get_voltd_handler, scmi_msg_get_voltd_handler_idx, hlen9]
    generalize rd_u32 msg.in_buf 0 = m
    by_cases h : m < 9
    · have hnot : ¬ (m ≥ 9) := by omega
      simp only [if_neg hnot, confine_array_index, if_pos h, h, true_iff]
      interval_cases m <;> rfl
    · have hge : m ≥ 9 := by omega
      simp [if_pos hge, h]
  have hsize : ¬ (msg.in_size ≠ sizeof_message_attributes_a2p) := by simp [hlen]
  cases hsup : message_id_is_supported (rd_u32 msg.in_buf 0)
  · -- not supported
    have hng : ¬ (rd_u32 msg.in_buf 0 < handler_array.length) := by
      rw [← message_id_is_supported_iff, hsup]; simp
    rw [hsup] at hlook
    refine ⟨scmi_status_response (Run.init msg s) SCMI_NOT_FOUND, ?_, rfl, rfl, ?_, ?_, ?_, ?_,
      hlook, ?_⟩
    · simp only [report_message_attributes, if_neg hsize, hsup]; rfl
    · intro h; cases h
    · intro _; exact ⟨rfl, rfl, rfl⟩
    · intro _; exact ⟨rfl, rfl, rfl⟩
    · show (SCMI_NOT_FOUND : Int) ≠ SCMI_GENERIC_ERROR; decide
    · intro _
      have h1 : (scmi_status_response (Run.init msg s) SCMI_NOT_FOUND).status
          = SCMI_NOT_FOUND := rfl
      rw [h1, ← hlook]
      simp [SCMI_NOT_FOUND, SCMI_SUCCESS]
  · -- supported
    have hlt : rd_u32 msg.in_buf 0 < handler_array.length := by
      rw [← message_id_is_supported_iff]; exact hsup
    rw [hsup] at hlook
    refine ⟨scmi_write_response (Run.init msg s) [SCMI_SUCCESS, 0], ?_, ?_, ?_, ?_, ?_, ?_, ?_,
      hlook, ?_⟩
    · simp only [report_message_attributes, if_neg hsize, hsup]; rfl
    · simp only [scmi_write_response]; split <;> rfl
    · simp only [scmi_write_response]; split <;> rfl
    · intro _ hout
      have hno : ¬ ((Run.init msg s).msg.out_size < 4 * [SCMI_SUCCESS, (0 : Int)].length) := by
        simp [Run.init]; omega
      simp only [scmi_write_response, if_neg hno]
      exact ⟨rfl, rfl, rfl⟩
    · intro h; cases h
    · intro h; omega
    · simp only [scmi_write_response]
      split
      · show (SCMI_PROTOCOL_ERROR : Int) ≠ SCMI_GENERIC_ERROR; decide
      · show (SCMI_SUCCESS : Int) ≠ SCMI_GENERIC_ERROR; decide
    · intro hout
      have hno : ¬ ((Run.init msg s).msg.out_size < 4 * [SCMI_SUCCESS, (0 : Int)].length) := by
        simp [Run.init]; omega
      simp only [scmi_write_response, if_neg hno]
      rw [← hlook]
      simp only [iff_true]
      rfl

/-- C8 (witness): probing the level-get message id and an id beyond the
table on the example platform. -/
theorem message_attributes_probe_witness :
    ∃ r, report_message_attributes cfg_loose demo_plat demo_state
        (request 0 SCMI_PROTOCOL_MESSAGE_ATTRIBUTES (le32 8) 8) = .ok r ∧ r.calls = []
      ∧ r.plat = demo_state
      ∧ (message_id_is_supported (rd_u32 (le32 8) 0) = true → 8 ≤ 8 →
          r.status = SCMI_SUCCESS ∧ r.msg.out 1 = 0 ∧ r.msg.out_size_out = 8)
      ∧ (message_id_is_supported (rd_u32 (le32 8) 0) = false → r.status_only SCMI_NOT_FOUND)
      ∧ (handler_array.length ≤ rd_u32 (le32 8) 0 → r.status_only SCMI_NOT_FOUND)
      ∧ r.status ≠ SCMI_GENERIC_ERROR
      ∧ (message_id_is_supported (rd_u32 (le32 8) 0) = true ↔
          (scmi_msg_get_voltd_handler
            { request 0 SCMI_PROTOCOL_MESSAGE_ATTRIBUTES (le32 8) 8 with
              message_id := rd_u32 (le32 8) 0 }).isSome = true)
      ∧ (8 ≤ 8 →
          (r.status = SCMI_SUCCESS ↔
            (scmi_msg_get_voltd_handler
              { request 0 SCMI_PROTOCOL_MESSAGE_ATTRIBUTES (le32 8) 8 with
                message_id := rd_u32 (le32 8) 0 }).isSome = true)) :=
  message_attributes_probe cfg_loose demo_plat demo_state
    (request 0 SCMI_PROTOCOL_MESSAGE_ATTRIBUTES (le32 8) 8) rfl

/-! ## Config Set and Level Set -/

/-- C6: a correctly sized Config Set request with an in-range domain id `d`
and configuration bits `b` calls the platform set-config hook exactly once,
with `d` and `b AND SCMI_VOLTAGE_DOMAIN_CONFIG_MASK` (after the two domain
count queries), answers the status-only response carrying the status the
platform returned, and leaves the platform in the state that call
returned. -/
theorem config_set_masks_and_forwards {σ : Type} (cfg : Config) (p : Plat σ) (s : σ)
    (msg : scmi_msg) (hlen : msg.in_size = sizeof_config_set_a2p)
    (hdom : rd_u32 msg.in_buf 0 < p.plat_scmi_voltd_count s msg.channel_id) :
    ∃ r, scmi_voltd_config_set cfg p s msg = .ok r
      ∧ r.calls = [.count msg.channel_id, .count msg.channel_id,
          .set_config msg.channel_id (rd_u32 msg.in_buf 0)
            (rd_u32 msg.in_buf 4 &&& SCMI_VOLTAGE_DOMAIN_CONFIG_MASK)]
      ∧ r.status_only (p.plat_scmi_voltd_set_config s msg.channel_id (rd_u32 msg.in_buf 0)
          (rd_u32 msg.in_buf 4 &&& SCMI_VOLTAGE_DOMAIN_CONFIG_MASK)).1
      ∧ r.plat = (p.plat_scmi_voltd_set_config s msg.channel_id (rd_u32 msg.in_buf 0)
          (rd_u32 msg.in_buf 4 &&& SCMI_VOLTAGE_DOMAIN_CONFIG_MASK)).2 := by
  have hsize : ¬ (msg.in_size ≠ sizeof_config_set_a2p) := by simp [hlen]
  have hnot : ¬ (rd_u32 msg.in_buf 0 ≥ p.plat_scmi_voltd_count s msg.channel_id) := by omega
  have hlt : rd_u32 msg.in_buf 0 < 4294967296 := by
    simp only [rd_u32, byte_at]; omega
  have hc : confine_array_index (rd_u32 msg.in_buf 0) (p.plat_scmi_voltd_count s msg.channel_id)
      % 4294967296 = rd_u32 msg.in_buf 0 := by
    simp only [confine_array_index, if_pos hdom]; omega
  simp only [scmi_voltd_config_set, if_neg hsize, if_neg hnot, hc]
  exact ⟨_, rfl, rfl, ⟨rfl, rfl, rfl⟩, rfl⟩

/-- C6 (witness): Config Set on domain 1 of the example platform with the
bits `0xABCD1235`, of which `5` reaches the platform. -/
theorem config_set_masks_and_forwards_witness :
    ∃ r, scmi_voltd_config_set cfg_loose demo_plat demo_state
        (request 0 SCMI_VOLTAGE_CONFIG_SET (le32 1 ++ le32 0xABCD1235) 4) = .ok r
      ∧ r.calls = [.count 0, .count 0, .set_config 0 1 5]
      ∧ r.status_only SCMI_SUCCESS
      ∧ r.plat = { demo_state with config := [0, 5] } :=
  config_set_masks_and_forwards cfg_loose demo_plat demo_state
    (request 0 SCMI_VOLTAGE_CONFIG_SET (le32 1 ++ le32 0xABCD1235) 4) rfl (by decide)

/-- C7: a correctly sized Level Set or Config Set request whose domain id is
at or beyond the domain count gets the status-only response Invalid
Parameters; the only platform call of the run is the domain count query, so
the set hook is not called and the platform state is unchanged. -/
theorem set_out_of_range_no_backend_call {σ : Type} (t : HandlerTag) (cfg : Config) (p : Plat σ)
    (s : σ) (msg : scmi_msg)
    (ht : t = .scmi_voltd_level_set ∨ t = .scmi_voltd_config_set)
    (hlen : msg.in_size = expected_in_size t)
    (hdom : p.plat_scmi_voltd_count s msg.channel_id ≤ rd_u32 msg.in_buf 0) :
    ∃ r, t.run cfg p s msg = .ok r ∧ r.status_only SCMI_INVALID_PARAMETERS
      ∧ r.calls = [.count msg.channel_id] ∧ r.plat = s := by
  rcases ht with rfl | rfl
  · have hsize : ¬ (msg.in_size ≠ sizeof_level_set_a2p) := by simpa using hlen
    have hge : rd_u32 msg.in_buf 0 ≥ p.plat_scmi_voltd_count s msg.channel_id := hdom
    simp only [HandlerTag.run, scmi_voltd_level_set, if_neg hsize, if_pos hge]
    exact ⟨_, rfl, ⟨rfl, rfl, rfl⟩, rfl, rfl⟩
  · have hsize : ¬ (msg.in_size ≠ sizeof_config_set_a2p) := by simpa using hlen
    have hge : rd_u32 msg.in_buf 0 ≥ p.plat_scmi_voltd_count s msg.channel_id := hdom
    simp only [HandlerTag.run, scmi_voltd_config_set, if_neg hsize, if_pos hge]
    exact ⟨_, rfl, ⟨rfl, rfl, rfl⟩, rfl, rfl⟩

/-- C7 (witness): Level Set on domain id 2 of the example platform, which
has two domains (one past the valid range). -/
theorem set_out_of_range_no_backend_call_witness :
    ∃ r, HandlerTag.scmi_voltd_level_set.run cfg_loose demo_plat demo_state
        (request 0 SCMI_VOLTAGE_LEVEL_SET (le32 2 ++ le32 0 ++ le32 850000) 4) = .ok r
      ∧ r.status_only SCMI_INVALID_PARAMETERS ∧ r.calls = [.count 0] ∧ r.plat = demo_state :=
  set_out_of_range_no_backend_call HandlerTag.scmi_voltd_level_set cfg_loose demo_plat demo_state
    (request 0 SCMI_VOLTAGE_LEVEL_SET (le32 2 ++ le32 0 ++ le32 850000) 4) (Or.inl rfl) rfl
    (by decide)

/-! ## Describe Levels: the flags word -/

/-- The remaining count, masked into bits 31..16. -/
theorem and_mask_remaining (r : Nat) :
    (r <<< SCMI_VOLTAGE_LEVEL_REMAINING_POS) &&& SCMI_VOLTAGE_LEVEL_REMAINING_MASK
      = 65536 * (r % 65536) := by
  apply Nat.eq_of_testBit_eq
  intro j
  have hm : SCMI_VOLTAGE_LEVEL_REMAINING_MASK = 2 ^ 16 * (2 ^ 16 - 1) := by
    simp only [SCMI_VOLTAGE_LEVEL_REMAINING_MASK]; norm_num
  have h1 : (65536 : Nat) = 2 ^ 16 := by norm_num
  rw [hm, h1, SCMI_VOLTAGE_LEVEL_REMAINING_POS, Nat.testBit_and, Nat.testBit_shiftLeft,
    Nat.testBit_mul_pow_two, Nat.testBit_mul_pow_two, Nat.testBit_two_pow_sub_one,
    Nat.testBit_mod_two_pow]
  by_cases h : j ≥ 16
  · by_cases h2 : j - 16 < 16 <;> simp [h, h2]
  · simp [h]

/-- The format tag, masked into bit 12. -/
theorem and_mask_format (f : Nat) :
    (f <<< SCMI_VOLTAGE_LEVEL_FORMAT_POS) &&& SCMI_VOLTAGE_LEVEL_FORMAT_MASK
      = 4096 * (f % 2) := by
  apply Nat.eq_of_testBit_eq
  intro j
  have hm : SCMI_VOLTAGE_LEVEL_FORMAT_MASK = 2 ^ 12 := by
    simp only [SCMI_VOLTAGE_LEVEL_FORMAT_MASK]; norm_num
  have h1 : (4096 : Nat) = 2 ^ 12 := by norm_num
  have h2 : f % 2 = f % 2 ^ 1 := by norm_num
  rw [hm, h1, h2, SCMI_VOLTAGE_LEVEL_FORMAT_POS, Nat.testBit_and, Nat.testBit_shiftLeft,
    Nat.testBit_mul_pow_two, Nat.testBit_two_pow, Nat.testBit_mod_two_pow]
  by_cases h : 12 = j
  · subst h; simp
  · have : ¬ (j - 12 < 1) ∨ ¬ (j ≥ 12) := by omega
    rcases this with h3 | h3 <;> simp [h, h3]

/-- The flags word as a sum of its three fields. -/
theorem levels_flags_closed (c f r : Nat) :
    SCMI_VOLTAGE_DOMAIN_LEVELS_FLAGS c f r
      = c % 4096 + 4096 * (f % 2) + 65536 * (r % 65536) := by
  rw [SCMI_VOLTAGE_DOMAIN_LEVELS_FLAGS, and_mask_remaining, and_mask_format]
  have h2 : SCMI_VOLTAGE_LEVEL_COUNT_MASK = 2 ^ 12 - 1 := by
    simp only [SCMI_VOLTAGE_LEVEL_COUNT_MASK]; norm_num
  rw [h2, Nat.and_pow_two_sub_one_eq_mod]
  have hc : c % 2 ^ 12 < 2 ^ 12 := Nat.mod_lt _ (by norm_num)
  have hf : f % 2 < 2 := Nat.mod_lt _ (by norm_num)
  have e1 : c % 2 ^ 12 ||| 65536 * (r % 65536) = 2 ^ 16 * (r % 65536) + c % 2 ^ 12 := by
    rw [Nat.lor_comm]
    have := Nat.mul_add_lt_is_or (show c % 2 ^ 12 < 2 ^ 16 by omega) (r % 65536)
    rw [this]
  rw [e1]
  have e2 : 2 ^ 16 * (r % 65536) + c % 2 ^ 12 ||| 4096 * (f % 2)
      = 2 ^ 12 * (16 * (r % 65536) ||| f % 2) + c % 2 ^ 12 := by
    apply Nat.eq_of_testBit_eq
    intro j
    have e3 : 2 ^ 16 * (r % 65536) + c % 2 ^ 12 = 2 ^ 12 * (16 * (r % 65536)) + c % 2 ^ 12 := by
      omega
    have h1 : (4096 : Nat) = 2 ^ 12 := by norm_num
    rw [e3, h1, Nat.testBit_or, Nat.testBit_mul_pow_two_add _ hc,
      Nat.testBit_mul_pow_two_add _ hc, Nat.testBit_mul_pow_two]
    by_cases h : j < 12
    · have h' : ¬ (j ≥ 12) := by omega
      simp [h, h']
    · have h' : j ≥ 12 := by omega
      simp [h, h']
  rw [e2]
  have e4 : 16 * (r % 65536) ||| f % 2 = 2 ^ 4 * (r % 65536) + f % 2 := by
    have := Nat.mul_add_lt_is_or (show f % 2 < 2 ^ 4 by omega) (r % 65536)
    rw [this]
  rw [e4]
  omega

/-- The fields of a list-format flags word. -/
theorem levels_by_array_fields (c r : Nat) :
    flags_count (LEVELS_BY_ARRAY c r) = c % 4096
      ∧ flags_format (LEVELS_BY_ARRAY c r) = SCMI_VOLTD_LEVELS_FORMAT_LIST
      ∧ flags_remaining (LEVELS_BY_ARRAY c r) = r % 65536 := by
  simp only [LEVELS_BY_ARRAY, levels_flags_closed, flags_count, flags_format, flags_remaining,
    SCMI_VOLTD_LEVELS_FORMAT_LIST]
  refine ⟨?_, ?_, ?_⟩ <;> omega

/-- The fields of the range-format flags word. -/
theorem levels_by_step_fields :
    flags_count LEVELS_BY_STEP = 3
      ∧ flags_format LEVELS_BY_STEP = SCMI_VOLTD_LEVELS_FORMAT_RANGE
      ∧ flags_remaining LEVELS_BY_STEP = 0 := by
  decide

/-! ## Describe Levels: the level loop -/

/-- A 32-bit input field is below `2^32`. -/
theorem rd_u32_lt (buf : List Nat) (off : Nat) : rd_u32 buf off < 4294967296 := by
  simp only [rd_u32, byte_at]; omega

/-- Confinement of an index that passed the range check. -/
theorem confine_in_range (index size : Nat) (h : index < size) (h32 : index < 4294967296) :
    confine_array_index index size % 4294967296 = index := by
  simp only [confine_array_index, if_pos h]; omega

/-- The level loop on any platform, given fuel for every descriptor the
output can hold: it never runs out of fuel; it ends after `k` fetches with
the `k` stores at the cells from `out_idx` on, within the available size; a
failing fetch ends it with the non-zero status of the platform. -/
theorem levels_loop_spec {σ : Type} (p : Plat σ) (ch d nb : Nat) :
    ∀ (fuel avail idx out_idx : Nat) (r : Run σ), avail / 4 ≤ fuel → idx < 4294967296 →
      (∃ e r1 k, levels_loop p ch d nb fuel avail idx out_idx r = .done e r1
          ∧ 4 * k ≤ avail ∧ e = (idx + k) % 4294967296
          ∧ r1.stores = r.stores ++ List.range' out_idx k ∧ r1.plat = r.plat
          ∧ r1.msg.out_size = r.msg.out_size
          ∧ (∀ i, i < out_idx → r1.msg.out i = r.msg.out i))
      ∨ (∃ st r1 k, levels_loop p ch d nb fuel avail idx out_idx r = .fail st r1
          ∧ st ≠ 0
          ∧ (∃ i, st = (p.plat_scmi_voltd_levels_array r.plat ch d i false 1).status)
          ∧ 4 * (k + 1) ≤ avail
          ∧ r1.stores = r.stores ++ List.range' out_idx k ∧ r1.plat = r.plat
          ∧ r1.msg.out_size = r.msg.out_size
          ∧ (∀ i, i < out_idx → r1.msg.out i = r.msg.out i)) := by
  intro fuel
  induction fuel with
  | zero =>
    intro avail idx out_idx r hf hidx
    left
    have hc : ¬ (LEVEL_DESC_SIZE ≤ avail ∧ idx < nb) := by
      simp only [LEVEL_DESC_SIZE]; omega
    refine ⟨idx, r, 0, ?_, by omega, by omega, by simp, rfl, rfl, fun _ _ => rfl⟩
    simp only [levels_loop, if_neg hc]
  | succ fuel ih =>
    intro avail idx out_idx r hf hidx
    by_cases hc : LEVEL_DESC_SIZE ≤ avail ∧ idx < nb
    · have h4 : 4 ≤ avail := hc.1
      by_cases hst : (p.plat_scmi_voltd_levels_array r.plat ch d idx false 1).status ≠ 0
      · right
        refine ⟨_, r.call (.levels_array ch d idx false 1), 0, ?_, hst, ⟨idx, rfl⟩, by omega,
          by simp [Run.call], rfl, rfl, fun _ _ => rfl⟩
        simp only [levels_loop, if_pos hc, if_pos hst]
      · have hstep : levels_loop p ch d nb (fuel + 1) avail idx out_idx r
            = levels_loop p ch d nb fuel (avail - LEVEL_DESC_SIZE) ((idx + 1) % 4294967296)
                (out_idx + 1)
                ((r.call (.levels_array ch d idx false 1)).store out_idx
                  (to_int32 ((p.plat_scmi_voltd_levels_array r.plat ch d idx false 1).levels.headD
                    0))) := by
          simp only [levels_loop, if_pos hc, if_neg hst]
        have hf2 : (avail - LEVEL_DESC_SIZE) / 4 ≤ fuel := by
          simp only [LEVEL_DESC_SIZE]; omega
        have hi2 : (idx + 1) % 4294967296 < 4294967296 := by omega
        have hr2s : ((r.call (.levels_array ch d idx false 1)).store out_idx
            (to_int32 ((p.plat_scmi_voltd_levels_array r.plat ch d idx false 1).levels.headD
              0))).stores = r.stores ++ [out_idx] := by
          simp [Run.store, Run.call]
        have hr2f : ∀ i, i < out_idx → ((r.call (.levels_array ch d idx false 1)).store out_idx
            (to_int32 ((p.plat_scmi_voltd_levels_array r.plat ch d idx false 1).levels.headD
              0))).msg.out i = r.msg.out i := by
          intro i hi
          have : i ≠ out_idx := by omega
          simp [Run.store, Run.call, this]
        rcases ih (avail - LEVEL_DESC_SIZE) ((idx + 1) % 4294967296) (out_idx + 1)
            ((r.call (.levels_array ch d idx false 1)).store out_idx
              (to_int32 ((p.plat_scmi_voltd_levels_array r.plat ch d idx false 1).levels.headD
                0))) hf2 hi2 with
          ⟨e, r1, k, heq, hk, he, hs, hp, ho, hfr⟩ | ⟨st, r1, k, heq, hne, hi, hk, hs, hp, ho, hfr⟩
        · left
          refine ⟨e, r1, k + 1, by rw [hstep, heq], ?_, ?_, ?_, hp, ho, ?_⟩
          · simp only [LEVEL_DESC_SIZE] at hk; omega
          · rw [he]; omega
          · rw [hs, hr2s]; simp [List.range'_succ]
          · intro i hi
            rw [hfr i (by omega), hr2f i hi]
        · right
          refine ⟨st, r1, k + 1, by rw [hstep, heq], hne, hi, ?_, ?_, hp, ho, ?_⟩
          · simp only [LEVEL_DESC_SIZE] at hk; omega
          · rw [hs, hr2s]; simp [List.range'_succ]
          · intro i hi
            rw [hfr i (by omega), hr2f i hi]
    · left
      refine ⟨idx, r, 0, ?_, by omega, by omega, by simp, rfl, rfl, fun _ _ => rfl⟩
      simp only [levels_loop, if_neg hc]

/-! ## Describe Levels: the paths of the handler -/

/-- Protocol Error is a failure status. -/
theorem protocol_error_ne_zero : SCMI_PROTOCOL_ERROR ≠ 0 := by decide

/-- Invalid Parameters is a failure status. -/
theorem invalid_parameters_ne_zero : SCMI_INVALID_PARAMETERS ≠ 0 := by decide

/-- The paths of `scmi_voltd_describe_levels` on any platform and request.
The handler always answers and leaves the platform state unchanged.  Either
it answers a non-zero status in a status-only length, for one of the listed
reasons, or it takes the list-form success path, or the range-form success
path; on both success paths the stores are the level descriptors from cell 2
on, followed by the two header cells, all within the output capacity. -/
theorem describe_levels_paths {σ : Type} (cfg : Config) (p : Plat σ) (s : σ) (msg : scmi_msg) :
    ∃ r, scmi_voltd_describe_levels cfg p s msg = .ok r ∧ r.plat = s
      ∧ ((r.status ≠ 0 ∧ r.msg.out_size_out = 4
          ∧ ((msg.in_size ≠ sizeof_describe_levels_a2p ∧ r.status = SCMI_PROTOCOL_ERROR)
            ∨ (msg.in_size = sizeof_describe_levels_a2p
                ∧ p.plat_scmi_voltd_count s msg.channel_id ≤ rd_u32 msg.in_buf 0
                ∧ r.status = SCMI_INVALID_PARAMETERS)
            ∨ (msg.in_size = sizeof_describe_levels_a2p
                ∧ rd_u32 msg.in_buf 0 < p.plat_scmi_voltd_count s msg.channel_id
                ∧ msg.out_size < sizeof_describe_levels_p2a
                ∧ r.status = SCMI_INVALID_PARAMETERS)
            ∨ (msg.in_size = sizeof_describe_levels_a2p
                ∧ rd_u32 msg.in_buf 0 < p.plat_scmi_voltd_count s msg.channel_id
                ∧ sizeof_describe_levels_p2a ≤ msg.out_size
                ∧ (r.status = SCMI_PROTOCOL_ERROR
                  ∨ (∃ i b n, r.status = (p.plat_scmi_voltd_levels_array s msg.channel_id
                      (rd_u32 msg.in_buf 0) i b n).status)
                  ∨ r.status = (p.plat_scmi_voltd_levels_by_step s msg.channel_id
                      (rd_u32 msg.in_buf 0)).1))))
        ∨ (msg.in_size = sizeof_describe_levels_a2p
            ∧ rd_u32 msg.in_buf 0 < p.plat_scmi_voltd_count s msg.channel_id
            ∧ (p.plat_scmi_voltd_levels_array s msg.channel_id (rd_u32 msg.in_buf 0) 0 true
                0).status = SCMI_SUCCESS
            ∧ r.status = SCMI_SUCCESS
            ∧ flags_format r.flags = SCMI_VOLTD_LEVELS_FORMAT_LIST
            ∧ ∃ k, r.stores = List.range' 2 k ++ [0, 1]
                ∧ sizeof_describe_levels_p2a + LEVEL_DESC_SIZE * k ≤ msg.out_size
                ∧ r.msg.out_size_out
                    = sizeof_describe_levels_p2a + LEVEL_DESC_SIZE * (k % 4294967296))
        ∨ (msg.in_size = sizeof_describe_levels_a2p
            ∧ rd_u32 msg.in_buf 0 < p.plat_scmi_voltd_count s msg.channel_id
            ∧ (p.plat_scmi_voltd_levels_array s msg.channel_id (rd_u32 msg.in_buf 0) 0 true
                0).status = SCMI_NOT_SUPPORTED
            ∧ r.status = SCMI_SUCCESS
            ∧ flags_format r.flags = SCMI_VOLTD_LEVELS_FORMAT_RANGE
            ∧ r.stores = List.range' 2 3 ++ [0, 1]
            ∧ sizeof_describe_levels_p2a + LEVEL_DESC_SIZE * 3 ≤ msg.out_size
            ∧ r.msg.out_size_out = sizeof_describe_levels_p2a + LEVEL_DESC_SIZE * 3)) := by
  by_cases hsz : msg.in_size ≠ sizeof_describe_levels_a2p
  · refine ⟨scmi_status_response (Run.init msg s) SCMI_PROTOCOL_ERROR, ?_, rfl, Or.inl ?_⟩
    · simp only [scmi_voltd_describe_levels, if_pos hsz]
    · exact ⟨protocol_error_ne_zero, rfl, Or.inl ⟨hsz, rfl⟩⟩
  have hsz' : msg.in_size = sizeof_describe_levels_a2p := by simpa using hsz
  by_cases hdom : rd_u32 msg.in_buf 0 ≥ p.plat_scmi_voltd_count s msg.channel_id
  · refine ⟨scmi_status_response ((Run.init msg s).call (.count msg.channel_id))
      SCMI_INVALID_PARAMETERS, ?_, rfl, Or.inl ?_⟩
    · simp only [scmi_voltd_describe_levels, if_neg hsz, if_pos hdom]
    · exact ⟨invalid_parameters_ne_zero, rfl, Or.inr (Or.inl ⟨hsz', hdom, rfl⟩)⟩
  have hdom' : rd_u32 msg.in_buf 0 < p.plat_scmi_voltd_count s msg.channel_id := by omega
  by_cases hout : msg.out_size < sizeof_describe_levels_p2a
  · refine ⟨scmi_status_response ((Run.init msg s).call (.count msg.channel_id))
      SCMI_INVALID_PARAMETERS, ?_, rfl, Or.inl ?_⟩
    · simp only [scmi_voltd_describe_levels, if_neg hsz, if_neg hdom, if_pos hout]
    · exact ⟨invalid_parameters_ne_zero, rfl, Or.inr (Or.inr (Or.inl ⟨hsz', hdom', hout, rfl⟩))⟩
  have hout' : sizeof_describe_levels_p2a ≤ msg.out_size := by omega
  have hc := confine_in_range _ _ hdom' (rd_u32_lt msg.in_buf 0)
  by_cases hprobe : (p.plat_scmi_voltd_levels_array s msg.channel_id (rd_u32 msg.in_buf 0) 0
      true 0).status = SCMI_SUCCESS
  · -- list form
    by_cases hsmall : msg.out_size - sizeof_describe_levels_p2a < LEVEL_DESC_SIZE
        ∧ (p.plat_scmi_voltd_levels_array s msg.channel_id (rd_u32 msg.in_buf 0) 0 true
            0).nb_elts ≠ 0
    · refine ⟨scmi_status_response ((((Run.init msg s).call (.count msg.channel_id)).call
          (.count msg.channel_id)).call (.levels_array msg.channel_id (rd_u32 msg.in_buf 0) 0
            true 0)) SCMI_PROTOCOL_ERROR, ?_, rfl, Or.inl ?_⟩
      · simp only [scmi_voltd_describe_levels, if_neg hsz, if_neg hdom, if_neg hout, hc,
          if_pos hprobe, if_pos hsmall]
      · exact ⟨protocol_error_ne_zero, rfl, Or.inr (Or.inr (Or.inr ⟨hsz', hdom', hout', Or.inl rfl⟩))⟩
    · have hfuel : (msg.out_size - sizeof_describe_levels_p2a) / 4
          ≤ (msg.out_size - sizeof_describe_levels_p2a) / LEVEL_DESC_SIZE := by
        simp only [LEVEL_DESC_SIZE]; omega
      rcases levels_loop_spec p msg.channel_id (rd_u32 msg.in_buf 0)
          (p.plat_scmi_voltd_levels_array s msg.channel_id (rd_u32 msg.in_buf 0) 0 true
            0).nb_elts
          ((msg.out_size - sizeof_describe_levels_p2a) / LEVEL_DESC_SIZE)
          (msg.out_size - sizeof_describe_levels_p2a) (rd_u32 msg.in_buf 4)
          (sizeof_describe_levels_p2a / 4)
          ((((Run.init msg s).call (.count msg.channel_id)).call
            (.count msg.channel_id)).call (.levels_array msg.channel_id (rd_u32 msg.in_buf 0) 0
              true 0)) hfuel (rd_u32_lt msg.in_buf 4) with
        ⟨e, r1, k, heq, hk, he, hs, hp, ho, hfr⟩ | ⟨st, r1, k, heq, hne, hi, hk, hs, hp, ho, hfr⟩
      · -- success
        have h32 := rd_u32_lt msg.in_buf 4
        have hcount : (((e : Int) - (rd_u32 msg.in_buf 4 : Int)) % 4294967296).toNat
            = k % 4294967296 := by
          rw [he]; omega
        simp only [scmi_voltd_describe_levels, if_neg hsz, if_neg hdom, if_neg hout, hc,
          if_pos hprobe, if_neg hsmall, heq]
        refine ⟨_, rfl, ?_, Or.inr (Or.inl ⟨hsz', hdom', hprobe, ?_, ?_, k, ?_, ?_, ?_⟩)⟩
        · simp only [memcpy_out, Run.store, Run.set_out_size_out, hp]; rfl
        · simp [memcpy_out, Run.store, Run.set_out_size_out, Run.status]
        · simp only [memcpy_out, Run.store, Run.set_out_size_out, Run.flags]
          simp only [show ((1 : Nat) = 0) = False by simp, show ((1 : Nat) = 1) = True by simp,
            if_true, if_false, Int.toNat_ofNat]
          exact (levels_by_array_fields _ _).2.1
        · simp only [memcpy_out, Run.store, Run.set_out_size_out, hs]
          simp [Run.call, Run.init, sizeof_describe_levels_p2a]
        · simp only [LEVEL_DESC_SIZE]; omega
        · simp only [memcpy_out, Run.store, Run.set_out_size_out, hcount]
          simp only [LEVEL_DESC_SIZE]; omega
      · -- a fetch failed
        refine ⟨scmi_status_response r1 st, ?_, ?_, Or.inl ⟨hne, rfl, Or.inr (Or.inr (Or.inr
          ⟨hsz', hdom', hout', Or.inr (Or.inl ?_)⟩))⟩⟩
        · simp only [scmi_voltd_describe_levels, if_neg hsz, if_neg hdom, if_neg hout, hc,
            if_pos hprobe, if_neg hsmall, heq]
        · simp only [scmi_status_response, Run.store, Run.set_out_size_out, hp]; rfl
        · obtain ⟨i, hi⟩ := hi
          exact ⟨i, false, 1, hi⟩
  · by_cases hns : (p.plat_scmi_voltd_levels_array s msg.channel_id (rd_u32 msg.in_buf 0) 0
        true 0).status = SCMI_NOT_SUPPORTED
    · -- range form
      by_cases hsmall : msg.out_size < sizeof_describe_levels_p2a + 3 * LEVEL_DESC_SIZE
      · refine ⟨scmi_status_response ((((Run.init msg s).call (.count msg.channel_id)).call
            (.count msg.channel_id)).call (.levels_array msg.channel_id (rd_u32 msg.in_buf 0) 0
              true 0)) SCMI_PROTOCOL_ERROR, ?_, rfl, Or.inl ?_⟩
        · simp only [scmi_voltd_describe_levels, if_neg hsz, if_neg hdom, if_neg hout, hc,
            if_neg hprobe, if_pos hns, if_pos hsmall]
        · exact ⟨protocol_error_ne_zero, rfl, Or.inr (Or.inr (Or.inr ⟨hsz', hdom', hout', Or.inl rfl⟩))⟩
      · by_cases hst : (p.plat_scmi_voltd_levels_by_step s msg.channel_id
            (rd_u32 msg.in_buf 0)).1 ≠ 0
        · refine ⟨scmi_status_response (((((Run.init msg s).call (.count msg.channel_id)).call
              (.count msg.channel_id)).call (.levels_array msg.channel_id (rd_u32 msg.in_buf 0)
                0 true 0)).call (.levels_by_step msg.channel_id (rd_u32 msg.in_buf 0)))
              (p.plat_scmi_voltd_levels_by_step s msg.channel_id (rd_u32 msg.in_buf 0)).1,
            ?_, rfl, Or.inl ?_⟩
          · simp only [scmi_voltd_describe_levels, if_neg hsz, if_neg hdom, if_neg hout, hc,
              if_neg hprobe, if_pos hns, if_neg hsmall, if_pos hst]
          · exact ⟨hst, rfl, Or.inr (Or.inr (Or.inr ⟨hsz', hdom', hout', Or.inr (Or.inr rfl)⟩))⟩
        · simp only [scmi_voltd_describe_levels, if_neg hsz, if_neg hdom, if_neg hout, hc,
            if_neg hprobe, if_pos hns, if_neg hsmall, if_neg hst]
          refine ⟨_, rfl, ?_, Or.inr (Or.inr ⟨hsz', hdom', hns, ?_, ?_, ?_, ?_, ?_⟩)⟩
          · rfl
          · rfl
          · exact levels_by_step_fields.2.1
          · rfl
          · simp only [LEVEL_DESC_SIZE] at hsmall ⊢; omega
          · rfl
    · refine ⟨scmi_status_response ((((Run.init msg s).call (.count msg.channel_id)).call
          (.count msg.channel_id)).call (.levels_array msg.channel_id (rd_u32 msg.in_buf 0) 0
            true 0)) (p.plat_scmi_voltd_levels_array s msg.channel_id (rd_u32 msg.in_buf 0) 0
              true 0).status, ?_, rfl, Or.inl ?_⟩
      · simp only [scmi_voltd_describe_levels, if_neg hsz, if_neg hdom, if_neg hout, hc,
          if_neg hprobe, if_neg hns]
      · exact ⟨hprobe, rfl, Or.inr (Or.inr (Or.inr ⟨hsz', hdom', hout',
          Or.inr (Or.inl ⟨0, true, 0, rfl⟩)⟩))⟩

/-! ## Domain id range check -/

/-- C2 (counterexample): on a platform with one domain whose get-config hook
is the weak default, a correctly sized Config Get request for domain 0 gets
Invalid Parameters although the domain id is below the domain count. -/
theorem config_get_invalid_with_valid_domain :
    (request 0 SCMI_VOLTAGE_CONFIG_GET (le32 0) 8).in_size
        = expected_in_size HandlerTag.scmi_voltd_config_get
      ∧ rd_u32 (request 0 SCMI_VOLTAGE_CONFIG_GET (le32 0) 8).in_buf 0
          < (count_only_plat 1).plat_scmi_voltd_count () 0
      ∧ response_of (scmi_voltd_config_get cfg_loose (count_only_plat 1) ()
          (request 0 SCMI_VOLTAGE_CONFIG_GET (le32 0) 8)) = some (SCMI_INVALID_PARAMETERS, 4) := by
  refine ⟨rfl, by decide, rfl⟩

/-- The status of `scmi_write_response` is the first payload cell or
Protocol Error. -/
theorem write_response_status {σ : Type} (r : Run σ) (w : Int) (ws : List Int) :
    (scmi_write_response r (w :: ws)).status = SCMI_PROTOCOL_ERROR
      ∨ (scmi_write_response r (w :: ws)).status = w := by
  simp only [scmi_write_response]
  split
  · left; rfl
  · right
    have key : ∀ (l : List Int) (q : Run σ) (i : Nat), 0 < i →
        (memcpy_out q i l).msg.out 0 = q.msg.out 0 := by
      intro l
      induction l with
      | nil => intro q i _; rfl
      | cons a l ih =>
        intro q i hi
        simp only [memcpy_out]
        rw [ih _ _ (by omega)]
        have : (0 : Nat) ≠ i := by omega
        simp [Run.store, this]
    show (memcpy_out (r.store 0 w) 1 ws).msg.out 0 = w
    rw [key _ _ _ (by omega)]
    simp [Run.store]

/-- C2 (amended): for every handler that takes a domain id and every
correctly sized request with domain id `d`: if `d` is at or beyond the
domain count the response is the status-only response Invalid Parameters,
after the domain count query alone.  If `d` is below the count, the status
is Invalid Parameters only when the platform is the cause (Config Get: any
failure of the get-config hook; Config Set, Level Set, Describe Levels: the
hook itself returned Invalid Parameters; Domain Attributes and Level Get:
never), for Describe Levels given an output capacity of at least the
response header; and for the handlers other than Describe Levels that
platform cause does give Invalid Parameters. -/
theorem invalid_parameters_domain_range {σ : Type} (t : HandlerTag) (cfg : Config) (p : Plat σ)
    (s : σ) (msg : scmi_msg) (ht : takes_domain_id t = true)
    (hlen : msg.in_size = expected_in_size t) :
    ∃ r, t.run cfg p s msg = .ok r
      ∧ (p.plat_scmi_voltd_count s msg.channel_id ≤ rd_u32 msg.in_buf 0 →
          r.status_only SCMI_INVALID_PARAMETERS ∧ r.calls = [.count msg.channel_id]
            ∧ r.plat = s)
      ∧ (rd_u32 msg.in_buf 0 < p.plat_scmi_voltd_count s msg.channel_id →
          (t = .scmi_voltd_describe_levels → sizeof_describe_levels_p2a ≤ msg.out_size) →
          r.status = SCMI_INVALID_PARAMETERS →
          invalid_from_backend t p s msg (rd_u32 msg.in_buf 0))
      ∧ (rd_u32 msg.in_buf 0 < p.plat_scmi_voltd_count s msg.channel_id →
          t ≠ .scmi_voltd_describe_levels →
          invalid_from_backend t p s msg (rd_u32 msg.in_buf 0) →
          r.status = SCMI_INVALID_PARAMETERS) := by
  have h32 := rd_u32_lt msg.in_buf 0
  cases t
  case report_version => cases ht
  case report_attributes => cases ht
  case report_message_attributes => cases ht
  case scmi_voltd_domain_attributes =>
    have hsize : ¬ (msg.in_size ≠ sizeof_attributes_a2p) := by simpa using hlen
    by_cases hdom : rd_u32 msg.in_buf 0 ≥ p.plat_scmi_voltd_count s msg.channel_id
    · simp only [HandlerTag.run, scmi_voltd_domain_attributes, if_neg hsize, if_pos hdom]
      exact ⟨_, rfl, fun _ => ⟨⟨rfl, rfl, rfl⟩, rfl, rfl⟩, fun h => by omega, fun h => by omega⟩
    · have hlt : rd_u32 msg.in_buf 0 < p.plat_scmi_voltd_count s msg.channel_id := by omega
      have hc := confine_in_range _ _ hlt h32
      simp only [HandlerTag.run, scmi_voltd_domain_attributes, if_neg hsize, if_neg hdom, hc]
      cases hn : p.plat_scmi_voltd_get_name s msg.channel_id (rd_u32 msg.in_buf 0) with
      | none =>
        refine ⟨_, rfl, fun h => by omega, fun _ _ h => ?_, fun _ _ h => h.elim⟩
        exact absurd h (by show (SCMI_NOT_FOUND : Int) ≠ SCMI_INVALID_PARAMETERS; decide)
      | some name =>
        refine ⟨_, rfl, fun h => by omega, fun _ _ h => ?_, fun _ _ h => h.elim⟩
        rcases write_response_status
          ((((Run.init msg s).call (.count msg.channel_id)).call (.count msg.channel_id)).call
            (.get_name msg.channel_id (rd_u32 msg.in_buf 0)))
          SCMI_SUCCESS ((0 : Int) :: COPY_NAME_IDENTIFIER name) with h1 | h1
        · have h2 := h1.symm.trans h
          exact absurd h2 (by decide)
        · have h2 := h1.symm.trans h
          exact absurd h2 (by decide)
  case scmi_voltd_describe_levels =>
    obtain ⟨r, hr, hp, hpath⟩ := describe_levels_paths cfg p s msg
    refine ⟨r, hr, ?_, ?_, fun _ h => absurd rfl h⟩
    · intro hdom
      have hsize : ¬ (msg.in_size ≠ sizeof_describe_levels_a2p) := by simpa using hlen
      have hge : rd_u32 msg.in_buf 0 ≥ p.plat_scmi_voltd_count s msg.channel_id := hdom
      simp only [scmi_voltd_describe_levels, if_neg hsize, if_pos hge] at hr
      cases hr
      exact ⟨⟨rfl, rfl, rfl⟩, rfl, rfl⟩
    · intro hlt hout hst
      have hout' := hout rfl
      rcases hpath with ⟨_, _, hreason⟩ | ⟨_, _, _, h0, _⟩ | ⟨_, _, _, h0, _⟩
      · rcases hreason with ⟨hne, _⟩ | ⟨_, hge, _⟩ | ⟨_, _, hsm, _⟩ | ⟨_, _, _, hcase⟩
        · exact absurd hlen hne
        · omega
        · omega
        · rcases hcase with h1 | ⟨i, b, n, h1⟩ | h1
          · exact absurd (h1.symm.trans hst) (by decide)
          · exact Or.inl ⟨i, b, n, h1.symm.trans hst⟩
          · exact Or.inr (h1.symm.trans hst)
      · exact absurd (h0.symm.trans hst) (by decide)
      · exact absurd (h0.symm.trans hst) (by decide)
  case scmi_voltd_config_set =>
    have hsize : ¬ (msg.in_size ≠ sizeof_config_set_a2p) := by simpa using hlen
    by_cases hdom : rd_u32 msg.in_buf 0 ≥ p.plat_scmi_voltd_count s msg.channel_id
    · simp only [HandlerTag.run, scmi_voltd_config_set, if_neg hsize, if_pos hdom]
      exact ⟨_, rfl, fun _ => ⟨⟨rfl, rfl, rfl⟩, rfl, rfl⟩, fun h => by omega, fun h => by omega⟩
    · have hlt : rd_u32 msg.in_buf 0 < p.plat_scmi_voltd_count s msg.channel_id := by omega
      have hc := confine_in_range _ _ hlt h32
      simp only [HandlerTag.run, scmi_voltd_config_set, if_neg hsize, if_neg hdom, hc]
      exact ⟨_, rfl, fun h => by omega, fun _ _ h => h, fun _ _ h => h⟩
  case scmi_voltd_config_get =>
    have hsize : ¬ (msg.in_size ≠ sizeof_config_get_a2p) := by simpa using hlen
    by_cases hdom : rd_u32 msg.in_buf 0 ≥ p.plat_scmi_voltd_count s msg.channel_id
    · simp only [HandlerTag.run, scmi_voltd_config_get, if_neg hsize, if_pos hdom]
      exact ⟨_, rfl, fun _ => ⟨⟨rfl, rfl, rfl⟩, rfl, rfl⟩, fun h => by omega, fun h => by omega⟩
    · have hlt : rd_u32 msg.in_buf 0 < p.plat_scmi_voltd_count s msg.channel_id := by omega
      have hc := confine_in_range _ _ hlt h32
      simp only [HandlerTag.run, scmi_voltd_config_get, if_neg hsize, if_neg hdom, hc]
      by_cases hst : (p.plat_scmi_voltd_get_config s msg.channel_id (rd_u32 msg.in_buf 0)).1 ≠ 0
      · simp only [if_pos hst]
        exact ⟨_, rfl, fun h => by omega, fun _ _ _ => hst, fun _ _ _ => rfl⟩
      · simp only [if_neg hst]
        refine ⟨_, rfl, fun h => by omega, fun _ _ h => ?_, fun _ _ h => absurd h hst⟩
        rcases write_response_status
          ((((Run.init msg s).call (.count msg.channel_id)).call (.count msg.channel_id)).call
            (.get_config msg.channel_id (rd_u32 msg.in_buf 0)))
          0 [(((p.plat_scmi_voltd_get_config s msg.channel_id (rd_u32 msg.in_buf 0)).2.getD 0
            % 4294967296 : Nat) : Int)] with h1 | h1
        · exact absurd (h1.symm.trans h) (by decide)
        · exact absurd (h1.symm.trans h) (by decide)
  case scmi_voltd_level_set =>
    have hsize : ¬ (msg.in_size ≠ sizeof_level_set_a2p) := by simpa using hlen
    by_cases hdom : rd_u32 msg.in_buf 0 ≥ p.plat_scmi_voltd_count s msg.channel_id
    · simp only [HandlerTag.run, scmi_voltd_level_set, if_neg hsize, if_pos hdom]
      exact ⟨_, rfl, fun _ => ⟨⟨rfl, rfl, rfl⟩, rfl, rfl⟩, fun h => by omega, fun h => by omega⟩
    · have hlt : rd_u32 msg.in_buf 0 < p.plat_scmi_voltd_count s msg.channel_id := by omega
      have hc := confine_in_range _ _ hlt h32
      simp only [HandlerTag.run, scmi_voltd_level_set, if_neg hsize, if_neg hdom, hc]
      exact ⟨_, rfl, fun h => by omega, fun _ _ h => h, fun _ _ h => h⟩
  case scmi_voltd_level_get =>
    have hsize : ¬ (msg.in_size ≠ sizeof_level_get_a2p) := by simpa using hlen
    by_cases hdom : rd_u32 msg.in_buf 0 ≥ p.plat_scmi_voltd_count s msg.channel_id
    · simp only [HandlerTag.run, scmi_voltd_level_get, if_neg hsize, if_pos hdom]
      exact ⟨_, rfl, fun _ => ⟨⟨rfl, rfl, rfl⟩, rfl, rfl⟩, fun h => by omega, fun h => by omega⟩
    · have hlt : rd_u32 msg.in_buf 0 < p.plat_scmi_voltd_count s msg.channel_id := by omega
      have hc := confine_in_range _ _ hlt h32
      simp only [HandlerTag.run, scmi_voltd_level_get, if_neg hsize, if_neg hdom, hc]
      refine ⟨_, rfl, fun h => by omega, fun _ _ h => ?_, fun _ _ h => h.elim⟩
      rcases write_response_status
        ((((Run.init msg s).call (.count msg.channel_id)).call (.count msg.channel_id)).call
          (.get_level msg.channel_id (rd_u32 msg.in_buf 0)))
        SCMI_SUCCESS [to_int32 (p.plat_scmi_voltd_get_level s msg.channel_id
          (rd_u32 msg.in_buf 0))] with h1 | h1
      · exact absurd (h1.symm.trans h) (by decide)
      · exact absurd (h1.symm.trans h) (by decide)

/-- C2 (witness): Level Get on the example platform, for the out-of-range
domain id 2. -/
theorem invalid_parameters_domain_range_witness :
    ∃ r, HandlerTag.scmi_voltd_level_get.run cfg_loose demo_plat demo_state
        (request 0 SCMI_VOLTAGE_LEVEL_GET (le32 2) 8) = .ok r
      ∧ (demo_plat.plat_scmi_voltd_count demo_state 0 ≤ rd_u32 (le32 2) 0 →
          r.status_only SCMI_INVALID_PARAMETERS ∧ r.calls = [.count 0] ∧ r.plat = demo_state)
      ∧ (rd_u32 (le32 2) 0 < demo_plat.plat_scmi_voltd_count demo_state 0 →
          (HandlerTag.scmi_voltd_level_get = .scmi_voltd_describe_levels →
            sizeof_describe_levels_p2a ≤ 8) →
          r.status = SCMI_INVALID_PARAMETERS →
          invalid_from_backend HandlerTag.scmi_voltd_level_get demo_plat demo_state
            (request 0 SCMI_VOLTAGE_LEVEL_GET (le32 2) 8) (rd_u32 (le32 2) 0))
      ∧ (rd_u32 (le32 2) 0 < demo_plat.plat_scmi_voltd_count demo_state 0 →
          HandlerTag.scmi_voltd_level_get ≠ .scmi_voltd_describe_levels →
          invalid_from_backend HandlerTag.scmi_voltd_level_get demo_plat demo_state
            (request 0 SCMI_VOLTAGE_LEVEL_GET (le32 2) 8) (rd_u32 (le32 2) 0) →
          r.status = SCMI_INVALID_PARAMETERS) :=
  invalid_parameters_domain_range HandlerTag.scmi_voltd_level_get cfg_loose demo_plat
    demo_state (request 0 SCMI_VOLTAGE_LEVEL_GET (le32 2) 8) rfl rfl

/-! ## Describe Levels: output capacity and format -/

/-- C5: on the success path of Describe Levels (list form or range form) the
recorded output length is the header size plus four bytes per emitted level
and is at most `msg->out_size`; every cell the handler stored to (the level
descriptors from byte offset 8 on, then the header) ends at or below
`msg->out_size`. -/
theorem describe_levels_within_capacity {σ : Type} (cfg : Config) (p : Plat σ) (s : σ)
    (msg : scmi_msg) (r : Run σ)
    (hrun : scmi_voltd_describe_levels cfg p s msg = .ok r)
    (hok : r.status = SCMI_SUCCESS) :
    r.msg.out_size_out = sizeof_describe_levels_p2a + LEVEL_DESC_SIZE * emitted_count r
      ∧ r.msg.out_size_out ≤ msg.out_size
      ∧ (∀ i ∈ r.stores, 4 * i + 4 ≤ msg.out_size)
      ∧ (∃ k, r.stores = List.range' 2 k ++ [0, 1] ∧ emitted_count r = k % 4294967296
          ∧ sizeof_describe_levels_p2a + LEVEL_DESC_SIZE * k ≤ msg.out_size) := by
  obtain ⟨r0, hr0, _, hpath⟩ := describe_levels_paths cfg p s msg
  rw [hrun] at hr0
  cases hr0
  have hstores : ∀ k, sizeof_describe_levels_p2a + LEVEL_DESC_SIZE * k ≤ msg.out_size →
      ∀ i ∈ List.range' 2 k ++ [0, 1], 4 * i + 4 ≤ msg.out_size := by
    intro k hk i hi
    simp only [sizeof_describe_levels_p2a, LEVEL_DESC_SIZE] at hk
    rcases List.mem_append.1 hi with h | h
    · rw [List.mem_range'_1] at h; omega
    · simp at h; omega
  rcases hpath with ⟨hne, _, _⟩ | ⟨_, _, _, _, _, k, hs, hcap, hlen⟩ | ⟨_, _, _, _, _, hs, hcap, hlen⟩
  · exact absurd hok hne
  · have hem : emitted_count r = k % 4294967296 := by
      simp only [emitted_count, hlen, sizeof_describe_levels_p2a, LEVEL_DESC_SIZE]; omega
    refine ⟨?_, ?_, ?_, k, hs, hem, hcap⟩
    · rw [hem, hlen]
    · simp only [hlen, sizeof_describe_levels_p2a, LEVEL_DESC_SIZE] at hcap ⊢; omega
    · rw [hs]; exact hstores k hcap
  · have hem : emitted_count r = 3 := by
      simp only [emitted_count, hlen, sizeof_describe_levels_p2a, LEVEL_DESC_SIZE]
    refine ⟨?_, ?_, ?_, 3, hs, by rw [hem], hcap⟩
    · rw [hem, hlen]
    · rw [hlen]; exact hcap
    · rw [hs]; exact hstores 3 hcap

/-- C10: for a fixed platform state, channel and domain, any two successful
Describe Levels responses carry the same format tag, whatever their level
indices, output capacities and build configurations; a successful response
is list format exactly when the list-form probe returned success and range
format exactly when the probe returned Not Supported. -/
theorem describe_levels_format_exclusive {σ : Type} (cfg1 cfg2 : Config) (p : Plat σ) (s : σ)
    (m1 m2 : scmi_msg) (r1 r2 : Run σ)
    (hch : m1.channel_id = m2.channel_id)
    (hd : rd_u32 m1.in_buf 0 = rd_u32 m2.in_buf 0)
    (h1 : scmi_voltd_describe_levels cfg1 p s m1 = .ok r1)
    (h2 : scmi_voltd_describe_levels cfg2 p s m2 = .ok r2)
    (hs1 : r1.status = SCMI_SUCCESS) (hs2 : r2.status = SCMI_SUCCESS) :
    flags_format r1.flags = flags_format r2.flags
      ∧ r2.plat = s
      ∧ (flags_format r1.flags = SCMI_VOLTD_LEVELS_FORMAT_LIST ↔
          (p.plat_scmi_voltd_levels_array s m1.channel_id (rd_u32 m1.in_buf 0) 0 true 0).status
            = SCMI_SUCCESS)
      ∧ (flags_format r1.flags = SCMI_VOLTD_LEVELS_FORMAT_RANGE ↔
          (p.plat_scmi_voltd_levels_array s m1.channel_id (rd_u32 m1.in_buf 0) 0 true 0).status
            = SCMI_NOT_SUPPORTED) := by
  obtain ⟨q1, hq1, _, hp1⟩ := describe_levels_paths cfg1 p s m1
  obtain ⟨q2, hq2, hplat2, hp2⟩ := describe_levels_paths cfg2 p s m2
  rw [h1] at hq1
  rw [h2] at hq2
  cases hq1
  cases hq2
  rw [← hch, ← hd] at hp2
  have hne : (SCMI_SUCCESS : Int) ≠ SCMI_NOT_SUPPORTED := by decide
  have hfmt : SCMI_VOLTD_LEVELS_FORMAT_LIST ≠ SCMI_VOLTD_LEVELS_FORMAT_RANGE := by decide
  rcases hp1 with ⟨hne1, _, _⟩ | ⟨_, _, hpr1, _, hf1, _⟩ | ⟨_, _, hpr1, _, hf1, _⟩
  · exact absurd hs1 hne1
  · rcases hp2 with ⟨hne2, _, _⟩ | ⟨_, _, hpr2, _, hf2, _⟩ | ⟨_, _, hpr2, _, hf2, _⟩
    · exact absurd hs2 hne2
    · refine ⟨hf1.trans hf2.symm, hplat2, ⟨fun _ => hpr1, fun _ => hf1⟩, ⟨fun h => ?_, fun h => ?_⟩⟩
      · exact absurd (hf1.symm.trans h) hfmt
      · exact absurd (hpr1.symm.trans h) hne
    · exact absurd (hpr1.symm.trans hpr2) hne
  · rcases hp2 with ⟨hne2, _, _⟩ | ⟨_, _, hpr2, _, hf2, _⟩ | ⟨_, _, hpr2, _, hf2, _⟩
    · exact absurd hs2 hne2
    · exact absurd (hpr2.symm.trans hpr1) hne
    · refine ⟨hf1.trans hf2.symm, hplat2, ⟨fun h => ?_, fun h => ?_⟩, ⟨fun _ => hpr1, fun _ => hf1⟩⟩
      · exact absurd (h.symm.trans hf1) hfmt
      · exact absurd (h.symm.trans hpr1) hne

/-! ## Describe Levels: list form -/

/-- The level loop on a list-form platform that never fails: from
`level_index ≤ N` it fetches `min (avail / 4) (N - level_index)` levels and
stores them, converted to `int32_t`, in catalog order from `out_idx` on. -/
theorem levels_loop_list {σ : Type} (p : Plat σ) (s : σ) (ch d : Nat) (catalog : List Int)
    (hL : ListForm p s ch d catalog) (hN : catalog.length < 4294967296) :
    ∀ (fuel avail idx out_idx : Nat) (r : Run σ), r.plat = s → avail / 4 ≤ fuel →
      idx ≤ catalog.length →
      ∃ r1, levels_loop p ch d catalog.length fuel avail idx out_idx r
          = .done (idx + min (avail / 4) (catalog.length - idx)) r1
        ∧ (∀ i, i < out_idx → r1.msg.out i = r.msg.out i)
        ∧ (∀ j, j < min (avail / 4) (catalog.length - idx) →
            r1.msg.out (out_idx + j) = to_int32 (catalog.getD (idx + j) 0)) := by
  intro fuel
  induction fuel with
  | zero =>
    intro avail idx out_idx r _ hf hidx
    have hc : ¬ (LEVEL_DESC_SIZE ≤ avail ∧ idx < catalog.length) := by
      simp only [LEVEL_DESC_SIZE]; omega
    have hmin : min (avail / 4) (catalog.length - idx) = 0 := by omega
    refine ⟨r, ?_, fun _ _ => rfl, fun j hj => by omega⟩
    simp only [levels_loop, if_neg hc, hmin, Nat.add_zero]
  | succ fuel ih =>
    intro avail idx out_idx r hp hf hidx
    by_cases hc : LEVEL_DESC_SIZE ≤ avail ∧ idx < catalog.length
    · have h4 : 4 ≤ avail := hc.1
      have hlt : idx < catalog.length := hc.2
      have hst : ¬ ((p.plat_scmi_voltd_levels_array r.plat ch d idx false 1).status ≠ 0) := by
        rw [hp, hL.fetch_status idx hlt]; decide
      have hlev : (p.plat_scmi_voltd_levels_array r.plat ch d idx false 1).levels.headD 0
          = catalog.getD idx 0 := by
        have h1 := hL.fetch_level idx hlt
        rw [hp]
        cases hl : (p.plat_scmi_voltd_levels_array s ch d idx false 1).levels with
        | nil =>
          rw [hl] at h1
          simp only [List.head?_nil] at h1
          have := List.get?_eq_none.1 h1.symm
          omega
        | cons a l =>
          rw [hl] at h1
          simp only [List.head?_cons] at h1
          simp only [List.headD_cons, List.getD_eq_getElem?_getD, ← List.get?_eq_getElem?, ← h1,
            Option.getD_some]
      have hmod : (idx + 1) % 4294967296 = idx + 1 := Nat.mod_eq_of_lt (by omega)
      have hf2 : (avail - LEVEL_DESC_SIZE) / 4 ≤ fuel := by
        simp only [LEVEL_DESC_SIZE]; omega
      obtain ⟨r1, heq, hfr, hcont⟩ := ih (avail - LEVEL_DESC_SIZE) (idx + 1) (out_idx + 1)
        ((r.call (.levels_array ch d idx false 1)).store out_idx (to_int32 (catalog.getD idx 0)))
        hp hf2 (by omega)
      have hmin : idx + 1 + min ((avail - LEVEL_DESC_SIZE) / 4) (catalog.length - (idx + 1))
          = idx + min (avail / 4) (catalog.length - idx) := by
        simp only [LEVEL_DESC_SIZE]; omega
      refine ⟨r1, ?_, ?_, ?_⟩
      · simp only [levels_loop, if_pos hc, if_neg hst, hlev, hmod, heq, hmin]
      · intro i hi
        rw [hfr i (by omega)]
        have : i ≠ out_idx := by omega
        simp [Run.store, Run.call, this]
      · intro j hj
        cases j with
        | zero =>
          rw [Nat.add_zero, Nat.add_zero, hfr out_idx (by omega)]
          simp [Run.store, Run.call]
        | succ j =>
          have hj2 : j < min ((avail - LEVEL_DESC_SIZE) / 4) (catalog.length - (idx + 1)) := by
            simp only [LEVEL_DESC_SIZE]; omega
          have := hcont j hj2
          rw [show out_idx + (j + 1) = out_idx + 1 + j by omega,
            show idx + (j + 1) = idx + 1 + j by omega]
          exact this
    · have hmin : min (avail / 4) (catalog.length - idx) = 0 := by
        simp only [LEVEL_DESC_SIZE] at hc; omega
      refine ⟨r, ?_, fun _ _ => rfl, fun j hj => by omega⟩
      simp only [levels_loop, if_neg hc, hmin, Nat.add_zero]

/-- A window of a list, read position by position. -/
theorem map_range_getD_eq_take_drop (f : Int → Int) (l : List Int) (idx e : Nat)
    (h : idx + e ≤ l.length) :
    (List.range e).map (fun j => f (l.getD (idx + j) 0)) = ((l.drop idx).take e).map f := by
  apply List.ext_getElem
  · simp; omega
  · intro i h1 h2
    simp only [List.length_map, List.length_range] at h1
    simp [List.getElem_take, List.getElem_drop, List.getD_eq_getElem?_getD]
    rw [List.getElem?_eq_getElem (by omega)]
    simp

/-- A list-form page of Describe Levels: on a list-form platform that never
fails, a correctly sized request for an in-range domain at
`level_index ≤ N`, with an output capacity of at least the header and one
level descriptor, succeeds; it emits
`min ((out_size - 8) / 4) (N - level_index)` levels, the catalog entries from
`level_index` on, converted to `int32_t`; its flags are the list-format
flags of that count and of the remaining value `N - level_index`. -/
theorem describe_levels_list_page {σ : Type} (cfg : Config) (p : Plat σ) (s : σ) (msg : scmi_msg)
    (catalog : List Int)
    (hlen : msg.in_size = sizeof_describe_levels_a2p)
    (hdom : rd_u32 msg.in_buf 0 < p.plat_scmi_voltd_count s msg.channel_id)
    (hL : ListForm p s msg.channel_id (rd_u32 msg.in_buf 0) catalog)
    (hidx : rd_u32 msg.in_buf 4 ≤ catalog.length)
    (hN : catalog.length < 4294967296)
    (hcap : sizeof_describe_levels_p2a + LEVEL_DESC_SIZE ≤ msg.out_size) :
    ∃ r, scmi_voltd_describe_levels cfg p s msg = .ok r ∧ r.status = SCMI_SUCCESS
      ∧ r.plat = s
      ∧ emitted_count r = min ((msg.out_size - sizeof_describe_levels_p2a) / LEVEL_DESC_SIZE)
          (catalog.length - rd_u32 msg.in_buf 4)
      ∧ payload r = ((catalog.drop (rd_u32 msg.in_buf 4)).take (emitted_count r)).map to_int32
      ∧ r.flags = LEVELS_BY_ARRAY (emitted_count r) (catalog.length - rd_u32 msg.in_buf 4) := by
  have hsz : ¬ (msg.in_size ≠ sizeof_describe_levels_a2p) := by simp [hlen]
  have hdom' : ¬ (rd_u32 msg.in_buf 0 ≥ p.plat_scmi_voltd_count s msg.channel_id) := by omega
  have hout : ¬ (msg.out_size < sizeof_describe_levels_p2a) := by omega
  have hc := confine_in_range _ _ hdom (rd_u32_lt msg.in_buf 0)
  have hprobe := hL.probe_status
  have hnb := hL.probe_nb
  have hsmall : ¬ (msg.out_size - sizeof_describe_levels_p2a < LEVEL_DESC_SIZE
      ∧ catalog.length ≠ 0) := by omega
  have hfuel : (msg.out_size - sizeof_describe_levels_p2a) / 4
      ≤ (msg.out_size - sizeof_describe_levels_p2a) / LEVEL_DESC_SIZE := by
    simp only [LEVEL_DESC_SIZE]; omega
  obtain ⟨r1, heq, hfr, hcont⟩ := levels_loop_list p s msg.channel_id (rd_u32 msg.in_buf 0)
    catalog hL hN ((msg.out_size - sizeof_describe_levels_p2a) / LEVEL_DESC_SIZE)
    (msg.out_size - sizeof_describe_levels_p2a) (rd_u32 msg.in_buf 4)
    (sizeof_describe_levels_p2a / 4)
    ((((Run.init msg s).call (.count msg.channel_id)).call
      (.count msg.channel_id)).call (.levels_array msg.channel_id (rd_u32 msg.in_buf 0) 0
        true 0)) rfl hfuel hidx
  obtain ⟨r0, hr0, hplat, _⟩ := describe_levels_paths cfg p s msg
  have hcount : ((((rd_u32 msg.in_buf 4 + min ((msg.out_size - sizeof_describe_levels_p2a) / 4)
      (catalog.length - rd_u32 msg.in_buf 4) : Nat) : Int) - (rd_u32 msg.in_buf 4 : Int))
        % 4294967296).toNat
      = min ((msg.out_size - sizeof_describe_levels_p2a) / 4)
          (catalog.length - rd_u32 msg.in_buf 4) := by
    omega
  have hrem : (((catalog.length : Int) - (rd_u32 msg.in_buf 4 : Int)) % 4294967296).toNat
      = catalog.length - rd_u32 msg.in_buf 4 := by
    omega
  simp only [scmi_voltd_describe_levels, if_neg hsz, if_neg hdom', if_neg hout, hc,
    if_pos hprobe, hnb, if_neg hsmall, heq, hcount, hrem] at hr0 ⊢
  have hem : emitted_count r0 = min ((msg.out_size - sizeof_describe_levels_p2a) / 4)
      (catalog.length - rd_u32 msg.in_buf 4) := by
    cases hr0
    simp only [emitted_count, memcpy_out, Run.store, Run.set_out_size_out, LEVEL_DESC_SIZE]
    omega
  rw [hr0]
  refine ⟨r0, rfl, ?_, hplat, ?_, ?_, ?_⟩
  · cases hr0
    simp [memcpy_out, Run.store, Run.set_out_size_out, Run.status]
  · rw [hem]; simp only [LEVEL_DESC_SIZE]
  · have hpay : payload r0 = (List.range (emitted_count r0)).map
        (fun j => to_int32 (catalog.getD (rd_u32 msg.in_buf 4 + j) 0)) := by
      simp only [payload]
      apply List.map_congr_left
      intro j hj
      rw [List.mem_range, hem] at hj
      have h2 := hcont j (by simpa [LEVEL_DESC_SIZE] using hj)
      cases hr0
      simp only [memcpy_out, Run.store, Run.set_out_size_out, sizeof_describe_levels_p2a] at h2 ⊢
      have e1 : ¬ (8 / 4 + j = 1) := by omega
      have e0 : ¬ (8 / 4 + j = 0) := by omega
      simp only [if_neg e1, if_neg e0]
      exact h2
    rw [hpay]
    exact map_range_getD_eq_take_drop to_int32 catalog _ _ (by rw [hem]; omega)
  · cases hr0
    simp only [hem]
    simp [memcpy_out, Run.store, Run.set_out_size_out, Run.flags, emitted_count, LEVEL_DESC_SIZE]

/-! ## Describe Levels: the round trip -/

/-- The example platform answers list form for its domain 0. -/
theorem demo_list_form : ListForm demo_plat demo_state 0 0 demo_catalog := by
  constructor
  · rfl
  · rfl
  · intro i hi
    have : i < 3 := hi
    interval_cases i <;> rfl
  · intro i hi
    have : i < 3 := hi
    interval_cases i <;> rfl

/-- The fields of a describe-levels request of the example. -/
theorem demo_request_fields (out_size : Nat) (h : 12 ≤ out_size) :
    ∀ i, i ≤ demo_catalog.length →
      (describe_levels_request 0 0 i out_size).channel_id = 0
        ∧ (describe_levels_request 0 0 i out_size).in_size = sizeof_describe_levels_a2p
        ∧ rd_u32 (describe_levels_request 0 0 i out_size).in_buf 0 = 0
        ∧ rd_u32 (describe_levels_request 0 0 i out_size).in_buf 4 = i
        ∧ sizeof_describe_levels_p2a + LEVEL_DESC_SIZE
            ≤ (describe_levels_request 0 0 i out_size).out_size := by
  intro i hi
  have : i ≤ 3 := hi
  refine ⟨rfl, rfl, ?_, ?_, h⟩
  · interval_cases i <;> rfl
  · interval_cases i <;> rfl

/-- Progress of the round trip: from a level index `idx ≤ N` reached after
`k` requests with the first `idx` catalog levels received, the level index
`N` is reached after at most `N - idx` further requests, with the whole
catalog received. -/
theorem walk_reaches_end {σ : Type} (cfg : Config) (p : Plat σ) (s : σ) (ch d : Nat)
    (catalog : List Int) (req : Nat → scmi_msg)
    (hdom : d < p.plat_scmi_voltd_count s ch)
    (hL : ListForm p s ch d catalog)
    (hreq : ∀ i, i ≤ catalog.length →
      (req i).channel_id = ch ∧ (req i).in_size = sizeof_describe_levels_a2p
        ∧ rd_u32 (req i).in_buf 0 = d ∧ rd_u32 (req i).in_buf 4 = i
        ∧ sizeof_describe_levels_p2a + LEVEL_DESC_SIZE ≤ (req i).out_size) :
    ∀ (n idx k : Nat), idx ≤ catalog.length → catalog.length - idx ≤ n →
      walk cfg p s req k = some (idx, (catalog.take idx).map to_int32) →
      ∃ K, K ≤ k + (catalog.length - idx)
        ∧ walk cfg p s req K = some (catalog.length, catalog.map to_int32) := by
  have hN : catalog.length < 4294967296 := by
    have h := (hreq catalog.length (Nat.le_refl _)).2.2.2.1
    have := rd_u32_lt (req catalog.length).in_buf 4
    omega
  intro n
  induction n with
  | zero =>
    intro idx k hidx hn hw
    have : idx = catalog.length := by omega
    subst this
    refine ⟨k, by omega, ?_⟩
    rw [hw, List.take_length]
  | succ n ih =>
    intro idx k hidx hn hw
    by_cases hend : idx = catalog.length
    · subst hend
      refine ⟨k, by omega, ?_⟩
      rw [hw, List.take_length]
    · obtain ⟨hch, hsz, hd, hi, hcap⟩ := hreq idx hidx
      have hL2 : ListForm p s (req idx).channel_id (rd_u32 (req idx).in_buf 0) catalog := by
        rw [hch, hd]; exact hL
      obtain ⟨r, hr, hst, _, hem, hpay, _⟩ := describe_levels_list_page cfg p s (req idx) catalog
        hsz (by rw [hch, hd]; exact hdom) hL2 (by rw [hi]; exact hidx) hN hcap
      rw [hi] at hem hpay
      have hpos : 0 < emitted_count r := by
        rw [hem]
        simp only [sizeof_describe_levels_p2a, LEVEL_DESC_SIZE] at hcap ⊢
        omega
      have hle : idx + emitted_count r ≤ catalog.length := by
        rw [hem]; omega
      have hnext : walk cfg p s req (k + 1)
          = some (idx + emitted_count r, (catalog.take (idx + emitted_count r)).map to_int32) := by
        simp only [walk, hw, walk_step, hr, hst, if_true, hpay]
        rw [List.take_add, List.map_append]
      obtain ⟨K, hK, hwK⟩ := ih (idx + emitted_count r) (k + 1) hle (by omega) hnext
      exact ⟨K, by omega, hwK⟩

/-- Conversion to `int32_t` keeps a level that is representable. -/
theorem to_int32_of_range (v : Int) (h : -2147483648 ≤ v ∧ v < 2147483648) : to_int32 v = v := by
  simp only [to_int32]; omega

/-- C3: Describe-Levels pagination round trip.  For a valid domain `d` whose
platform answers list form with a catalog of `N` levels and never fails,
and requests `req i` for that domain at level index `i` whose output
capacity holds the header and at least one level descriptor, the sequence
of requests starting at level index 0 and advancing by the emitted count
reaches level index `N` after at most `N` requests, and the concatenation
of the payloads received is the catalog, every level once and in catalog
order, as the `int32_t` descriptors of the wire format: the catalog itself
when its levels are representable in 32 bits. -/
theorem describe_levels_round_trip {σ : Type} (cfg : Config) (p : Plat σ) (s : σ) (ch d : Nat)
    (catalog : List Int) (req : Nat → scmi_msg)
    (hdom : d < p.plat_scmi_voltd_count s ch)
    (hL : ListForm p s ch d catalog)
    (hreq : ∀ i, i ≤ catalog.length →
      (req i).channel_id = ch ∧ (req i).in_size = sizeof_describe_levels_a2p
        ∧ rd_u32 (req i).in_buf 0 = d ∧ rd_u32 (req i).in_buf 4 = i
        ∧ sizeof_describe_levels_p2a + LEVEL_DESC_SIZE ≤ (req i).out_size) :
    ∃ K, K ≤ catalog.length
      ∧ walk cfg p s req K = some (catalog.length, catalog.map to_int32)
      ∧ ((∀ v ∈ catalog, -2147483648 ≤ v ∧ v < 2147483648) →
          walk cfg p s req K = some (catalog.length, catalog)) := by
  obtain ⟨K, hK, hw⟩ := walk_reaches_end cfg p s ch d catalog req hdom hL hreq catalog.length 0 0
    (Nat.zero_le _) (by omega) rfl
  refine ⟨K, by omega, hw, fun hr => ?_⟩
  rw [hw]
  have : catalog.map to_int32 = catalog := by
    conv_rhs => rw [← List.map_id catalog]
    apply List.map_congr_left
    intro v hv
    exact to_int32_of_range v (hr v hv)
  rw [this]

/-- C3 (witness): the catalog 800000, 850000, 900000 of domain 0 of the
example platform, read one level per request. -/
theorem describe_levels_round_trip_witness :
    ∃ K, K ≤ demo_catalog.length
      ∧ walk cfg_loose demo_plat demo_state (fun i => describe_levels_request 0 0 i 12) K
          = some (demo_catalog.length, demo_catalog.map to_int32)
      ∧ ((∀ v ∈ demo_catalog, -2147483648 ≤ v ∧ v < 2147483648) →
          walk cfg_loose demo_plat demo_state (fun i => describe_levels_request 0 0 i 12) K
            = some (demo_catalog.length, demo_catalog)) :=
  describe_levels_round_trip cfg_loose demo_plat demo_state 0 0 demo_catalog
    (fun i => describe_levels_request 0 0 i 12) (by decide) demo_list_form
    (demo_request_fields 12 (by decide))

/-- C4 (counterexample): reading the catalog 800000, 850000, 900000 one
level per request, the third call, at level index 2, is the final one: its
payload is the last catalog level, and its flags report remaining = 1, not
0. -/
theorem final_page_remaining_not_zero :
    walk cfg_loose demo_plat demo_state (fun i => describe_levels_request 0 0 i 12) 2
        = some (2, [800000, 850000])
      ∧ walk cfg_loose demo_plat demo_state (fun i => describe_levels_request 0 0 i 12) 3
        = some (3, [800000, 850000, 900000])
      ∧ describe_levels_view (scmi_voltd_describe_levels cfg_loose demo_plat demo_state
          (describe_levels_request 0 0 2 12)) = some (SCMI_SUCCESS, [900000], 1, 1) := by
  refine ⟨by decide, by decide, by decide⟩

/-- C4 (amended): on a list-form platform that never fails, with a catalog
of `N` levels, a Describe Levels call of the successive-request sequence at
level index `i ≤ N` reports `(N - i) mod 2^16` as remaining count in its
list-format flags.  The call whose payload contains the last catalog level
so reports the number of levels it emits (at least one), and the remaining
count 0 is reported by the call at level index `N`, which emits no
level. -/
theorem describe_levels_remaining_field {σ : Type} (cfg : Config) (p : Plat σ) (s : σ)
    (msg : scmi_msg) (catalog : List Int)
    (hlen : msg.in_size = sizeof_describe_levels_a2p)
    (hdom : rd_u32 msg.in_buf 0 < p.plat_scmi_voltd_count s msg.channel_id)
    (hL : ListForm p s msg.channel_id (rd_u32 msg.in_buf 0) catalog)
    (hidx : rd_u32 msg.in_buf 4 ≤ catalog.length)
    (hN : catalog.length < 4294967296)
    (hcap : sizeof_describe_levels_p2a + LEVEL_DESC_SIZE ≤ msg.out_size) :
    ∃ r, scmi_voltd_describe_levels cfg p s msg = .ok r ∧ r.status = SCMI_SUCCESS
      ∧ flags_format r.flags = SCMI_VOLTD_LEVELS_FORMAT_LIST
      ∧ flags_remaining r.flags = (catalog.length - rd_u32 msg.in_buf 4) % 65536
      ∧ (rd_u32 msg.in_buf 4 < catalog.length →
          rd_u32 msg.in_buf 4 + emitted_count r = catalog.length →
          0 < emitted_count r ∧ flags_remaining r.flags = emitted_count r % 65536)
      ∧ (rd_u32 msg.in_buf 4 = catalog.length →
          emitted_count r = 0 ∧ flags_remaining r.flags = 0) := by
  obtain ⟨r, hr, hst, _, hem, _, hfl⟩ :=
    describe_levels_list_page cfg p s msg catalog hlen hdom hL hidx hN hcap
  have hf := levels_by_array_fields (emitted_count r) (catalog.length - rd_u32 msg.in_buf 4)
  rw [← hfl] at hf
  refine ⟨r, hr, hst, hf.2.1, hf.2.2, ?_, ?_⟩
  · intro hlt hsum
    refine ⟨by omega, ?_⟩
    rw [hf.2.2]
    congr 1
    omega
  · intro heq
    refine ⟨by rw [hem]; omega, ?_⟩
    rw [hf.2.2, heq]
    simp

/-- C4 (witness): the call at level index 2 on the example platform. -/
theorem describe_levels_remaining_field_witness :
    ∃ r, scmi_voltd_describe_levels cfg_loose demo_plat demo_state
        (describe_levels_request 0 0 2 12) = .ok r ∧ r.status = SCMI_SUCCESS
      ∧ flags_format r.flags = SCMI_VOLTD_LEVELS_FORMAT_LIST
      ∧ flags_remaining r.flags = (demo_catalog.length - 2) % 65536
      ∧ (2 < demo_catalog.length → 2 + emitted_count r = demo_catalog.length →
          0 < emitted_count r ∧ flags_remaining r.flags = emitted_count r % 65536)
      ∧ (2 = demo_catalog.length → emitted_count r = 0 ∧ flags_remaining r.flags = 0) :=
  describe_levels_remaining_field cfg_loose demo_plat demo_state
    (describe_levels_request 0 0 2 12) demo_catalog rfl (by decide) demo_list_form (by decide)
    (by decide) (by decide)

/-- C5 (witness): the page at level index 1 of the example platform, with
room for the header and one level. -/
theorem describe_levels_within_capacity_witness :
    ∃ r, scmi_voltd_describe_levels cfg_loose demo_plat demo_state
        (describe_levels_request 0 0 1 12) = .ok r ∧ r.status = SCMI_SUCCESS
      ∧ r.msg.out_size_out = sizeof_describe_levels_p2a + LEVEL_DESC_SIZE * emitted_count r
      ∧ r.msg.out_size_out ≤ 12
      ∧ (∀ i ∈ r.stores, 4 * i + 4 ≤ 12)
      ∧ (∃ k, r.stores = List.range' 2 k ++ [0, 1] ∧ emitted_count r = k % 4294967296
          ∧ sizeof_describe_levels_p2a + LEVEL_DESC_SIZE * k ≤ 12) := by
  obtain ⟨r, hr, hst, _⟩ := describe_levels_list_page cfg_loose demo_plat demo_state
    (describe_levels_request 0 0 1 12) demo_catalog rfl (by decide) demo_list_form (by decide)
    (by decide) (by decide)
  exact ⟨r, hr, hst, describe_levels_within_capacity cfg_loose demo_plat demo_state
    (describe_levels_request 0 0 1 12) r hr hst⟩

/-- C10 (witness): two pages of domain 0 of the example platform, at
different level indices and output capacities, are both list format. -/
theorem describe_levels_format_exclusive_witness :
    ∃ r1 r2, scmi_voltd_describe_levels cfg_loose demo_plat demo_state
        (describe_levels_request 0 0 0 12) = .ok r1
      ∧ scmi_voltd_describe_levels cfg_strict demo_plat demo_state
        (describe_levels_request 0 0 1 16) = .ok r2
      ∧ r1.status = SCMI_SUCCESS ∧ r2.status = SCMI_SUCCESS
      ∧ flags_format r1.flags = flags_format r2.flags
      ∧ r2.plat = demo_state
      ∧ (flags_format r1.flags = SCMI_VOLTD_LEVELS_FORMAT_LIST ↔
          (demo_plat.plat_scmi_voltd_levels_array demo_state 0 0 0 true 0).status = SCMI_SUCCESS)
      ∧ (flags_format r1.flags = SCMI_VOLTD_LEVELS_FORMAT_RANGE ↔
          (demo_plat.plat_scmi_voltd_levels_array demo_state 0 0 0 true 0).status
            = SCMI_NOT_SUPPORTED) := by
  obtain ⟨r1, hr1, hs1, _⟩ := describe_levels_list_page cfg_loose demo_plat demo_state
    (describe_levels_request 0 0 0 12) demo_catalog rfl (by decide) demo_list_form (by decide)
    (by decide) (by decide)
  obtain ⟨r2, hr2, hs2, _⟩ := describe_levels_list_page cfg_strict demo_plat demo_state
    (describe_levels_request 0 0 1 16) demo_catalog rfl (by decide) demo_list_form (by decide)
    (by decide) (by decide)
  exact ⟨r1, r2, hr1, hr2, hs1, hs2, describe_levels_format_exclusive cfg_loose cfg_strict
    demo_plat demo_state (describe_levels_request 0 0 0 12) (describe_levels_request 0 0 1 16)
    r1 r2 rfl rfl hr1 hr2 hs1 hs2⟩

/-! ## Describe Levels: output buffer too small -/

/-- C11 (failing input): a correctly sized Describe Levels request for the
in-range domain 0 of the example platform, with an output capacity of four
bytes, smaller than the response header, gets Invalid Parameters and not
Protocol Error. -/
theorem describe_levels_small_header_invalid_parameters :
    (describe_levels_request 0 0 0 4).in_size = sizeof_describe_levels_a2p
      ∧ rd_u32 (describe_levels_request 0 0 0 4).in_buf 0
          < demo_plat.plat_scmi_voltd_count demo_state 0
      ∧ (describe_levels_request 0 0 0 4).out_size < sizeof_describe_levels_p2a
      ∧ response_of (scmi_voltd_describe_levels cfg_loose demo_plat demo_state
          (describe_levels_request 0 0 0 4)) = some (SCMI_INVALID_PARAMETERS, 4)
      ∧ SCMI_INVALID_PARAMETERS ≠ SCMI_PROTOCOL_ERROR := by
  refine ⟨rfl, by decide, by decide, by decide, by decide⟩

/-- The three rejections of Describe Levels for an output buffer too small,
for a correctly sized request with an in-range domain id: a capacity below
the response header gets Invalid Parameters; a list-form domain with a
non-empty catalog and no room for one level descriptor, and a range-form
domain with room for fewer than three level descriptors, get Protocol
Error. -/
theorem describe_levels_small_buffer {σ : Type} (cfg : Config) (p : Plat σ) (s : σ)
    (msg : scmi_msg) (hlen : msg.in_size = sizeof_describe_levels_a2p)
    (hdom : rd_u32 msg.in_buf 0 < p.plat_scmi_voltd_count s msg.channel_id) :
    ∃ r, scmi_voltd_describe_levels cfg p s msg = .ok r
      ∧ (msg.out_size < sizeof_describe_levels_p2a →
          r.status_only SCMI_INVALID_PARAMETERS)
      ∧ (sizeof_describe_levels_p2a ≤ msg.out_size →
          (p.plat_scmi_voltd_levels_array s msg.channel_id (rd_u32 msg.in_buf 0) 0 true
            0).status = SCMI_SUCCESS →
          (p.plat_scmi_voltd_levels_array s msg.channel_id (rd_u32 msg.in_buf 0) 0 true
            0).nb_elts ≠ 0 →
          msg.out_size < sizeof_describe_levels_p2a + LEVEL_DESC_SIZE →
          r.status_only SCMI_PROTOCOL_ERROR)
      ∧ (sizeof_describe_levels_p2a ≤ msg.out_size →
          (p.plat_scmi_voltd_levels_array s msg.channel_id (rd_u32 msg.in_buf 0) 0 true
            0).status = SCMI_NOT_SUPPORTED →
          msg.out_size < sizeof_describe_levels_p2a + 3 * LEVEL_DESC_SIZE →
          r.status_only SCMI_PROTOCOL_ERROR) := by
  obtain ⟨r, hr, _, _⟩ := describe_levels_paths cfg p s msg
  have hsz : ¬ (msg.in_size ≠ sizeof_describe_levels_a2p) := by simp [hlen]
  have hdom' : ¬ (rd_u32 msg.in_buf 0 ≥ p.plat_scmi_voltd_count s msg.channel_id) := by omega
  have hc := confine_in_range _ _ hdom (rd_u32_lt msg.in_buf 0)
  have hne : (SCMI_NOT_SUPPORTED : Int) ≠ SCMI_SUCCESS := by decide
  refine ⟨r, hr, ?_, ?_, ?_⟩
  · intro hout
    simp only [scmi_voltd_describe_levels, if_neg hsz, if_neg hdom', if_pos hout] at hr
    cases hr
    exact ⟨rfl, rfl, rfl⟩
  · intro hout hprobe hnb hsmall
    have hout' : ¬ (msg.out_size < sizeof_describe_levels_p2a) := by omega
    have hs : msg.out_size - sizeof_describe_levels_p2a < LEVEL_DESC_SIZE
        ∧ (p.plat_scmi_voltd_levels_array s msg.channel_id (rd_u32 msg.in_buf 0) 0 true
            0).nb_elts ≠ 0 := ⟨by omega, hnb⟩
    simp only [scmi_voltd_describe_levels, if_neg hsz, if_neg hdom', if_neg hout', hc,
      if_pos hprobe, if_pos hs] at hr
    cases hr
    exact ⟨rfl, rfl, rfl⟩
  · intro hout hns hsmall
    have hout' : ¬ (msg.out_size < sizeof_describe_levels_p2a) := by omega
    have hprobe : ¬ ((p.plat_scmi_voltd_levels_array s msg.channel_id (rd_u32 msg.in_buf 0) 0
        true 0).status = SCMI_SUCCESS) := by rw [hns]; exact hne
    simp only [scmi_voltd_describe_levels, if_neg hsz, if_neg hdom', if_neg hout', hc,
      if_neg hprobe, if_pos hns, if_pos hsmall] at hr
    cases hr
    exact ⟨rfl, rfl, rfl⟩

/-! ## Describe Levels: range form -/

/-- C12: Describe Levels range form.  For a correctly sized request with an
in-range domain id, whatever its level index, when the list-form probe of
the platform returns Not Supported and the range query succeeds with
`(lo, hi, step)`, and the output capacity holds the header and three level
descriptors, the response is a success whose payload is `lo`, `hi`, `step`
in that order (as `int32_t` descriptors: the values themselves when they are
representable in 32 bits), whose flags encode range format with a count of
3 and a remaining count of 0, and whose recorded length is the header size
plus 12. -/
theorem describe_levels_range_form {σ : Type} (cfg : Config) (p : Plat σ) (s : σ)
    (msg : scmi_msg) (lo hi step : Int)
    (hlen : msg.in_size = sizeof_describe_levels_a2p)
    (hdom : rd_u32 msg.in_buf 0 < p.plat_scmi_voltd_count s msg.channel_id)
    (hprobe : (p.plat_scmi_voltd_levels_array s msg.channel_id (rd_u32 msg.in_buf 0) 0 true
      0).status = SCMI_NOT_SUPPORTED)
    (hrange : p.plat_scmi_voltd_levels_by_step s msg.channel_id (rd_u32 msg.in_buf 0)
      = (SCMI_SUCCESS, [lo, hi, step]))
    (hcap : sizeof_describe_levels_p2a + 3 * LEVEL_DESC_SIZE ≤ msg.out_size) :
    ∃ r, scmi_voltd_describe_levels cfg p s msg = .ok r ∧ r.status = SCMI_SUCCESS
      ∧ r.plat = s
      ∧ payload r = [to_int32 lo, to_int32 hi, to_int32 step]
      ∧ ((∀ v ∈ [lo, hi, step], -2147483648 ≤ v ∧ v < 2147483648) → payload r = [lo, hi, step])
      ∧ flags_format r.flags = SCMI_VOLTD_LEVELS_FORMAT_RANGE
      ∧ flags_count r.flags = 3
      ∧ flags_remaining r.flags = 0
      ∧ r.msg.out_size_out = sizeof_describe_levels_p2a + 12 := by
  have hsz : ¬ (msg.in_size ≠ sizeof_describe_levels_a2p) := by simp [hlen]
  have hdom' : ¬ (rd_u32 msg.in_buf 0 ≥ p.plat_scmi_voltd_count s msg.channel_id) := by omega
  have hout : ¬ (msg.out_size < sizeof_describe_levels_p2a) := by omega
  have hc := confine_in_range _ _ hdom (rd_u32_lt msg.in_buf 0)
  have hnp : ¬ ((p.plat_scmi_voltd_levels_array s msg.channel_id (rd_u32 msg.in_buf 0) 0
      true 0).status = SCMI_SUCCESS) := by rw [hprobe]; decide
  have hsmall : ¬ (msg.out_size < sizeof_describe_levels_p2a + 3 * LEVEL_DESC_SIZE) := by omega
  have hst : ¬ ((SCMI_SUCCESS, [lo, hi, step]).1 ≠ (0 : Int)) := fun h => h rfl
  simp only [scmi_voltd_describe_levels, if_neg hsz, if_neg hdom', if_neg hout, hc,
    if_neg hnp, if_pos hprobe, if_neg hsmall, hrange, if_neg hst]
  have hpay : ∀ r : Run σ, r.msg.out_size_out = 20 → r.msg.out 2 = to_int32 lo →
      r.msg.out 3 = to_int32 hi → r.msg.out 4 = to_int32 step →
      payload r = [to_int32 lo, to_int32 hi, to_int32 step] := by
    intro r h0 h2 h3 h4
    have he : emitted_count r = 3 := by
      simp only [emitted_count, h0, sizeof_describe_levels_p2a, LEVEL_DESC_SIZE]
    simp only [payload, he, sizeof_describe_levels_p2a]
    simp [List.range_succ, h2, h3, h4]
  refine ⟨_, rfl, rfl, rfl, hpay _ rfl rfl rfl rfl, ?_, levels_by_step_fields.2.1,
    levels_by_step_fields.1, levels_by_step_fields.2.2, rfl⟩
  intro hr
  rw [hpay _ rfl rfl rfl rfl, to_int32_of_range lo (hr lo (by simp)),
    to_int32_of_range hi (hr hi (by simp)), to_int32_of_range step (hr step (by simp))]

/-- C12 (witness): a range-form domain from 0.5 V to 1.2 V in steps of
25 mV, queried with level index 7. -/
theorem describe_levels_range_form_witness :
    ∃ r, scmi_voltd_describe_levels cfg_loose (range_plat 500000 1200000 25000) ()
        (describe_levels_request 0 0 7 20) = .ok r ∧ r.status = SCMI_SUCCESS
      ∧ r.plat = ()
      ∧ payload r = [to_int32 500000, to_int32 1200000, to_int32 25000]
      ∧ ((∀ v ∈ [(500000 : Int), 1200000, 25000], -2147483648 ≤ v ∧ v < 2147483648) →
          payload r = [500000, 1200000, 25000])
      ∧ flags_format r.flags = SCMI_VOLTD_LEVELS_FORMAT_RANGE
      ∧ flags_count r.flags = 3
      ∧ flags_remaining r.flags = 0
      ∧ r.msg.out_size_out = sizeof_describe_levels_p2a + 12 :=
  describe_levels_range_form cfg_loose (range_plat 500000 1200000 25000) ()
    (describe_levels_request 0 0 7 20) 500000 1200000 25000 rfl (by decide) rfl rfl (by decide)

/-! ## Config Get, Level Set, Level Get -/

/-- C14: a correctly sized Config Get request with an in-range domain id
calls the platform get-config hook once (after the two domain count
queries).  If the hook reports any non-success status, whatever it is, the
response is the status-only response Invalid Parameters; otherwise, given
room for the two response words, the response is a success whose config
field is the value the platform stored. -/
theorem config_get_response {σ : Type} (cfg : Config) (p : Plat σ) (s : σ) (msg : scmi_msg)
    (hlen : msg.in_size = sizeof_config_get_a2p)
    (hdom : rd_u32 msg.in_buf 0 < p.plat_scmi_voltd_count s msg.channel_id) :
    ∃ r, scmi_voltd_config_get cfg p s msg = .ok r
      ∧ r.calls = [.count msg.channel_id, .count msg.channel_id,
          .get_config msg.channel_id (rd_u32 msg.in_buf 0)]
      ∧ r.plat = s
      ∧ ((p.plat_scmi_voltd_get_config s msg.channel_id (rd_u32 msg.in_buf 0)).1 ≠ SCMI_SUCCESS →
          r.status_only SCMI_INVALID_PARAMETERS)
      ∧ ((p.plat_scmi_voltd_get_config s msg.channel_id (rd_u32 msg.in_buf 0)).1 = SCMI_SUCCESS →
          8 ≤ msg.out_size →
          r.status = SCMI_SUCCESS ∧ r.msg.out_size_out = 8
            ∧ r.msg.out 1 = (((p.plat_scmi_voltd_get_config s msg.channel_id
                (rd_u32 msg.in_buf 0)).2.getD 0 % 4294967296 : Nat) : Int)
            ∧ ∀ v, (p.plat_scmi_voltd_get_config s msg.channel_id (rd_u32 msg.in_buf 0)).2
                = some v → v < 4294967296 → r.msg.out 1 = (v : Int)) := by
  have hsize : ¬ (msg.in_size ≠ sizeof_config_get_a2p) := by simp [hlen]
  have hnot : ¬ (rd_u32 msg.in_buf 0 ≥ p.plat_scmi_voltd_count s msg.channel_id) := by omega
  have hc := confine_in_range _ _ hdom (rd_u32_lt msg.in_buf 0)
  simp only [scmi_voltd_config_get, if_neg hsize, if_neg hnot, hc]
  by_cases hst : (p.plat_scmi_voltd_get_config s msg.channel_id (rd_u32 msg.in_buf 0)).1 ≠ 0
  · simp only [if_pos hst]
    exact ⟨_, rfl, rfl, rfl, fun _ => ⟨rfl, rfl, rfl⟩, fun h => absurd h hst⟩
  · simp only [if_neg hst]
    refine ⟨_, rfl, ?_, ?_, fun h => absurd h hst, fun _ hout => ?_⟩
    · simp only [scmi_write_response]; split <;> rfl
    · simp only [scmi_write_response]; split <;> rfl
    · have hno : ¬ (msg.out_size < 8) := by omega
      have hw : ∀ (q : Run σ) (w : Int), q.msg.out_size = msg.out_size →
          scmi_write_response q [0, w]
            = (memcpy_out q 0 [0, w]).set_out_size_out 8 := by
        intro q w hq
        simp only [scmi_write_response, hq, List.length_cons, List.length_nil]
        rw [if_neg (by omega)]
      rw [hw _ _ rfl]
      refine ⟨rfl, rfl, rfl, ?_⟩
      intro v hv hlt
      show (((((p.plat_scmi_voltd_get_config s msg.channel_id (rd_u32 msg.in_buf 0)).2.getD 0
        % 4294967296 : Nat) : Int)) = (v : Int))
      rw [hv, Option.getD_some, Nat.mod_eq_of_lt hlt]

/-- C14 (witness): Config Get on domain 1 of the example platform. -/
theorem config_get_response_witness :
    ∃ r, scmi_voltd_config_get cfg_loose demo_plat demo_state
        (request 0 SCMI_VOLTAGE_CONFIG_GET (le32 1) 8) = .ok r
      ∧ r.calls = [.count 0, .count 0, .get_config 0 1]
      ∧ r.plat = demo_state
      ∧ ((demo_plat.plat_scmi_voltd_get_config demo_state 0 1).1 ≠ SCMI_SUCCESS →
          r.status_only SCMI_INVALID_PARAMETERS)
      ∧ ((demo_plat.plat_scmi_voltd_get_config demo_state 0 1).1 = SCMI_SUCCESS →
          8 ≤ 8 →
          r.status = SCMI_SUCCESS ∧ r.msg.out_size_out = 8
            ∧ r.msg.out 1 = (((demo_plat.plat_scmi_voltd_get_config demo_state 0 1).2.getD 0
                % 4294967296 : Nat) : Int)
            ∧ ∀ v, (demo_plat.plat_scmi_voltd_get_config demo_state 0 1).2 = some v →
                v < 4294967296 → r.msg.out 1 = (v : Int)) :=
  config_get_response cfg_loose demo_plat demo_state
    (request 0 SCMI_VOLTAGE_CONFIG_GET (le32 1) 8) rfl (by decide)

/-- C15: a correctly sized Level Set request with an in-range domain id `d`
and requested level `v` (the signed 32-bit field of the request) calls the
platform set-level hook exactly once, with the channel, `d` and `v`
unchanged (after the two domain count queries), answers the status-only
response carrying the status the platform returned, and leaves the platform
in the state that call returned. -/
theorem level_set_forwards {σ : Type} (cfg : Config) (p : Plat σ) (s : σ) (msg : scmi_msg)
    (hlen : msg.in_size = sizeof_level_set_a2p)
    (hdom : rd_u32 msg.in_buf 0 < p.plat_scmi_voltd_count s msg.channel_id) :
    ∃ r, scmi_voltd_level_set cfg p s msg = .ok r
      ∧ r.calls = [.count msg.channel_id, .count msg.channel_id,
          .set_level msg.channel_id (rd_u32 msg.in_buf 0) (rd_s32 msg.in_buf 8)]
      ∧ r.status_only (p.plat_scmi_voltd_set_level s msg.channel_id (rd_u32 msg.in_buf 0)
          (rd_s32 msg.in_buf 8)).1
      ∧ r.plat = (p.plat_scmi_voltd_set_level s msg.channel_id (rd_u32 msg.in_buf 0)
          (rd_s32 msg.in_buf 8)).2
      ∧ (-2147483648 ≤ rd_s32 msg.in_buf 8 ∧ rd_s32 msg.in_buf 8 < 2147483648) := by
  have hsize : ¬ (msg.in_size ≠ sizeof_level_set_a2p) := by simp [hlen]
  have hnot : ¬ (rd_u32 msg.in_buf 0 ≥ p.plat_scmi_voltd_count s msg.channel_id) := by omega
  have hc := confine_in_range _ _ hdom (rd_u32_lt msg.in_buf 0)
  simp only [scmi_voltd_level_set, if_neg hsize, if_neg hnot, hc]
  refine ⟨_, rfl, rfl, ⟨rfl, rfl, rfl⟩, rfl, ?_⟩
  simp only [rd_s32, to_int32]
  omega

/-- C15 (witness): Level Set of 850000 microvolts on domain 0 of the example
platform. -/
theorem level_set_forwards_witness :
    ∃ r, scmi_voltd_level_set cfg_loose demo_plat demo_state
        (request 0 SCMI_VOLTAGE_LEVEL_SET (le32 0 ++ le32 0 ++ le32 850000) 4) = .ok r
      ∧ r.calls = [.count 0, .count 0, .set_level 0 0 850000]
      ∧ r.status_only SCMI_SUCCESS
      ∧ r.plat = { demo_state with level := [850000, 1100000] }
      ∧ (-2147483648 ≤ rd_s32 (le32 0 ++ le32 0 ++ le32 850000) 8
          ∧ rd_s32 (le32 0 ++ le32 0 ++ le32 850000) 8 < 2147483648) :=
  level_set_forwards cfg_loose demo_plat demo_state
    (request 0 SCMI_VOLTAGE_LEVEL_SET (le32 0 ++ le32 0 ++ le32 850000) 4) rfl (by decide)

/-- C16 (counterexample): on a platform whose get-level hook returns
4294967301 microvolts (a `long` of a 64-bit build), the response of Level Get
is a success whose voltage level field is 5. -/
theorem level_get_truncates_wide_level :
    (request 0 SCMI_VOLTAGE_LEVEL_GET (le32 0) 8).in_size = sizeof_level_get_a2p
      ∧ rd_u32 (request 0 SCMI_VOLTAGE_LEVEL_GET (le32 0) 8).in_buf 0
          < (fixed_level_plat 4294967301).plat_scmi_voltd_count () 0
      ∧ (fixed_level_plat 4294967301).plat_scmi_voltd_get_level () 0 0 = 4294967301
      ∧ word_response_of (scmi_voltd_level_get cfg_loose (fixed_level_plat 4294967301) ()
          (request 0 SCMI_VOLTAGE_LEVEL_GET (le32 0) 8)) = some (SCMI_SUCCESS, 5, 8) := by
  refine ⟨rfl, by decide, rfl, by decide⟩

/-- C16 (amended): a correctly sized Level Get request with an in-range
domain id, given room for the two response words, calls the platform
get-level hook once and answers a success whose voltage level field is the
level the platform returned converted to `int32_t`: the level itself for
every level representable in 32 bits. -/
theorem level_get_response {σ : Type} (cfg : Config) (p : Plat σ) (s : σ) (msg : scmi_msg)
    (hlen : msg.in_size = sizeof_level_get_a2p)
    (hdom : rd_u32 msg.in_buf 0 < p.plat_scmi_voltd_count s msg.channel_id)
    (hout : 8 ≤ msg.out_size) :
    ∃ r, scmi_voltd_level_get cfg p s msg = .ok r
      ∧ r.calls = [.count msg.channel_id, .count msg.channel_id,
          .get_level msg.channel_id (rd_u32 msg.in_buf 0)]
      ∧ r.plat = s ∧ r.status = SCMI_SUCCESS ∧ r.msg.out_size_out = 8
      ∧ r.msg.out 1
          = to_int32 (p.plat_scmi_voltd_get_level s msg.channel_id (rd_u32 msg.in_buf 0))
      ∧ ((-2147483648 ≤ p.plat_scmi_voltd_get_level s msg.channel_id (rd_u32 msg.in_buf 0)
            ∧ p.plat_scmi_voltd_get_level s msg.channel_id (rd_u32 msg.in_buf 0) < 2147483648) →
          r.msg.out 1 = p.plat_scmi_voltd_get_level s msg.channel_id (rd_u32 msg.in_buf 0)) := by
  have hsize : ¬ (msg.in_size ≠ sizeof_level_get_a2p) := by simp [hlen]
  have hnot : ¬ (rd_u32 msg.in_buf 0 ≥ p.plat_scmi_voltd_count s msg.channel_id) := by omega
  have hc := confine_in_range _ _ hdom (rd_u32_lt msg.in_buf 0)
  have hw : ∀ (q : Run σ) (w : Int), q.msg.out_size = msg.out_size →
      scmi_write_response q [SCMI_SUCCESS, w]
        = (memcpy_out q 0 [SCMI_SUCCESS, w]).set_out_size_out 8 := by
    intro q w hq
    simp only [scmi_write_response, hq, List.length_cons, List.length_nil]
    rw [if_neg (by omega)]
  simp only [scmi_voltd_level_get, if_neg hsize, if_neg hnot, hc]
  rw [hw _ _ rfl]
  refine ⟨_, rfl, rfl, rfl, rfl, rfl, rfl, fun h => ?_⟩
  show to_int32 _ = _
  exact to_int32_of_range _ h

/-- C16 (witness): Level Get on domain 1 of the example platform, at 1.1 V. -/
theorem level_get_response_witness :
    ∃ r, scmi_voltd_level_get cfg_loose demo_plat demo_state
        (request 0 SCMI_VOLTAGE_LEVEL_GET (le32 1) 8) = .ok r
      ∧ r.calls = [.count 0, .count 0, .get_level 0 1]
      ∧ r.plat = demo_state ∧ r.status = SCMI_SUCCESS ∧ r.msg.out_size_out = 8
      ∧ r.msg.out 1 = to_int32 1100000
      ∧ ((-2147483648 ≤ (1100000 : Int) ∧ (1100000 : Int) < 2147483648) →
          r.msg.out 1 = 1100000) :=
  level_get_response cfg_loose demo_plat demo_state
    (request 0 SCMI_VOLTAGE_LEVEL_GET (le32 1) 8) rfl (by decide) (by decide)

/-! ## Describe Levels: a list page and its remaining count -/

/-- C17: Describe-Levels list page.  On a list-form platform that never
fails, with a catalog of `N` levels, a correctly sized request for an
in-range domain at `level_index ≤ N`, with an output capacity of the header
plus `k ≥ 1` level descriptors plus a slack below one descriptor, gets a
success in list format with `emitted_count = min k (N - level_index)`, the
payload being the catalog entries at the positions from `level_index` on,
in order (as `int32_t` descriptors: the entries themselves when the catalog
levels are representable in 32 bits), and the recorded length being the
header size plus four bytes per emitted level. -/
theorem describe_levels_list_page_contract {σ : Type} (cfg : Config) (p : Plat σ) (s : σ)
    (msg : scmi_msg) (catalog : List Int) (k slack : Nat)
    (hlen : msg.in_size = sizeof_describe_levels_a2p)
    (hdom : rd_u32 msg.in_buf 0 < p.plat_scmi_voltd_count s msg.channel_id)
    (hL : ListForm p s msg.channel_id (rd_u32 msg.in_buf 0) catalog)
    (hidx : rd_u32 msg.in_buf 4 ≤ catalog.length)
    (hN : catalog.length < 4294967296)
    (hk : 1 ≤ k) (hslack : slack < LEVEL_DESC_SIZE)
    (hcap : msg.out_size = sizeof_describe_levels_p2a + LEVEL_DESC_SIZE * k + slack) :
    ∃ r, scmi_voltd_describe_levels cfg p s msg = .ok r ∧ r.status = SCMI_SUCCESS
      ∧ flags_format r.flags = SCMI_VOLTD_LEVELS_FORMAT_LIST
      ∧ emitted_count r = min k (catalog.length - rd_u32 msg.in_buf 4)
      ∧ payload r = ((catalog.drop (rd_u32 msg.in_buf 4)).take (emitted_count r)).map to_int32
      ∧ ((∀ v ∈ catalog, -2147483648 ≤ v ∧ v < 2147483648) →
          payload r = (catalog.drop (rd_u32 msg.in_buf 4)).take (emitted_count r))
      ∧ r.msg.out_size_out = sizeof_describe_levels_p2a + LEVEL_DESC_SIZE * emitted_count r
      ∧ flags_count r.flags = emitted_count r % 4096
      ∧ flags_remaining r.flags = (catalog.length - rd_u32 msg.in_buf 4) % 65536 := by
  have hcap2 : sizeof_describe_levels_p2a + LEVEL_DESC_SIZE ≤ msg.out_size := by
    simp only [sizeof_describe_levels_p2a, LEVEL_DESC_SIZE] at hcap ⊢; omega
  obtain ⟨r, hr, hst, _, hem, hpay, hfl⟩ :=
    describe_levels_list_page cfg p s msg catalog hlen hdom hL hidx hN hcap2
  have hf := levels_by_array_fields (emitted_count r) (catalog.length - rd_u32 msg.in_buf 4)
  rw [← hfl] at hf
  have hkk : (msg.out_size - sizeof_describe_levels_p2a) / LEVEL_DESC_SIZE = k := by
    simp only [sizeof_describe_levels_p2a, LEVEL_DESC_SIZE] at hcap hslack ⊢; omega
  rw [hkk] at hem
  have hlen_out : r.msg.out_size_out
      = sizeof_describe_levels_p2a + LEVEL_DESC_SIZE * emitted_count r := by
    obtain ⟨r0, hr0, _, hpath⟩ := describe_levels_paths cfg p s msg
    rw [hr] at hr0
    cases hr0
    rcases hpath with ⟨hne, _, _⟩ | ⟨_, _, _, _, _, k2, _, _, hl⟩ | ⟨_, _, hns, _⟩
    · exact absurd hst hne
    · have : emitted_count r = k2 % 4294967296 := by
        simp only [emitted_count, hl, sizeof_describe_levels_p2a, LEVEL_DESC_SIZE]; omega
      rw [this, hl]
    · rw [hL.probe_status] at hns
      exact absurd hns (by decide)
  refine ⟨r, hr, hst, hf.2.1, hem, hpay, fun hrng => ?_, hlen_out, hf.1, hf.2.2⟩
  rw [hpay]
  conv_rhs => rw [← List.map_id ((catalog.drop (rd_u32 msg.in_buf 4)).take (emitted_count r))]
  apply List.map_congr_left
  intro v hv
  exact to_int32_of_range v (hrng v (List.mem_of_mem_drop (List.mem_of_mem_take hv)))

/-- C17 (witness): two domains, domain 0 with the catalog 800000, 850000,
900000; the request at level index 1 with room for the header and one
level yields one level, 850000, and the remaining count 2. -/
theorem describe_levels_list_page_contract_witness :
    demo_plat.plat_scmi_voltd_count demo_state 0 = 2
      ∧ describe_levels_view (scmi_voltd_describe_levels cfg_loose demo_plat demo_state
          (describe_levels_request 0 0 1 12)) = some (SCMI_SUCCESS, [850000], 1, 2)
      ∧ ∃ r, scmi_voltd_describe_levels cfg_loose demo_plat demo_state
            (describe_levels_request 0 0 1 12) = .ok r ∧ r.status = SCMI_SUCCESS
          ∧ flags_format r.flags = SCMI_VOLTD_LEVELS_FORMAT_LIST
          ∧ emitted_count r = min 1 (demo_catalog.length - 1)
          ∧ payload r = ((demo_catalog.drop 1).take (emitted_count r)).map to_int32
          ∧ ((∀ v ∈ demo_catalog, -2147483648 ≤ v ∧ v < 2147483648) →
              payload r = (demo_catalog.drop 1).take (emitted_count r))
          ∧ r.msg.out_size_out = sizeof_describe_levels_p2a + LEVEL_DESC_SIZE * emitted_count r
          ∧ flags_count r.flags = emitted_count r % 4096
          ∧ flags_remaining r.flags = (demo_catalog.length - 1) % 65536 :=
  ⟨rfl, by decide,
    describe_levels_list_page_contract cfg_loose demo_plat demo_state
      (describe_levels_request 0 0 1 12) demo_catalog 1 0 rfl (by decide) demo_list_form
      (by decide) (by decide) (by decide) (by decide) rfl⟩

/-- C18 (counterexample): the remaining count of two successful list-form
responses.  On a catalog of 65536 levels the request at level index 0
reports the remaining count 0, not 65536.  On the catalog of three levels of
the example platform the request at level index 5 reports the remaining
count 65534, which is neither 0 nor at most 3. -/
theorem remaining_field_wraps :
    (ramp_plat 65536).plat_scmi_voltd_levels_array () 0 0 0 true 0 = ⟨SCMI_SUCCESS, [], 65536⟩
      ∧ describe_levels_view (scmi_voltd_describe_levels cfg_loose (ramp_plat 65536) ()
          (describe_levels_request 0 0 0 12)) = some (SCMI_SUCCESS, [0], 1, 0)
      ∧ demo_plat.plat_scmi_voltd_levels_array demo_state 0 0 0 true 0 = ⟨SCMI_SUCCESS, [], 3⟩
      ∧ describe_levels_view (scmi_voltd_describe_levels cfg_loose demo_plat demo_state
          (describe_levels_request 0 0 5 12)) = some (SCMI_SUCCESS, [], 0, 65534) := by
  refine ⟨rfl, by decide, rfl, by decide⟩

/-- C18 (amended): for a successful list-form Describe Levels response over
a catalog of `N` levels and a level index `i ≤ N`, the remaining count
packed into the flags is the number of catalog positions at or after `i`
reduced modulo `2^16`: it is `N - i`, between 0 and `N`, whenever `N - i` is
below 65536, and it is 0 for `i = N`. -/
theorem describe_levels_remaining_in_catalog {σ : Type} (cfg : Config) (p : Plat σ) (s : σ)
    (msg : scmi_msg) (catalog : List Int)
    (hlen : msg.in_size = sizeof_describe_levels_a2p)
    (hdom : rd_u32 msg.in_buf 0 < p.plat_scmi_voltd_count s msg.channel_id)
    (hL : ListForm p s msg.channel_id (rd_u32 msg.in_buf 0) catalog)
    (hidx : rd_u32 msg.in_buf 4 ≤ catalog.length)
    (hN : catalog.length < 4294967296)
    (hcap : sizeof_describe_levels_p2a + LEVEL_DESC_SIZE ≤ msg.out_size) :
    ∃ r, scmi_voltd_describe_levels cfg p s msg = .ok r ∧ r.status = SCMI_SUCCESS
      ∧ flags_remaining r.flags = (catalog.drop (rd_u32 msg.in_buf 4)).length % 65536
      ∧ (catalog.length - rd_u32 msg.in_buf 4 < 65536 →
          flags_remaining r.flags = catalog.length - rd_u32 msg.in_buf 4
            ∧ flags_remaining r.flags ≤ catalog.length)
      ∧ (rd_u32 msg.in_buf 4 = catalog.length → flags_remaining r.flags = 0) := by
  obtain ⟨r, hr, hst, _, _, _, hfl⟩ :=
    describe_levels_list_page cfg p s msg catalog hlen hdom hL hidx hN hcap
  have hf := (levels_by_array_fields (emitted_count r)
    (catalog.length - rd_u32 msg.in_buf 4)).2.2
  rw [← hfl] at hf
  refine ⟨r, hr, hst, ?_, ?_, ?_⟩
  · rw [hf, List.length_drop]
  · intro hlt
    rw [hf, Nat.mod_eq_of_lt hlt]
    exact ⟨rfl, by omega⟩
  · intro heq
    rw [hf, heq]
    simp

/-- C18 (witness): the request at level index 1 on the example platform
reports the remaining count 2. -/
theorem describe_levels_remaining_in_catalog_witness :
    ∃ r, scmi_voltd_describe_levels cfg_loose demo_plat demo_state
        (describe_levels_request 0 0 1 12) = .ok r ∧ r.status = SCMI_SUCCESS
      ∧ flags_remaining r.flags = (demo_catalog.drop 1).length % 65536
      ∧ (demo_catalog.length - 1 < 65536 →
          flags_remaining r.flags = demo_catalog.length - 1
            ∧ flags_remaining r.flags ≤ demo_catalog.length)
      ∧ (1 = demo_catalog.length → flags_remaining r.flags = 0) :=
  describe_levels_remaining_in_catalog cfg_loose demo_plat demo_state
    (describe_levels_request 0 0 1 12) demo_catalog rfl (by decide) demo_list_form (by decide)
    (by decide) (by decide)

/-! ## Describe Levels: the trace of the level loop -/

/-- The fetches of the loop, one more. -/
theorem fetch_calls_succ (ch d idx k : Nat) :
    fetch_calls ch d idx (k + 1)
      = fetch_call ch d (idx % 4294967296) :: fetch_calls ch d ((idx + 1) % 4294967296) k := by
  simp only [fetch_calls, List.range_succ_eq_map, List.map_cons, List.map_map, Nat.add_zero]
  congr 1
  apply List.map_congr_left
  intro j _
  simp only [Function.comp, Nat.succ_eq_add_one]
  congr 1
  omega

/-- The trace of the level loop on any platform, given fuel for every
descriptor the output can hold.  The loop makes `k` successful fetches, at
the level indices from `idx` on (modulo `2^32`), and stores the fetched
levels, converted to `int32_t`, in the `k` cells from `out_idx` on, leaving
every other cell as it was; then either its condition fails, or one more
fetch fails and the loop ends with the status of that fetch. -/
theorem levels_loop_trace {σ : Type} (p : Plat σ) (ch d nb : Nat) :
    ∀ (fuel avail idx out_idx : Nat) (r : Run σ), avail / 4 ≤ fuel → idx < 4294967296 →
      ∃ k r1, 4 * k ≤ avail
        ∧ (∀ j, j < k → (p.plat_scmi_voltd_levels_array r.plat ch d
            ((idx + j) % 4294967296) false 1).status = 0)
        ∧ r1.plat = r.plat
        ∧ r1.stores = r.stores ++ List.range' out_idx k
        ∧ (∀ i, i < out_idx ∨ out_idx + k ≤ i → r1.msg.out i = r.msg.out i)
        ∧ (∀ j, j < k → r1.msg.out (out_idx + j)
            = to_int32 ((p.plat_scmi_voltd_levels_array r.plat ch d
                ((idx + j) % 4294967296) false 1).levels.headD 0))
        ∧ ((levels_loop p ch d nb fuel avail idx out_idx r = .done ((idx + k) % 4294967296) r1
              ∧ r1.calls = r.calls ++ fetch_calls ch d idx k)
          ∨ (levels_loop p ch d nb fuel avail idx out_idx r
                = .fail (p.plat_scmi_voltd_levels_array r.plat ch d
                    ((idx + k) % 4294967296) false 1).status r1
              ∧ (p.plat_scmi_voltd_levels_array r.plat ch d
                    ((idx + k) % 4294967296) false 1).status ≠ 0
              ∧ 4 * (k + 1) ≤ avail
              ∧ r1.calls = r.calls ++ fetch_calls ch d idx k
                  ++ [fetch_call ch d ((idx + k) % 4294967296)])) := by
  intro fuel
  induction fuel with
  | zero =>
    intro avail idx out_idx r hf hidx
    have hc : ¬ (LEVEL_DESC_SIZE ≤ avail ∧ idx < nb) := by
      simp only [LEVEL_DESC_SIZE]; omega
    refine ⟨0, r, by omega, fun j hj => by omega, rfl, by simp, fun _ _ => rfl,
      fun j hj => by omega, Or.inl ⟨?_, by simp [fetch_calls]⟩⟩
    simp only [levels_loop, if_neg hc, Nat.add_zero, Nat.mod_eq_of_lt hidx]
  | succ fuel ih =>
    intro avail idx out_idx r hf hidx
    have hmod0 : idx % 4294967296 = idx := Nat.mod_eq_of_lt hidx
    by_cases hc : LEVEL_DESC_SIZE ≤ avail ∧ idx < nb
    · have h4 : 4 ≤ avail := hc.1
      by_cases hst : (p.plat_scmi_voltd_levels_array r.plat ch d idx false 1).status ≠ 0
      · refine ⟨0, r.call (fetch_call ch d idx), by omega, fun j hj => by omega, rfl,
          by simp [Run.call], fun _ _ => rfl, fun j hj => by omega, Or.inr ⟨?_, ?_, by omega, ?_⟩⟩
        · simp only [levels_loop, if_pos hc, if_pos hst, Nat.add_zero, hmod0, fetch_call]
        · simpa only [Nat.add_zero, hmod0] using hst
        · simp [Run.call, fetch_calls, hmod0]
      · have hst0 : (p.plat_scmi_voltd_levels_array r.plat ch d idx false 1).status = 0 := by
          simpa using hst
        have hstep : levels_loop p ch d nb (fuel + 1) avail idx out_idx r
            = levels_loop p ch d nb fuel (avail - LEVEL_DESC_SIZE) ((idx + 1) % 4294967296)
                (out_idx + 1)
                ((r.call (fetch_call ch d idx)).store out_idx
                  (to_int32 ((p.plat_scmi_voltd_levels_array r.plat ch d idx false 1).levels.headD
                    0))) := by
          simp only [levels_loop, if_pos hc, if_neg hst, fetch_call]
        have hf2 : (avail - LEVEL_DESC_SIZE) / 4 ≤ fuel := by
          simp only [LEVEL_DESC_SIZE]; omega
        have hi2 : (idx + 1) % 4294967296 < 4294967296 := by omega
        have hr2s : ((r.call (fetch_call ch d idx)).store out_idx
            (to_int32 ((p.plat_scmi_voltd_levels_array r.plat ch d idx false 1).levels.headD
              0))).stores = r.stores ++ [out_idx] := by
          simp [Run.store, Run.call]
        have hr2c : ((r.call (fetch_call ch d idx)).store out_idx
            (to_int32 ((p.plat_scmi_voltd_levels_array r.plat ch d idx false 1).levels.headD
              0))).calls = r.calls ++ [fetch_call ch d idx] := by
          simp [Run.store, Run.call]
        have hr2f : ∀ i, i ≠ out_idx → ((r.call (fetch_call ch d idx)).store out_idx
            (to_int32 ((p.plat_scmi_voltd_levels_array r.plat ch d idx false 1).levels.headD
              0))).msg.out i = r.msg.out i := by
          intro i hi
          simp [Run.store, Run.call, hi]
        have hr2v : ((r.call (fetch_call ch d idx)).store out_idx
            (to_int32 ((p.plat_scmi_voltd_levels_array r.plat ch d idx false 1).levels.headD
              0))).msg.out out_idx
            = to_int32 ((p.plat_scmi_voltd_levels_array r.plat ch d idx false 1).levels.headD
              0) := by
          simp [Run.store, Run.call]
        have hshift : ∀ j, ((idx + 1) % 4294967296 + j) % 4294967296
            = (idx + (j + 1)) % 4294967296 := by
          intro j; omega
        obtain ⟨k, r1, hk, hsts, hp, hs, hfr, hcont, hres⟩ :=
          ih (avail - LEVEL_DESC_SIZE) ((idx + 1) % 4294967296) (out_idx + 1)
            ((r.call (fetch_call ch d idx)).store out_idx
              (to_int32 ((p.plat_scmi_voltd_levels_array r.plat ch d idx false 1).levels.headD
                0))) hf2 hi2
        have hp2 : ((r.call (fetch_call ch d idx)).store out_idx
            (to_int32 ((p.plat_scmi_voltd_levels_array r.plat ch d idx false 1).levels.headD
              0))).plat = r.plat := rfl
        rw [hp2] at hsts hcont hres
        refine ⟨k + 1, r1, ?_, ?_, hp, ?_, ?_, ?_, ?_⟩
        · simp only [LEVEL_DESC_SIZE] at hk; omega
        · intro j hj
          cases j with
          | zero => simpa only [Nat.add_zero, hmod0] using hst0
          | succ j => rw [← hshift j]; exact hsts j (by omega)
        · rw [hs, hr2s]; simp [List.range'_succ]
        · intro i hi
          rw [hfr i (by omega), hr2f i (by omega)]
        · intro j hj
          cases j with
          | zero =>
            rw [Nat.add_zero, Nat.add_zero, hmod0, hfr out_idx (by omega), hr2v]
          | succ j =>
            rw [← hshift j, show out_idx + (j + 1) = out_idx + 1 + j by omega]
            exact hcont j (by omega)
        · have hk1 : (idx + (k + 1)) % 4294967296
              = ((idx + 1) % 4294967296 + k) % 4294967296 := (hshift k).symm
          rcases hres with ⟨heq, hcalls⟩ | ⟨heq, hne, hk4, hcalls⟩
          · left
            refine ⟨by rw [hstep, heq, hk1], ?_⟩
            rw [hcalls, hr2c, fetch_calls_succ, hmod0]
            simp
          · right
            refine ⟨by rw [hstep, heq, hk1], by rw [hk1]; exact hne, ?_, ?_⟩
            · simp only [LEVEL_DESC_SIZE] at hk4; omega
            · rw [hcalls, hr2c, fetch_calls_succ, hmod0, hk1]
              simp
    · refine ⟨0, r, by omega, fun j hj => by omega, rfl, by simp, fun _ _ => rfl,
        fun j hj => by omega, Or.inl ⟨?_, by simp [fetch_calls]⟩⟩
      simp only [levels_loop, if_neg hc, Nat.add_zero, hmod0]

/-! ## Describe Levels: calls and stores of every path -/

/-- The calls and stores of `scmi_voltd_describe_levels` on any platform and
request, path by path: the four kinds of status-only exits before or after
the probe, the range-form success, and the list-form loop with its `k`
successful fetches, ended by the success response or by a failing fetch. -/
theorem describe_levels_effects {σ : Type} (cfg : Config) (p : Plat σ) (s : σ) (msg : scmi_msg) :
    ∃ r, scmi_voltd_describe_levels cfg p s msg = .ok r
      ∧ ((msg.in_size ≠ sizeof_describe_levels_a2p
            ∧ r = scmi_status_response (Run.init msg s) SCMI_PROTOCOL_ERROR)
        ∨ (msg.in_size = sizeof_describe_levels_a2p
            ∧ (p.plat_scmi_voltd_count s msg.channel_id ≤ rd_u32 msg.in_buf 0
              ∨ msg.out_size < sizeof_describe_levels_p2a)
            ∧ r = scmi_status_response ((Run.init msg s).call (.count msg.channel_id))
                SCMI_INVALID_PARAMETERS)
        ∨ (msg.in_size = sizeof_describe_levels_a2p
            ∧ rd_u32 msg.in_buf 0 < p.plat_scmi_voltd_count s msg.channel_id
            ∧ sizeof_describe_levels_p2a ≤ msg.out_size
            ∧ ∃ st, st ≠ 0 ∧ r = scmi_status_response (describe_levels_prologue msg s) st
                ∧ ((st = SCMI_PROTOCOL_ERROR
                    ∧ ((p.plat_scmi_voltd_levels_array s msg.channel_id (rd_u32 msg.in_buf 0)
                          0 true 0).status = SCMI_SUCCESS
                      ∨ (p.plat_scmi_voltd_levels_array s msg.channel_id (rd_u32 msg.in_buf 0)
                          0 true 0).status = SCMI_NOT_SUPPORTED))
                  ∨ (st = (p.plat_scmi_voltd_levels_array s msg.channel_id
                        (rd_u32 msg.in_buf 0) 0 true 0).status
                    ∧ (p.plat_scmi_voltd_levels_array s msg.channel_id (rd_u32 msg.in_buf 0)
                          0 true 0).status ≠ SCMI_SUCCESS
                    ∧ (p.plat_scmi_voltd_levels_array s msg.channel_id (rd_u32 msg.in_buf 0)
                          0 true 0).status ≠ SCMI_NOT_SUPPORTED)))
        ∨ (msg.in_size = sizeof_describe_levels_a2p
            ∧ rd_u32 msg.in_buf 0 < p.plat_scmi_voltd_count s msg.channel_id
            ∧ sizeof_describe_levels_p2a ≤ msg.out_size
            ∧ (p.plat_scmi_voltd_levels_array s msg.channel_id (rd_u32 msg.in_buf 0) 0 true
                0).status = SCMI_NOT_SUPPORTED
            ∧ (p.plat_scmi_voltd_levels_by_step s msg.channel_id (rd_u32 msg.in_buf 0)).1 ≠ 0
            ∧ r = scmi_status_response ((describe_levels_prologue msg s).call
                  (.levels_by_step msg.channel_id (rd_u32 msg.in_buf 0)))
                (p.plat_scmi_voltd_levels_by_step s msg.channel_id (rd_u32 msg.in_buf 0)).1)
        ∨ (msg.in_size = sizeof_describe_levels_a2p
            ∧ rd_u32 msg.in_buf 0 < p.plat_scmi_voltd_count s msg.channel_id
            ∧ (p.plat_scmi_voltd_levels_array s msg.channel_id (rd_u32 msg.in_buf 0) 0 true
                0).status = SCMI_NOT_SUPPORTED
            ∧ (p.plat_scmi_voltd_levels_by_step s msg.channel_id (rd_u32 msg.in_buf 0)).1 = 0
            ∧ r.status = SCMI_SUCCESS
            ∧ r.calls = (describe_levels_prologue msg s).calls
                ++ [.levels_by_step msg.channel_id (rd_u32 msg.in_buf 0)])
        ∨ (msg.in_size = sizeof_describe_levels_a2p
            ∧ rd_u32 msg.in_buf 0 < p.plat_scmi_voltd_count s msg.channel_id
            ∧ sizeof_describe_levels_p2a ≤ msg.out_size
            ∧ (p.plat_scmi_voltd_levels_array s msg.channel_id (rd_u32 msg.in_buf 0) 0 true
                0).status = SCMI_SUCCESS
            ∧ ∃ k r1, 4 * k ≤ msg.out_size - sizeof_describe_levels_p2a
                ∧ (∀ j, j < k → (p.plat_scmi_voltd_levels_array s msg.channel_id
                    (rd_u32 msg.in_buf 0) ((rd_u32 msg.in_buf 4 + j) % 4294967296) false
                    1).status = 0)
                ∧ r1.stores = List.range' 2 k
                ∧ (∀ i, i < 2 ∨ 2 + k ≤ i → r1.msg.out i = msg.out i)
                ∧ (∀ j, j < k → r1.msg.out (2 + j)
                    = to_int32 ((p.plat_scmi_voltd_levels_array s msg.channel_id
                        (rd_u32 msg.in_buf 0) ((rd_u32 msg.in_buf 4 + j) % 4294967296) false
                        1).levels.headD 0))
                ∧ ((r.status = SCMI_SUCCESS
                    ∧ r.calls = (describe_levels_prologue msg s).calls
                        ++ fetch_calls msg.channel_id (rd_u32 msg.in_buf 0)
                            (rd_u32 msg.in_buf 4) k)
                  ∨ ((p.plat_scmi_voltd_levels_array s msg.channel_id (rd_u32 msg.in_buf 0)
                        ((rd_u32 msg.in_buf 4 + k) % 4294967296) false 1).status ≠ 0
                    ∧ 4 * (k + 1) ≤ msg.out_size - sizeof_describe_levels_p2a
                    ∧ r1.calls = (describe_levels_prologue msg s).calls
                        ++ fetch_calls msg.channel_id (rd_u32 msg.in_buf 0)
                            (rd_u32 msg.in_buf 4) k
                        ++ [fetch_call msg.channel_id (rd_u32 msg.in_buf 0)
                            ((rd_u32 msg.in_buf 4 + k) % 4294967296)]
                    ∧ r = scmi_status_response r1
                        (p.plat_scmi_voltd_levels_array s msg.channel_id (rd_u32 msg.in_buf 0)
                          ((rd_u32 msg.in_buf 4 + k) % 4294967296) false 1).status)))) := by
  by_cases hsz : msg.in_size ≠ sizeof_describe_levels_a2p
  · refine ⟨_, ?_, Or.inl ⟨hsz, rfl⟩⟩
    simp only [scmi_voltd_describe_levels, if_pos hsz]
  have hsz' : msg.in_size = sizeof_describe_levels_a2p := by simpa using hsz
  by_cases hdom : rd_u32 msg.in_buf 0 ≥ p.plat_scmi_voltd_count s msg.channel_id
  · refine ⟨_, ?_, Or.inr (Or.inl ⟨hsz', Or.inl hdom, rfl⟩)⟩
    simp only [scmi_voltd_describe_levels, if_neg hsz, if_pos hdom]
  have hdom' : rd_u32 msg.in_buf 0 < p.plat_scmi_voltd_count s msg.channel_id := by omega
  by_cases hout : msg.out_size < sizeof_describe_levels_p2a
  · refine ⟨_, ?_, Or.inr (Or.inl ⟨hsz', Or.inr hout, rfl⟩)⟩
    simp only [scmi_voltd_describe_levels, if_neg hsz, if_neg hdom, if_pos hout]
  have hout' : sizeof_describe_levels_p2a ≤ msg.out_size := by omega
  have hc := confine_in_range _ _ hdom' (rd_u32_lt msg.in_buf 0)
  by_cases hprobe : (p.plat_scmi_voltd_levels_array s msg.channel_id (rd_u32 msg.in_buf 0) 0
      true 0).status = SCMI_SUCCESS
  · by_cases hsmall : msg.out_size - sizeof_describe_levels_p2a < LEVEL_DESC_SIZE
        ∧ (p.plat_scmi_voltd_levels_array s msg.channel_id (rd_u32 msg.in_buf 0) 0 true
            0).nb_elts ≠ 0
    · refine ⟨_, ?_, Or.inr (Or.inr (Or.inl ⟨hsz', hdom', hout', SCMI_PROTOCOL_ERROR,
        protocol_error_ne_zero, rfl, Or.inl ⟨rfl, Or.inl hprobe⟩⟩))⟩
      simp only [scmi_voltd_describe_levels, if_neg hsz, if_neg hdom, if_neg hout, hc,
        if_pos hprobe, if_pos hsmall]
      rfl
    · have hfuel : (msg.out_size - sizeof_describe_levels_p2a) / 4
          ≤ (msg.out_size - sizeof_describe_levels_p2a) / LEVEL_DESC_SIZE := by
        simp only [LEVEL_DESC_SIZE]; omega
      obtain ⟨k, r1, hk, hsts, hp, hs, hfr, hcont, hres⟩ :=
        levels_loop_trace p msg.channel_id (rd_u32 msg.in_buf 0)
          (p.plat_scmi_voltd_levels_array s msg.channel_id (rd_u32 msg.in_buf 0) 0 true
            0).nb_elts
          ((msg.out_size - sizeof_describe_levels_p2a) / LEVEL_DESC_SIZE)
          (msg.out_size - sizeof_describe_levels_p2a) (rd_u32 msg.in_buf 4)
          (sizeof_describe_levels_p2a / 4) (describe_levels_prologue msg s) hfuel
          (rd_u32_lt msg.in_buf 4)
      have hpl : (describe_levels_prologue msg s).plat = s := rfl
      have hps : (describe_levels_prologue msg s).stores = [] := rfl
      have hpo : (describe_levels_prologue msg s).msg.out = msg.out := rfl
      have h2 : sizeof_describe_levels_p2a / 4 = 2 := rfl
      rw [hpl] at hsts hcont hres
      rw [hps, h2, List.nil_append] at hs
      rw [hpo, h2] at hfr
      rw [h2] at hcont
      rcases hres with ⟨heq, hcalls⟩ | ⟨heq, hne, hk4, hcalls⟩
      · have hrun : ∃ r, scmi_voltd_describe_levels cfg p s msg = .ok r
            ∧ r.status = SCMI_SUCCESS ∧ r.calls = r1.calls := by
          simp only [describe_levels_prologue, probe_call] at heq
          simp only [scmi_voltd_describe_levels, if_neg hsz, if_neg hdom, if_neg hout, hc,
            if_pos hprobe, if_neg hsmall, heq]
          refine ⟨_, rfl, ?_, ?_⟩
          · simp [memcpy_out, Run.store, Run.set_out_size_out, Run.status]
          · simp [memcpy_out, Run.store, Run.set_out_size_out]
        obtain ⟨r, hr, hrs, hrc⟩ := hrun
        refine ⟨r, hr, Or.inr (Or.inr (Or.inr (Or.inr (Or.inr ⟨hsz', hdom', hout', hprobe,
          k, r1, hk, hsts, hs, hfr, hcont, Or.inl ⟨hrs, ?_⟩⟩))))⟩
        rw [hrc, hcalls]
      · refine ⟨_, ?_, Or.inr (Or.inr (Or.inr (Or.inr (Or.inr ⟨hsz', hdom', hout', hprobe,
          k, r1, hk, hsts, hs, hfr, hcont, Or.inr ⟨hne, hk4, hcalls, rfl⟩⟩))))⟩
        simp only [describe_levels_prologue, probe_call] at heq
        simp only [scmi_voltd_describe_levels, if_neg hsz, if_neg hdom, if_neg hout, hc,
          if_pos hprobe, if_neg hsmall, heq]
  · by_cases hns : (p.plat_scmi_voltd_levels_array s msg.channel_id (rd_u32 msg.in_buf 0) 0
        true 0).status = SCMI_NOT_SUPPORTED
    · by_cases hsmall : msg.out_size < sizeof_describe_levels_p2a + 3 * LEVEL_DESC_SIZE
      · refine ⟨_, ?_, Or.inr (Or.inr (Or.inl ⟨hsz', hdom', hout', SCMI_PROTOCOL_ERROR,
          protocol_error_ne_zero, rfl, Or.inl ⟨rfl, Or.inr hns⟩⟩))⟩
        simp only [scmi_voltd_describe_levels, if_neg hsz, if_neg hdom, if_neg hout, hc,
          if_neg hprobe, if_pos hns, if_pos hsmall]
        rfl
      · by_cases hst : (p.plat_scmi_voltd_levels_by_step s msg.channel_id
            (rd_u32 msg.in_buf 0)).1 ≠ 0
        · refine ⟨_, ?_, Or.inr (Or.inr (Or.inr (Or.inl ⟨hsz', hdom', hout', hns, hst, rfl⟩)))⟩
          simp only [scmi_voltd_describe_levels, if_neg hsz, if_neg hdom, if_neg hout, hc,
            if_neg hprobe, if_pos hns, if_neg hsmall, if_pos hst]
          rfl
        · have hst0 : (p.plat_scmi_voltd_levels_by_step s msg.channel_id
              (rd_u32 msg.in_buf 0)).1 = 0 := by simpa using hst
          simp only [scmi_voltd_describe_levels, if_neg hsz, if_neg hdom, if_neg hout, hc,
            if_neg hprobe, if_pos hns, if_neg hsmall, if_neg hst]
          exact ⟨_, rfl, Or.inr (Or.inr (Or.inr (Or.inr (Or.inl ⟨hsz', hdom', hns, hst0, rfl,
            rfl⟩))))⟩
    · refine ⟨_, ?_, Or.inr (Or.inr (Or.inl ⟨hsz', hdom', hout', _, hprobe, rfl,
        Or.inr ⟨rfl, hprobe, hns⟩⟩))⟩
      simp only [scmi_voltd_describe_levels, if_neg hsz, if_neg hdom, if_neg hout, hc,
        if_neg hprobe, if_neg hns]
      rfl

/-- Membership in the fetches of the loop. -/
theorem mem_fetch_calls (ch d idx k : Nat) (c : PlatCall) :
    c ∈ fetch_calls ch d idx k ↔ ∃ j, j < k ∧ c = fetch_call ch d ((idx + j) % 4294967296) := by
  simp only [fetch_calls, List.mem_map, List.mem_range]
  constructor
  · rintro ⟨j, hj, rfl⟩; exact ⟨j, hj, rfl⟩
  · rintro ⟨j, hj, rfl⟩; exact ⟨j, hj, rfl⟩

/-- The calls made up to the probe. -/
theorem prologue_calls {σ : Type} (msg : scmi_msg) (s : σ) :
    (describe_levels_prologue msg s).calls
      = [.count msg.channel_id, .count msg.channel_id,
          probe_call msg.channel_id (rd_u32 msg.in_buf 0)] := rfl

/-! ## Describe Levels: error propagation -/

/-- C13: Describe-Levels error propagation, for a correctly sized request
with an in-range domain id and room for the response header.  If the
list-form probe returns a status other than success and Not Supported, or a
per-level fetch made by the list loop fails, or the range-form query made by
the handler fails, the response carries exactly that platform status and
its recorded length is one status word. -/
theorem describe_levels_error_propagation {σ : Type} (cfg : Config) (p : Plat σ) (s : σ)
    (msg : scmi_msg) (hlen : msg.in_size = sizeof_describe_levels_a2p)
    (hdom : rd_u32 msg.in_buf 0 < p.plat_scmi_voltd_count s msg.channel_id)
    (hout : sizeof_describe_levels_p2a ≤ msg.out_size) :
    ∃ r, scmi_voltd_describe_levels cfg p s msg = .ok r
      ∧ ((p.plat_scmi_voltd_levels_array s msg.channel_id (rd_u32 msg.in_buf 0) 0 true
              0).status ≠ SCMI_SUCCESS →
          (p.plat_scmi_voltd_levels_array s msg.channel_id (rd_u32 msg.in_buf 0) 0 true
              0).status ≠ SCMI_NOT_SUPPORTED →
          r.status_only (p.plat_scmi_voltd_levels_array s msg.channel_id (rd_u32 msg.in_buf 0)
              0 true 0).status)
      ∧ (∀ i, fetch_call msg.channel_id (rd_u32 msg.in_buf 0) i ∈ r.calls →
          (p.plat_scmi_voltd_levels_array s msg.channel_id (rd_u32 msg.in_buf 0) i false
              1).status ≠ SCMI_SUCCESS →
          r.status = (p.plat_scmi_voltd_levels_array s msg.channel_id (rd_u32 msg.in_buf 0) i
              false 1).status ∧ r.msg.out_size_out = 4)
      ∧ (PlatCall.levels_by_step msg.channel_id (rd_u32 msg.in_buf 0) ∈ r.calls →
          (p.plat_scmi_voltd_levels_by_step s msg.channel_id (rd_u32 msg.in_buf 0)).1
            ≠ SCMI_SUCCESS →
          r.status_only
            (p.plat_scmi_voltd_levels_by_step s msg.channel_id (rd_u32 msg.in_buf 0)).1) := by
  obtain ⟨r, hr, hcase⟩ := describe_levels_effects cfg p s msg
  have hns0 : (SCMI_NOT_SUPPORTED : Int) ≠ SCMI_SUCCESS := by decide
  refine ⟨r, hr, ?_⟩
  rcases hcase with ⟨hne, _⟩ | ⟨_, hbad, _⟩ | ⟨_, _, _, st, hst, rfl, hwhy⟩
    | ⟨_, _, _, hns, hbs, rfl⟩ | ⟨_, _, hns, hbs, hrs, hcalls⟩
    | ⟨_, _, _, hprobe, k, r1, hk, hsts, hs, hfr, hcont, hend⟩
  · exact absurd hlen hne
  · rcases hbad with h | h <;> omega
  · refine ⟨fun h0 h1 => ?_, fun i hi _ => ?_, fun hi _ => ?_⟩
    · rcases hwhy with ⟨_, h | h⟩ | ⟨rfl, _, _⟩
      · exact absurd h h0
      · exact absurd h h1
      · exact ⟨rfl, rfl, rfl⟩
    · have : fetch_call msg.channel_id (rd_u32 msg.in_buf 0) i
          ∈ (describe_levels_prologue msg s).calls := hi
      rw [prologue_calls] at this
      simp [fetch_call, probe_call] at this
    · have : PlatCall.levels_by_step msg.channel_id (rd_u32 msg.in_buf 0)
          ∈ (describe_levels_prologue msg s).calls := hi
      rw [prologue_calls] at this
      simp [probe_call] at this
  · refine ⟨fun _ h1 => absurd hns h1, fun i hi _ => ?_, fun _ _ => ⟨rfl, rfl, rfl⟩⟩
    have : fetch_call msg.channel_id (rd_u32 msg.in_buf 0) i
        ∈ (describe_levels_prologue msg s).calls
          ++ [PlatCall.levels_by_step msg.channel_id (rd_u32 msg.in_buf 0)] := hi
    rw [prologue_calls] at this
    simp [fetch_call, probe_call] at this
  · refine ⟨fun _ h1 => absurd hns h1, fun i hi _ => ?_, fun _ h => absurd hbs h⟩
    rw [hcalls, prologue_calls] at hi
    simp [fetch_call, probe_call] at hi
  · have hfetch : ∀ i c, c ∈ fetch_calls msg.channel_id (rd_u32 msg.in_buf 0)
        (rd_u32 msg.in_buf 4) k →
        c = fetch_call msg.channel_id (rd_u32 msg.in_buf 0) i →
        (p.plat_scmi_voltd_levels_array s msg.channel_id (rd_u32 msg.in_buf 0) i false
          1).status = 0 := by
      intro i c hc hci
      obtain ⟨j, hj, hcj⟩ := (mem_fetch_calls _ _ _ _ _).1 hc
      rw [hci] at hcj
      simp only [fetch_call, PlatCall.levels_array.injEq, true_and, and_true] at hcj
      rw [hcj]
      exact hsts j hj
    have hnostep : ∀ c, c ∈ fetch_calls msg.channel_id (rd_u32 msg.in_buf 0)
        (rd_u32 msg.in_buf 4) k →
        c ≠ PlatCall.levels_by_step msg.channel_id (rd_u32 msg.in_buf 0) := by
      intro c hc
      obtain ⟨j, _, hcj⟩ := (mem_fetch_calls _ _ _ _ _).1 hc
      rw [hcj]
      simp [fetch_call]
    rcases hend with ⟨hrs, hcalls⟩ | ⟨hne, hk4, hcalls, rfl⟩
    · refine ⟨fun h0 _ => absurd hprobe h0, fun i hi hbad => ?_, fun hi _ => ?_⟩
      · rw [hcalls, prologue_calls, List.mem_append] at hi
        rcases hi with hi | hi
        · simp [fetch_call, probe_call] at hi
        · exact absurd (hfetch i _ hi rfl) hbad
      · rw [hcalls, prologue_calls, List.mem_append] at hi
        rcases hi with hi | hi
        · simp [probe_call] at hi
        · exact absurd rfl (hnostep _ hi)
    · refine ⟨fun h0 _ => absurd hprobe h0, fun i hi hbad => ?_, fun hi _ => ?_⟩
      · have hi2 : fetch_call msg.channel_id (rd_u32 msg.in_buf 0) i ∈ r1.calls := hi
        rw [hcalls, prologue_calls, List.mem_append, List.mem_append] at hi2
        rcases hi2 with (hi2 | hi2) | hi2
        · simp [fetch_call, probe_call] at hi2
        · exact absurd (hfetch i _ hi2 rfl) hbad
        · simp only [List.mem_singleton, fetch_call, PlatCall.levels_array.injEq, true_and,
            and_true] at hi2
          rw [hi2]
          exact ⟨rfl, rfl⟩
      · have hi2 : PlatCall.levels_by_step msg.channel_id (rd_u32 msg.in_buf 0) ∈ r1.calls := hi
        rw [hcalls, prologue_calls, List.mem_append, List.mem_append] at hi2
        rcases hi2 with (hi2 | hi2) | hi2
        · simp [probe_call] at hi2
        · exact absurd rfl (hnostep _ hi2)
        · simp [fetch_call] at hi2

/-- C13 (witness): on the platform whose fetches fail with Generic Error
from catalog position 1 on, a request at level index 0 with room for two
levels. -/
theorem describe_levels_error_propagation_witness :
    describe_levels_traces (scmi_voltd_describe_levels cfg_loose flaky_plat ()
        (describe_levels_request 0 0 0 16)) = some (SCMI_GENERIC_ERROR, 4, [2, 0], 800000)
      ∧ ∃ r, scmi_voltd_describe_levels cfg_loose flaky_plat ()
            (describe_levels_request 0 0 0 16) = .ok r
          ∧ ((flaky_plat.plat_scmi_voltd_levels_array () 0 0 0 true 0).status ≠ SCMI_SUCCESS →
              (flaky_plat.plat_scmi_voltd_levels_array () 0 0 0 true 0).status
                ≠ SCMI_NOT_SUPPORTED →
              r.status_only (flaky_plat.plat_scmi_voltd_levels_array () 0 0 0 true 0).status)
          ∧ (∀ i, fetch_call 0 0 i ∈ r.calls →
              (flaky_plat.plat_scmi_voltd_levels_array () 0 0 i false 1).status ≠ SCMI_SUCCESS →
              r.status = (flaky_plat.plat_scmi_voltd_levels_array () 0 0 i false 1).status
                ∧ r.msg.out_size_out = 4)
          ∧ (PlatCall.levels_by_step 0 0 ∈ r.calls →
              (flaky_plat.plat_scmi_voltd_levels_by_step () 0 0).1 ≠ SCMI_SUCCESS →
              r.status_only (flaky_plat.plat_scmi_voltd_levels_by_step () 0 0).1) :=
  ⟨by decide, describe_levels_error_propagation cfg_loose flaky_plat ()
    (describe_levels_request 0 0 0 16) rfl (by decide) (by decide)⟩

/-! ## Describe Levels: the output buffer on error -/

/-- C19 (counterexample): on the platform whose fetches fail with Generic
Error from catalog position 1 on, a request at level index 0 with room for
two levels, over a zeroed output buffer, ends with Generic Error and a
recorded length of one status word, yet the level descriptor 800000 of the
first fetch has been stored in cell 2 (byte offset 8) before the failure. -/
theorem partial_payload_left_on_fetch_failure :
    (describe_levels_request 0 0 0 16).out 2 = 0
      ∧ describe_levels_traces (scmi_voltd_describe_levels cfg_loose flaky_plat ()
          (describe_levels_request 0 0 0 16)) = some (SCMI_GENERIC_ERROR, 4, [2, 0], 800000)
      ∧ SCMI_GENERIC_ERROR ≠ SCMI_SUCCESS := by
  refine ⟨rfl, by decide, by decide⟩

/-- C19 (amended): for every Describe Levels request that ends with a
non-success status, the recorded length is one status word and the response
header is not written: the flags cell keeps its content.  The stores of the
run are `k` level descriptors from cell 2 on, followed by the status word,
and every other cell keeps its content; `k` is 0, so that the status word
is the only cell modified, on every exit other than a per-level fetch that
fails after `k` successful fetches, whose levels stay stored at the byte
offsets from 8 on, beyond the recorded length. -/
theorem describe_levels_error_buffer {σ : Type} (cfg : Config) (p : Plat σ) (s : σ)
    (msg : scmi_msg) (r : Run σ)
    (hrun : scmi_voltd_describe_levels cfg p s msg = .ok r)
    (herr : r.status ≠ SCMI_SUCCESS) :
    r.msg.out_size_out = 4 ∧ r.msg.out 1 = msg.out 1
      ∧ ∃ k, r.stores = List.range' 2 k ++ [0]
          ∧ (∀ i, i ≠ 0 → (i < 2 ∨ 2 + k ≤ i) → r.msg.out i = msg.out i)
          ∧ (∀ j, j < k →
              (p.plat_scmi_voltd_levels_array s msg.channel_id (rd_u32 msg.in_buf 0)
                  ((rd_u32 msg.in_buf 4 + j) % 4294967296) false 1).status = SCMI_SUCCESS
              ∧ r.msg.out (2 + j)
                  = to_int32 ((p.plat_scmi_voltd_levels_array s msg.channel_id
                      (rd_u32 msg.in_buf 0) ((rd_u32 msg.in_buf 4 + j) % 4294967296) false
                      1).levels.headD 0))
          ∧ (0 < k →
              (p.plat_scmi_voltd_levels_array s msg.channel_id (rd_u32 msg.in_buf 0) 0 true
                  0).status = SCMI_SUCCESS
              ∧ r.status = (p.plat_scmi_voltd_levels_array s msg.channel_id
                  (rd_u32 msg.in_buf 0) ((rd_u32 msg.in_buf 4 + k) % 4294967296) false
                  1).status
              ∧ sizeof_describe_levels_p2a + LEVEL_DESC_SIZE * k ≤ msg.out_size) := by
  obtain ⟨r0, hr0, hcase⟩ := describe_levels_effects cfg p s msg
  rw [hrun] at hr0
  cases hr0
  have early : ∀ (q : Run σ) (st : Int), q.stores = [] → q.msg.out = msg.out →
      r = scmi_status_response q st →
      r.msg.out_size_out = 4 ∧ r.msg.out 1 = msg.out 1
        ∧ ∃ k, r.stores = List.range' 2 k ++ [0]
          ∧ (∀ i, i ≠ 0 → (i < 2 ∨ 2 + k ≤ i) → r.msg.out i = msg.out i)
          ∧ (∀ j, j < k →
              (p.plat_scmi_voltd_levels_array s msg.channel_id (rd_u32 msg.in_buf 0)
                  ((rd_u32 msg.in_buf 4 + j) % 4294967296) false 1).status = SCMI_SUCCESS
              ∧ r.msg.out (2 + j)
                  = to_int32 ((p.plat_scmi_voltd_levels_array s msg.channel_id
                      (rd_u32 msg.in_buf 0) ((rd_u32 msg.in_buf 4 + j) % 4294967296) false
                      1).levels.headD 0))
          ∧ (0 < k →
              (p.plat_scmi_voltd_levels_array s msg.channel_id (rd_u32 msg.in_buf 0) 0 true
                  0).status = SCMI_SUCCESS
              ∧ r.status = (p.plat_scmi_voltd_levels_array s msg.channel_id
                  (rd_u32 msg.in_buf 0) ((rd_u32 msg.in_buf 4 + k) % 4294967296) false
                  1).status
              ∧ sizeof_describe_levels_p2a + LEVEL_DESC_SIZE * k ≤ msg.out_size) := by
    intro q st hqs hqo hrq
    subst hrq
    refine ⟨rfl, ?_, 0, ?_, ?_, fun j hj => by omega, fun h => by omega⟩
    · simp [scmi_status_response, Run.store, Run.set_out_size_out, hqo]
    · simp [scmi_status_response, Run.store, Run.set_out_size_out, hqs]
    · intro i hi _
      simp [scmi_status_response, Run.store, Run.set_out_size_out, hqo, hi]
  rcases hcase with ⟨_, h⟩ | ⟨_, _, h⟩ | ⟨_, _, _, st, _, h, _⟩
    | ⟨_, _, _, _, _, h⟩ | ⟨_, _, _, _, hrs, _⟩
    | ⟨_, _, hout, hprobe, k, r1, hk, hsts, hs, hfr, hcont, hend⟩
  · exact early _ _ rfl rfl h
  · exact early _ _ rfl rfl h
  · exact early _ _ rfl rfl h
  · exact early _ _ rfl rfl h
  · exact absurd hrs herr
  · rcases hend with ⟨hrs, _⟩ | ⟨hne, hk4, hcalls, h⟩
    · exact absurd hrs herr
    · subst h
      refine ⟨rfl, ?_, k, ?_, ?_, fun j hj => ⟨hsts j hj, ?_⟩, fun _ => ⟨hprobe, rfl, ?_⟩⟩
      · have := hfr 1 (Or.inl (by omega))
        simpa [scmi_status_response, Run.store, Run.set_out_size_out] using this
      · simp [scmi_status_response, Run.store, Run.set_out_size_out, hs]
      · intro i hi hrange
        have := hfr i hrange
        simpa [scmi_status_response, Run.store, Run.set_out_size_out, hi] using this
      · have := hcont j hj
        have hne0 : 2 + j ≠ 0 := by omega
        simpa [scmi_status_response, Run.store, Run.set_out_size_out, hne0] using this
      · simp only [sizeof_describe_levels_p2a, LEVEL_DESC_SIZE] at hout hk4 ⊢
        omega

/-- C19 (witness): the failing request of the counterexample; the run stores
one level descriptor, then the status word. -/
theorem describe_levels_error_buffer_witness :
    ∃ r, scmi_voltd_describe_levels cfg_loose flaky_plat ()
        (describe_levels_request 0 0 0 16) = .ok r ∧ r.status ≠ SCMI_SUCCESS
      ∧ r.msg.out_size_out = 4 ∧ r.msg.out 1 = (describe_levels_request 0 0 0 16).out 1
      ∧ ∃ k, r.stores = List.range' 2 k ++ [0]
          ∧ (∀ i, i ≠ 0 → (i < 2 ∨ 2 + k ≤ i) →
              r.msg.out i = (describe_levels_request 0 0 0 16).out i)
          ∧ (∀ j, j < k →
              (flaky_plat.plat_scmi_voltd_levels_array () 0 0 ((0 + j) % 4294967296) false
                  1).status = SCMI_SUCCESS
              ∧ r.msg.out (2 + j)
                  = to_int32 ((flaky_plat.plat_scmi_voltd_levels_array () 0 0
                      ((0 + j) % 4294967296) false 1).levels.headD 0))
          ∧ (0 < k →
              (flaky_plat.plat_scmi_voltd_levels_array () 0 0 0 true 0).status = SCMI_SUCCESS
              ∧ r.status = (flaky_plat.plat_scmi_voltd_levels_array () 0 0
                  ((0 + k) % 4294967296) false 1).status
              ∧ sizeof_describe_levels_p2a + LEVEL_DESC_SIZE * k ≤ 16) := by
  obtain ⟨r, hr, _⟩ := describe_levels_paths cfg_loose flaky_plat ()
    (describe_levels_request 0 0 0 16)
  have e : response_of (scmi_voltd_describe_levels cfg_loose flaky_plat ()
      (describe_levels_request 0 0 0 16)) = some (SCMI_GENERIC_ERROR, 4) := by decide
  rw [hr] at e
  have hst : r.status = SCMI_GENERIC_ERROR := by
    simp only [response_of, Option.some.injEq, Prod.mk.injEq] at e
    exact e.1
  have herr : r.status ≠ SCMI_SUCCESS := by rw [hst]; decide
  exact ⟨r, hr, herr, describe_levels_error_buffer cfg_loose flaky_plat ()
    (describe_levels_request 0 0 0 16) r hr herr⟩

/-! ## Domain ids reaching the platform -/

/-- A payload copy makes no platform call. -/
theorem memcpy_out_calls {σ : Type} (l : List Int) :
    ∀ (r : Run σ) (i : Nat), (memcpy_out r i l).calls = r.calls := by
  induction l with
  | nil => intro r i; rfl
  | cons a l ih => intro r i; simp only [memcpy_out]; rw [ih]; rfl

/-- Writing a response makes no platform call. -/
theorem write_response_calls {σ : Type} (r : Run σ) (l : List Int) :
    (scmi_write_response r l).calls = r.calls := by
  simp only [scmi_write_response]
  split
  · rfl
  · show (memcpy_out r 0 l).calls = r.calls
    exact memcpy_out_calls l r 0

/-- The confinement step returns an index below the size, whatever the
index. -/
theorem confine_lt (index size : Nat) (h : 0 < size) : confine_array_index index size < size := by
  simp only [confine_array_index]
  split <;> omega

/-- C20: Backend domain-id invariant.  In every run of every handler, each
platform call is made on the channel of the request, and each platform call
that takes a domain id (name, levels list, levels range, get and set level,
get and set config) is made with the domain id carried in the request,
which is strictly below the domain count of the channel; the confinement
step applied to that id returns it unchanged.  The confinement step returns
an index inside `[0, size)` for every index. -/
theorem backend_domain_id_invariant {σ : Type} (t : HandlerTag) (cfg : Config) (p : Plat σ)
    (s : σ) (msg : scmi_msg) (r : Run σ) (hrun : t.run cfg p s msg = .ok r) :
    (∀ c ∈ r.calls, c.channel = msg.channel_id
        ∧ ∀ d, c.domain = some d →
            d = rd_u32 msg.in_buf 0 ∧ d < p.plat_scmi_voltd_count s msg.channel_id
              ∧ confine_array_index (rd_u32 msg.in_buf 0)
                  (p.plat_scmi_voltd_count s msg.channel_id) = d)
      ∧ (∀ index size, 0 < size → confine_array_index index size < size)
      ∧ (∀ index size, index < size → confine_array_index index size = index) := by
  refine ⟨?_, confine_lt, fun index size h => by simp [confine_array_index, h]⟩
  have h32 := rd_u32_lt msg.in_buf 0
  -- a count query, and a call with the request's in-range domain id, are as stated
  have hcount : ∀ c, c = PlatCall.count msg.channel_id →
      c.channel = msg.channel_id
        ∧ ∀ d, c.domain = some d →
            d = rd_u32 msg.in_buf 0 ∧ d < p.plat_scmi_voltd_count s msg.channel_id
              ∧ confine_array_index (rd_u32 msg.in_buf 0)
                  (p.plat_scmi_voltd_count s msg.channel_id) = d := by
    intro c hc
    subst hc
    exact ⟨rfl, fun d hd => by simp [PlatCall.domain] at hd⟩
  have hdomcall : rd_u32 msg.in_buf 0 < p.plat_scmi_voltd_count s msg.channel_id →
      ∀ c : PlatCall, c.channel = msg.channel_id → c.domain = some (rd_u32 msg.in_buf 0) →
      c.channel = msg.channel_id
        ∧ ∀ d, c.domain = some d →
            d = rd_u32 msg.in_buf 0 ∧ d < p.plat_scmi_voltd_count s msg.channel_id
              ∧ confine_array_index (rd_u32 msg.in_buf 0)
                  (p.plat_scmi_voltd_count s msg.channel_id) = d := by
    intro hlt c hch hd
    refine ⟨hch, fun d hd2 => ?_⟩
    rw [hd] at hd2
    cases hd2
    exact ⟨rfl, hlt, by simp [confine_array_index, hlt]⟩
  -- the four handlers that make one call with the domain id
  have simple : ∀ (c3 : PlatCall), c3.channel = msg.channel_id →
      c3.domain = some (rd_u32 msg.in_buf 0) →
      (r.calls = [] ∨ r.calls = [.count msg.channel_id]
        ∨ (rd_u32 msg.in_buf 0 < p.plat_scmi_voltd_count s msg.channel_id
            ∧ r.calls = [.count msg.channel_id, .count msg.channel_id, c3])) →
      ∀ c ∈ r.calls, c.channel = msg.channel_id
        ∧ ∀ d, c.domain = some d →
            d = rd_u32 msg.in_buf 0 ∧ d < p.plat_scmi_voltd_count s msg.channel_id
              ∧ confine_array_index (rd_u32 msg.in_buf 0)
                  (p.plat_scmi_voltd_count s msg.channel_id) = d := by
    intro c3 hch hd hcalls c hc
    rcases hcalls with h | h | ⟨hlt, h⟩
    · rw [h] at hc; simp at hc
    · rw [h] at hc
      simp only [List.mem_singleton] at hc
      exact hcount c hc
    · rw [h] at hc
      simp only [List.mem_cons, List.mem_singleton, List.not_mem_nil, or_false] at hc
      rcases hc with hc | hc | hc
      · exact hcount c hc
      · exact hcount c hc
      · subst hc; exact hdomcall hlt _ hch hd
  cases t
  case report_version =>
    apply simple (.get_level msg.channel_id (rd_u32 msg.in_buf 0)) rfl rfl
    left
    simp only [HandlerTag.run, report_version] at hrun
    split at hrun
    · cases hrun; rfl
    · cases hrun; rw [write_response_calls]; rfl
  case report_attributes =>
    apply simple (.get_level msg.channel_id (rd_u32 msg.in_buf 0)) rfl rfl
    right; left
    simp only [HandlerTag.run, report_attributes] at hrun
    split at hrun
    · cases hrun
    · split at hrun
      · cases hrun; rfl
      · cases hrun; rw [write_response_calls]; rfl
  case report_message_attributes =>
    apply simple (.get_level msg.channel_id (rd_u32 msg.in_buf 0)) rfl rfl
    left
    simp only [HandlerTag.run, report_message_attributes] at hrun
    split at hrun
    · cases hrun; rfl
    · split at hrun
      · cases hrun; rfl
      · cases hrun; rw [write_response_calls]; rfl
  case scmi_voltd_domain_attributes =>
    apply simple (.get_name msg.channel_id (rd_u32 msg.in_buf 0)) rfl rfl
    by_cases hsize : msg.in_size ≠ sizeof_attributes_a2p
    · simp only [HandlerTag.run, scmi_voltd_domain_attributes, if_pos hsize] at hrun
      cases hrun; left; rfl
    · by_cases hdom : rd_u32 msg.in_buf 0 ≥ p.plat_scmi_voltd_count s msg.channel_id
      · simp only [HandlerTag.run, scmi_voltd_domain_attributes, if_neg hsize, if_pos hdom]
          at hrun
        cases hrun; right; left; rfl
      · have hlt : rd_u32 msg.in_buf 0 < p.plat_scmi_voltd_count s msg.channel_id := by omega
        have hc := confine_in_range _ _ hlt h32
        simp only [HandlerTag.run, scmi_voltd_domain_attributes, if_neg hsize, if_neg hdom, hc]
          at hrun
        right; right
        refine ⟨hlt, ?_⟩
        split at hrun
        · cases hrun; rfl
        · cases hrun; rw [write_response_calls]; rfl
  case scmi_voltd_describe_levels =>
    obtain ⟨r0, hr0, hcase⟩ := describe_levels_effects cfg p s msg
    have hrun2 : scmi_voltd_describe_levels cfg p s msg = .ok r := hrun
    rw [hrun2] at hr0
    cases hr0
    have hprol : rd_u32 msg.in_buf 0 < p.plat_scmi_voltd_count s msg.channel_id →
        ∀ c ∈ (describe_levels_prologue msg s).calls, c.channel = msg.channel_id
          ∧ ∀ d, c.domain = some d →
              d = rd_u32 msg.in_buf 0 ∧ d < p.plat_scmi_voltd_count s msg.channel_id
                ∧ confine_array_index (rd_u32 msg.in_buf 0)
                    (p.plat_scmi_voltd_count s msg.channel_id) = d := by
      intro hlt c hc
      rw [prologue_calls] at hc
      simp only [List.mem_cons, List.mem_singleton, List.not_mem_nil, or_false] at hc
      rcases hc with hc | hc | hc
      · exact hcount c hc
      · exact hcount c hc
      · subst hc; exact hdomcall hlt _ rfl rfl
    have hfetches : rd_u32 msg.in_buf 0 < p.plat_scmi_voltd_count s msg.channel_id →
        ∀ k, ∀ c ∈ fetch_calls msg.channel_id (rd_u32 msg.in_buf 0) (rd_u32 msg.in_buf 4) k,
          c.channel = msg.channel_id
          ∧ ∀ d, c.domain = some d →
              d = rd_u32 msg.in_buf 0 ∧ d < p.plat_scmi_voltd_count s msg.channel_id
                ∧ confine_array_index (rd_u32 msg.in_buf 0)
                    (p.plat_scmi_voltd_count s msg.channel_id) = d := by
      intro hlt k c hc
      obtain ⟨j, _, hcj⟩ := (mem_fetch_calls _ _ _ _ _).1 hc
      subst hcj
      exact hdomcall hlt _ rfl rfl
    rcases hcase with ⟨_, h⟩ | ⟨_, _, h⟩ | ⟨_, hlt, _, st, _, h, _⟩
      | ⟨_, hlt, _, _, _, h⟩ | ⟨_, hlt, _, _, _, hcalls⟩
      | ⟨_, hlt, _, _, k, r1, _, _, _, _, _, hend⟩
    · subst h; intro c hc; exact absurd hc (by simp [scmi_status_response, Run.store,
        Run.set_out_size_out, Run.init])
    · subst h
      intro c hc
      have : c = PlatCall.count msg.channel_id := by
        simpa [scmi_status_response, Run.store, Run.set_out_size_out, Run.init, Run.call]
          using hc
      exact hcount c this
    · subst h; intro c hc; exact hprol hlt c hc
    · subst h
      intro c hc
      have hc2 : c ∈ (describe_levels_prologue msg s).calls
          ++ [PlatCall.levels_by_step msg.channel_id (rd_u32 msg.in_buf 0)] := hc
      rcases List.mem_append.1 hc2 with h1 | h1
      · exact hprol hlt c h1
      · simp only [List.mem_singleton] at h1
        subst h1; exact hdomcall hlt _ rfl rfl
    · intro c hc
      rw [hcalls] at hc
      rcases List.mem_append.1 hc with h1 | h1
      · exact hprol hlt c h1
      · simp only [List.mem_singleton] at h1
        subst h1; exact hdomcall hlt _ rfl rfl
    · rcases hend with ⟨_, hcalls⟩ | ⟨_, _, hcalls, h⟩
      · intro c hc
        rw [hcalls] at hc
        rcases List.mem_append.1 hc with h1 | h1
        · exact hprol hlt c h1
        · exact hfetches hlt k c h1
      · subst h
        intro c hc
        have hc2 : c ∈ r1.calls := hc
        rw [hcalls] at hc2
        rcases List.mem_append.1 hc2 with h1 | h1
        · rcases List.mem_append.1 h1 with h2 | h2
          · exact hprol hlt c h2
          · exact hfetches hlt k c h2
        · simp only [List.mem_singleton] at h1
          subst h1; exact hdomcall hlt _ rfl rfl
  case scmi_voltd_config_set =>
    apply simple (.set_config msg.channel_id (rd_u32 msg.in_buf 0)
      (rd_u32 msg.in_buf 4 &&& SCMI_VOLTAGE_DOMAIN_CONFIG_MASK)) rfl rfl
    by_cases hsize : msg.in_size ≠ sizeof_config_set_a2p
    · simp only [HandlerTag.run, scmi_voltd_config_set, if_pos hsize] at hrun
      cases hrun; left; rfl
    · by_cases hdom : rd_u32 msg.in_buf 0 ≥ p.plat_scmi_voltd_count s msg.channel_id
      · simp only [HandlerTag.run, scmi_voltd_config_set, if_neg hsize, if_pos hdom] at hrun
        cases hrun; right; left; rfl
      · have hlt : rd_u32 msg.in_buf 0 < p.plat_scmi_voltd_count s msg.channel_id := by omega
        have hc := confine_in_range _ _ hlt h32
        simp only [HandlerTag.run, scmi_voltd_config_set, if_neg hsize, if_neg hdom, hc] at hrun
        cases hrun; right; right; exact ⟨hlt, rfl⟩
  case scmi_voltd_config_get =>
    apply simple (.get_config msg.channel_id (rd_u32 msg.in_buf 0)) rfl rfl
    by_cases hsize : msg.in_size ≠ sizeof_config_get_a2p
    · simp only [HandlerTag.run, scmi_voltd_config_get, if_pos hsize] at hrun
      cases hrun; left; rfl
    · by_cases hdom : rd_u32 msg.in_buf 0 ≥ p.plat_scmi_voltd_count s msg.channel_id
      · simp only [HandlerTag.run, scmi_voltd_config_get, if_neg hsize, if_pos hdom] at hrun
        cases hrun; right; left; rfl
      · have hlt : rd_u32 msg.in_buf 0 < p.plat_scmi_voltd_count s msg.channel_id := by omega
        have hc := confine_in_range _ _ hlt h32
        simp only [HandlerTag.run, scmi_voltd_config_get, if_neg hsize, if_neg hdom, hc] at hrun
        right; right
        refine ⟨hlt, ?_⟩
        split at hrun
        · cases hrun; rfl
        · cases hrun; rw [write_response_calls]; rfl
  case scmi_voltd_level_set =>
    apply simple (.set_level msg.channel_id (rd_u32 msg.in_buf 0) (rd_s32 msg.in_buf 8)) rfl rfl
    by_cases hsize : msg.in_size ≠ sizeof_level_set_a2p
    · simp only [HandlerTag.run, scmi_voltd_level_set, if_pos hsize] at hrun
      cases hrun; left; rfl
    · by_cases hdom : rd_u32 msg.in_buf 0 ≥ p.plat_scmi_voltd_count s msg.channel_id
      · simp only [HandlerTag.run, scmi_voltd_level_set, if_neg hsize, if_pos hdom] at hrun
        cases hrun; right; left; rfl
      · have hlt : rd_u32 msg.in_buf 0 < p.plat_scmi_voltd_count s msg.channel_id := by omega
        have hc := confine_in_range _ _ hlt h32
        simp only [HandlerTag.run, scmi_voltd_level_set, if_neg hsize, if_neg hdom, hc] at hrun
        cases hrun; right; right; exact ⟨hlt, rfl⟩
  case scmi_voltd_level_get =>
    apply simple (.get_level msg.channel_id (rd_u32 msg.in_buf 0)) rfl rfl
    by_cases hsize : msg.in_size ≠ sizeof_level_get_a2p
    · simp only [HandlerTag.run, scmi_voltd_level_get, if_pos hsize] at hrun
      cases hrun; left; rfl
    · by_cases hdom : rd_u32 msg.in_buf 0 ≥ p.plat_scmi_voltd_count s msg.channel_id
      · simp only [HandlerTag.run, scmi_voltd_level_get, if_neg hsize, if_pos hdom] at hrun
        cases hrun; right; left; rfl
      · have hlt : rd_u32 msg.in_buf 0 < p.plat_scmi_voltd_count s msg.channel_id := by omega
        have hc := confine_in_range _ _ hlt h32
        simp only [HandlerTag.run, scmi_voltd_level_get, if_neg hsize, if_neg hdom, hc] at hrun
        cases hrun; right; right
        exact ⟨hlt, by rw [write_response_calls]; rfl⟩

/-- C20 (witness): the Describe Levels run at level index 1 on the example
platform, which probes and fetches on domain 0. -/
theorem backend_domain_id_invariant_witness :
    ∃ r, HandlerTag.scmi_voltd_describe_levels.run cfg_loose demo_plat demo_state
        (describe_levels_request 0 0 1 12) = .ok r
      ∧ (∀ c ∈ r.calls, c.channel = 0
          ∧ ∀ d, c.domain = some d →
              d = rd_u32 (describe_levels_request 0 0 1 12).in_buf 0
                ∧ d < demo_plat.plat_scmi_voltd_count demo_state 0
                ∧ confine_array_index (rd_u32 (describe_levels_request 0 0 1 12).in_buf 0)
                    (demo_plat.plat_scmi_voltd_count demo_state 0) = d)
      ∧ (∀ index size, 0 < size → confine_array_index index size < size)
      ∧ (∀ index size, index < size → confine_array_index index size = index) := by
  obtain ⟨r, hr, _⟩ := describe_levels_paths cfg_loose demo_plat demo_state
    (describe_levels_request 0 0 1 12)
  exact ⟨r, hr, backend_domain_id_invariant HandlerTag.scmi_voltd_describe_levels cfg_loose
    demo_plat demo_state (describe_levels_request 0 0 1 12) r hr⟩

end VoltageDomain
